import Mathlib

/-!
# TopologicEnergy: face classification and surface construction

A shallow embedding of `EnergyModel` (src/EnrgyModel.cpp): the face classifier
(`CalculateFaceType`), the boundary-condition and aperture resolver
(`AddSurface`), the story lookup (`StoryNumber`) and the polygon scaling
helpers (`ScaleVertices`, `GetCentreVertex`).

Conventions of the embedding.

* `double` values are elements of a linear ordered field `K` (exact arithmetic,
  no NaN, no rounding).  Every definition is computable at `K = ℚ`.
* The geometric-topology kernel and the simulation-model library are external
  to the repository.  The calls whose result the code only consumes
  (triangulation, containment, normalisation, angle, outward normal, areas,
  `Math::Sqrt`) are the fields of a `Kernel` record passed as a parameter.
* A C++ exception is an `Except.error` carrying the message; because the
  simulation model is mutated in place, every operation that can throw also
  returns the state reached at the point of the throw.
-/

namespace TopologicEnergy

/-! ## Geometry -/

/-- Dynamo/OpenStudio vector (`Autodesk::DesignScript::Geometry::Vector`,
`OpenStudio::Vector3d`). -/
@[ext]
structure Vector (K : Type) where
  X : K
  Y : K
  Z : K

/-- Topologic vertex; its `BasicGeometry` is the Dynamo point with the same
coordinates, so one type serves for both. -/
@[ext]
structure Vertex (K : Type) where
  X : K
  Y : K
  Z : K

/-- OpenStudio point (`OpenStudio::Point3d`). -/
@[ext]
structure Point3d (K : Type) where
  x : K
  y : K
  z : K

section Geometry

variable {K : Type} [LinearOrderedField K]

/-- Mirrors `Vector::Cross`. -/
def Vector.Cross (a b : Vector K) : Vector K :=
  ⟨a.Y * b.Z - a.Z * b.Y, a.Z * b.X - a.X * b.Z, a.X * b.Y - a.Y * b.X⟩

/-- Mirrors `Vector::Scale(x, y, z)`. -/
def Vector.Scale (a : Vector K) (sx sy sz : K) : Vector K :=
  ⟨a.X * sx, a.Y * sy, a.Z * sz⟩

/-- Mirrors `Vector::Reverse`. -/
def Vector.Reverse (a : Vector K) : Vector K :=
  ⟨-a.X, -a.Y, -a.Z⟩

/-- Mirrors `Vector3d::dot`. -/
def Vector.dot (a b : Vector K) : K :=
  a.X * b.X + a.Y * b.Y + a.Z * b.Z

/-- Mirrors `Point::AsVector`. -/
def Vertex.AsVector (p : Vertex K) : Vector K :=
  ⟨p.X, p.Y, p.Z⟩

/-- Mirrors `Point::Subtract(vector)`. -/
def Vertex.Subtract (p : Vertex K) (v : Vector K) : Vertex K :=
  ⟨p.X - v.X, p.Y - v.Y, p.Z - v.Z⟩

/-- Mirrors `Point::Add(vector)`. -/
def Vertex.Add (p : Vertex K) (v : Vector K) : Vertex K :=
  ⟨p.X + v.X, p.Y + v.Y, p.Z + v.Z⟩

/-- Mirrors `Geometry::Translate(vector)`. -/
def Vertex.Translate (p : Vertex K) (v : Vector K) : Vertex K :=
  ⟨p.X + v.X, p.Y + v.Y, p.Z + v.Z⟩

/-- Mirrors `Geometry::Scale(x, y, z)`: scaling about the origin. -/
def Vertex.Scale (p : Vertex K) (sx sy sz : K) : Vertex K :=
  ⟨p.X * sx, p.Y * sy, p.Z * sz⟩

/-- The `gcnew OpenStudio::Point3d(v->X, v->Y, v->Z)` conversion. -/
def Vertex.toPoint3d (v : Vertex K) : Point3d K :=
  ⟨v.X, v.Y, v.Z⟩

end Geometry

/-! ## Topology -/

/-- The face of an aperture; only its external boundary is read. -/
structure ApertureFace (K : Type) where
  ExternalBoundary : List (Vertex K)

/-- An item of `Face::Contents`.  `aperture none` is an aperture whose
topology is not a face (the `dynamic_cast<Face^>` yields null). -/
inductive Content (K : Type) where
  | aperture (topology : Option (ApertureFace K))
  | other

/-- Topologic face, reduced to what `EnergyModel` reads from it. -/
structure Face (K : Type) where
  /-- Mirrors `Face::Vertices` -/
  Vertices : List (Vertex K)
  /-- Mirrors `Face::ExternalBoundary->Vertices` -/
  ExternalBoundary : List (Vertex K)
  /-- Mirrors `Face::Contents` -/
  Contents : List (Content K)
  /-- Mirrors `Face::Cells` (identifiers of the cells the face bounds) -/
  Cells : List Nat

/-- Topologic cell. -/
structure Cell (K : Type) where
  /-- Mirrors `Cell::Faces` -/
  Faces : List (Face K)
  /-- Mirrors `Cell::CenterOfMass` -/
  CenterOfMass : Vertex K

/-- The library calls whose results the code consumes. -/
structure Kernel (K : Type) where
  /-- Mirrors `Math::Sqrt` -/
  Sqrt : K → K
  /-- Mirrors `FaceUtility::Triangulate(face, 0.01)` -/
  Triangulate : Face K → List (Face K)
  /-- Mirrors `Face::CenterOfMass` -/
  CenterOfMass : Face K → Vertex K
  /-- Mirrors `Vector::Normalized` (and `Vector3d::normalize`, the same operation of the
  simulation library) -/
  Normalized : Vector K → Vector K
  /-- Mirrors `Vector::AngleWithVector`, in degrees -/
  AngleWithVector : Vector K → Vector K → K
  /-- Mirrors `CellUtility::Contains(cell, vertex, true, 0.0001)` -/
  Contains : Cell K → Vertex K → Bool
  /-- Mirrors `FaceUtility::Area` of an aperture face -/
  Area : ApertureFace K → K
  /-- Mirrors `PlanarSurface::outwardNormal` of a vertex loop -/
  outwardNormal : List (Point3d K) → Vector K
  /-- Mirrors `PlanarSurface::grossArea` of a vertex loop -/
  grossArea : List (Point3d K) → K
  /-- the success flag of `SubSurface::setSurface`, given the sub-surface loop
  and the parent loop -/
  setSurfaceOk : List (Point3d K) → List (Point3d K) → Bool

/-- Mirrors `enum FaceType`. -/
inductive FaceType where
  | FACE_WALL
  | FACE_FLOOR
  | FACE_ROOFCEILING
  deriving DecidableEq, Repr

open FaceType

section Classifier

variable {K : Type} [LinearOrderedField K]

/-- Mirrors `EnergyModel::GetFacePoints`. -/
def GetFacePoints (buildingFace : Face K) : List (Point3d K) :=
  buildingFace.ExternalBoundary.map Vertex.toPoint3d

/-- The `for each` loop of `EnergyModel::IsUnderground`, with its early
`return false`. -/
def IsUndergroundLoop : List (Vertex K) → Bool
  | [] => true
  | aVertex :: rest => if aVertex.Z > 0 then false else IsUndergroundLoop rest

/-- Mirrors `EnergyModel::IsUnderground`. -/
def IsUnderground (buildingFace : Face K) : Bool :=
  IsUndergroundLoop buildingFace.Vertices

/-- Mirrors `EnergyModel::AdjacentCellCount`. -/
def AdjacentCellCount (buildingFace : Face K) : Nat :=
  buildingFace.Cells.length

/-- The face normal `CalculateFaceType` computes from the first three
vertices of the face: the normalised cross product of `p2 - p1` and `p3 - p1`. -/
def faceNormalOf (k : Kernel K) (p1 p2 p3 : Vertex K) : Vector K :=
  let p1AsVector := p1.AsVector
  let p2Subtract := p2.Subtract p1AsVector
  let p2SubtractAsVector := p2Subtract.AsVector
  let p3Subtract := p3.Subtract p1AsVector
  let p3SubtractAsVector := p3Subtract.AsVector
  let dir := p2SubtractAsVector.Cross p3SubtractAsVector
  k.Normalized dir

/-- The probe vertex of `CalculateFaceType`: the centre of mass of the first
triangle, moved by 0.001 along the face normal. -/
def offsetVertexOf (centerPoint : Vertex K) (faceNormal : Vector K) : Vertex K :=
  let scaledFaceNormal := faceNormal.Scale 0.001 0.001 0.001
  centerPoint.Translate scaledFaceNormal

/-- Mirrors `EnergyModel::CalculateFaceType`.  The second component is `facePoints`
after the call (the parameter is mutated in place by `Reverse`). -/
def CalculateFaceType (k : Kernel K) (buildingFace : Face K)
    (facePoints : List (Point3d K)) (buildingSpace : Cell K) (upVector : Vector K) :
    Except String FaceType × List (Point3d K) :=
  match k.Triangulate buildingFace with
  | [] => (.error "Failed to triangulate a face.", facePoints)
  | firstFace :: _ =>
    let centerPoint := k.CenterOfMass firstFace
    match buildingFace.Vertices with
    | p1 :: p2 :: p3 :: _ =>
      let faceNormal := faceNormalOf k p1 p2 p3
      let faceAngle := k.AngleWithVector faceNormal upVector
      let pOffsetVertex := offsetVertexOf centerPoint faceNormal
      if faceAngle < 5.0 ∨ faceAngle > 175.0 then
        let isInside := k.Contains buildingSpace pOffsetVertex
        let facePoints1 := if isInside then facePoints.reverse else facePoints
        let faceAngle1 :=
          if isInside then k.AngleWithVector faceNormal.Reverse upVector else faceAngle
        if faceAngle1 < 5.0 then (.ok FACE_ROOFCEILING, facePoints1)
        else if faceAngle1 > 175.0 then (.ok FACE_FLOOR, facePoints1)
        else (.ok FACE_WALL, facePoints1)
      else (.ok FACE_WALL, facePoints)
    | _ => (.error "Index was out of range.", facePoints)

/-- The loop of `EnergyModel::StoryNumber` from index `i` on: `levels` is the
suffix of `floorLevels` starting at index `i`. -/
def StoryNumberLoop (z : K) : List K → Nat → Option Nat
  | a :: b :: rest, i =>
    if z > a ∧ z < b then some i else StoryNumberLoop z (b :: rest) (i + 1)
  | _, _ => none

/-- Mirrors `EnergyModel::StoryNumber`; the parameter `buildingHeight` and the cell volume
it computes are not used by the source. -/
def StoryNumber (buildingCell : Cell K) (floorLevels : List K) : Nat :=
  match StoryNumberLoop buildingCell.CenterOfMass.Z floorLevels 0 with
  | some i => i
  | none => 0

/-- The story count of `EnergyModel::ByCellComplex`:
`int numFloors = floorLevelList->Count - 1`. -/
def numFloors (floorLevels : List K) : Nat :=
  floorLevels.length - 1

/-- Mirrors `EnergyModel::AddBuildingStory`, reduced to the name it sets. -/
def AddBuildingStory (floorNumber : Nat) : String :=
  "STORY_" ++ toString floorNumber

/-- Mirrors `EnergyModel::CreateBuildingStories`: the names of the stories, in order. -/
def CreateBuildingStories (numFloors : Nat) : List String :=
  (List.range numFloors).map (fun i => AddBuildingStory (i + 1))

end Classifier

/-! ## The simulation model -/

/-- Mirrors `OpenStudio::Surface`, reduced to what `EnergyModel` sets.  A field is
`none` until the corresponding setter has been called. -/
structure Surface (K : Type) where
  vertices : List (Point3d K)
  space : Option String
  name : Option String
  outsideBoundaryCondition : Option String
  surfaceType : Option String
  construction : Option String
  sunExposure : Option String
  windExposure : Option String

/-- Mirrors `OpenStudio::SubSurface`.  `surface` is the index, in the model's surface
list, of the parent it has been attached to. -/
structure SubSurface (K : Type) where
  vertices : List (Point3d K)
  subSurfaceType : Option String
  surface : Option Nat
  name : Option String

/-- Mirrors `OpenStudio::Space`, reduced to its name. -/
structure Space where
  name : String

/-- Mirrors `OpenStudio::Model`: the constructions of the template (by name) and the
surfaces and sub-surfaces created so far, in creation order. -/
structure Model (K : Type) where
  constructions : List String
  surfaces : List (Surface K)
  subSurfaces : List (SubSurface K)

/-- The mutable state `AddSurface` works on: the model and the two static
aperture counters of `EnergyModel`. -/
structure State (K : Type) where
  osModel : Model K
  numOfApertures : Int
  numOfAppliedApertures : Int

/-- The part of the state the aperture loops of `AddSurface` change: the
sub-surfaces present in the model that were created by this call, the local
`subsurfaceCounter`, and the two static counters. -/
structure SubState (K : Type) where
  subs : List (SubSurface K)
  subsurfaceCounter : Nat
  numOfApertures : Int
  numOfAppliedApertures : Int

section Resolver

variable {K : Type} [LinearOrderedField K]

/-- Mirrors `gcnew OpenStudio::Surface(points, model)`. -/
def Surface.new (points : List (Point3d K)) : Surface K :=
  ⟨points, none, none, none, none, none, none, none⟩

/-- Mirrors `gcnew OpenStudio::SubSurface(points, model)`. -/
def SubSurface.new (points : List (Point3d K)) : SubSurface K :=
  ⟨points, none, none, none⟩

/-- The construction-lookup loop at the head of `AddSurface`: the last
construction of the model carrying the given name, `none` for `nullptr`. -/
def findConstruction (constructions : List String) (name : String) : Option String :=
  (constructions.filter (fun c => c == name)).getLast?

/-- Mirrors `EnergyModel::GetCentreVertex`. -/
def GetCentreVertex (vertices : List (Vertex K)) : Except String (Vertex K) :=
  if vertices.length < 3 then .error "Invalid face"
  else
    let sumPoint := vertices.foldl (fun (s : Vertex K) v => s.Add v.AsVector) ⟨0, 0, 0⟩
    let scalingFactor : K := 1.0 / (vertices.length : K)
    .ok (sumPoint.Scale scalingFactor scalingFactor scalingFactor)

/-- Mirrors `EnergyModel::ScaleVertices`. -/
def ScaleVertices (k : Kernel K) (vertices : List (Vertex K)) (scaleFactor : K) :
    Except String (List (Vertex K)) :=
  let sqrtScaleFactor := k.Sqrt scaleFactor
  match GetCentreVertex vertices with
  | .error e => .error e
  | .ok faceCenterPoint =>
    .ok (vertices.map (fun aVertex =>
      let originalPointAsVector := faceCenterPoint.AsVector
      let translatedPoint := aVertex.Subtract originalPointAsVector
      let scaledPoint := translatedPoint.Scale sqrtScaleFactor sqrtScaleFactor sqrtScaleFactor
      let scaledPointAsVector := faceCenterPoint.AsVector
      scaledPoint.Add scaledPointAsVector))

/-- Mirrors `EnergyModel::ScaleFaceVertices`. -/
def ScaleFaceVertices (k : Kernel K) (buildingFace : Face K) (scaleFactor : K) :
    Except String (List (Vertex K)) :=
  ScaleVertices k buildingFace.ExternalBoundary.reverse scaleFactor

/-- Mirrors `EnergyModel::CreateSubSurface`. -/
def CreateSubSurface (vertices : List (Vertex K)) : SubSurface K :=
  SubSurface.new (vertices.map Vertex.toPoint3d)

/-- The vertex reversal of the exterior roof and floor branches of
`AddSurface`: the loop is reversed when the normalised outward normal has a
dot product below 0.98 with `direction`. -/
def reverseUnlessFacing (k : Kernel K) (osSurface : Surface K) (direction : Vector K) :
    Surface K :=
  let pSurfaceNormal := k.Normalized (k.outwardNormal osSurface.vertices)
  let dotProduct := pSurfaceNormal.dot direction
  if dotProduct < 0.98 then { osSurface with vertices := osSurface.vertices.reverse }
  else osSurface

/-- The five setter calls every branch of `AddSurface` makes, in source order:
`setOutsideBoundaryCondition`, `setSurfaceType`, `setConstruction`,
`setSunExposure`, `setWindExposure`. -/
def setBranch (osSurface : Surface K) (boundary type : String)
    (construction : Option String) (sun wind : String) : Surface K :=
  { osSurface with
    outsideBoundaryCondition := some boundary
    surfaceType := some type
    construction := construction
    sunExposure := some sun
    windExposure := some wind }

/-- The tail of one iteration of the ratio-synthesis loop, once the candidate
with loop `finalPoints` has passed the orientation check: `setSubSurfaceType`,
`setSurface` (its flag is ignored on this path), `setName`, and
`subsurfaceCounter++`. -/
def attachWindow (k : Kernel K) (osSurface : Surface K) (surfaceIndex : Nat)
    (finalPoints : List (Point3d K)) (s : SubState K) : SubState K :=
  let attached : Option Nat :=
    if k.setSurfaceOk finalPoints osSurface.vertices then some surfaceIndex else none
  let osWindowSubSurface : SubSurface K :=
    { vertices := finalPoints
      subSurfaceType := some "FixedWindow"
      surface := attached
      name := some (osSurface.name.getD "" ++ "_SUBSURFACE_" ++
        toString s.subsurfaceCounter) }
  { s with subs := s.subs ++ [osWindowSubSurface]
           subsurfaceCounter := s.subsurfaceCounter + 1 }

/-- One iteration body of the ratio-synthesis loop of `AddSurface`
(`for (int i = 0; i < scaledVertices->Count - 2; ++i)`), for the triangle
`(first, b, c) = (scaledVertices[0], scaledVertices[i+1], scaledVertices[i+2])`. -/
def synthesizeWindow (k : Kernel K) (osSurface : Surface K) (surfaceIndex : Nat)
    (first b c : Vertex K) (s : SubState K) : SubState K × Except String Unit :=
  let triangleVertices := [first, b, c]
  match ScaleVertices k triangleVertices 0.999 with
  | .error e => (s, .error e)
  | .ok scaledTriangleVertices =>
    let osWindowFacePoints := scaledTriangleVertices.map Vertex.toPoint3d
    let dotProduct :=
      (k.outwardNormal osWindowFacePoints).dot (k.outwardNormal osSurface.vertices)
    if dotProduct < -0.99 then
      (attachWindow k osSurface surfaceIndex osWindowFacePoints.reverse s, .ok ())
    else if dotProduct > -0.99 ∧ dotProduct < 0.99 then
      ({ s with subs := s.subs ++ [SubSurface.new osWindowFacePoints] },
        .error "There is a non-coplanar subsurface.")
    else
      (attachWindow k osSurface surfaceIndex osWindowFacePoints s, .ok ())

/-- The ratio-synthesis loop of `AddSurface`: `rest` is the part of
`scaledVertices` from index `i + 1` on. -/
def synthesizeWindows (k : Kernel K) (osSurface : Surface K) (surfaceIndex : Nat)
    (first : Vertex K) : List (Vertex K) → SubState K → SubState K × Except String Unit
  | b :: c :: rest, s =>
    match synthesizeWindow k osSurface surfaceIndex first b c s with
    | (s1, .error e) => (s1, .error e)
    | (s1, .ok ()) => synthesizeWindows k osSurface surfaceIndex first (c :: rest) s1
  | _, s => (s, .ok ())

/-- The tail of one iteration of the explicit-aperture loop, once the
candidate `osWindowSubSurface` has passed the orientation check:
`numOfApertures++`, then the gross-area test, `setSurface` and the counters. -/
def attachAperture (k : Kernel K) (osSurface : Surface K) (surfaceIndex : Nat)
    (osWindowSubSurface : SubSurface K) (s : SubState K) : SubState K :=
  let numOfApertures := s.numOfApertures + 1
  let grossSubsurfaceArea := k.grossArea osWindowSubSurface.vertices
  if grossSubsurfaceArea > 0.1 then
    let result := k.setSurfaceOk osWindowSubSurface.vertices osSurface.vertices
    if result then
      { subs := s.subs ++ [{ osWindowSubSurface with
            subSurfaceType := some "FixedWindow"
            surface := some surfaceIndex
            name := some (osSurface.name.getD "" ++ "_SUBSURFACE_" ++
              toString s.subsurfaceCounter) }]
        subsurfaceCounter := s.subsurfaceCounter + 1
        numOfApertures := numOfApertures
        numOfAppliedApertures := s.numOfAppliedApertures + 1 }
    else
      { s with
        subs := s.subs ++ [{ osWindowSubSurface with subSurfaceType := some "FixedWindow" }]
        numOfApertures := numOfApertures }
  else
    { s with numOfApertures := numOfApertures }

/-- One iteration body of the explicit-aperture loop of `AddSurface`
(`for each (Topology^ pContent in pContents)`). -/
def applyAperture (k : Kernel K) (osSurface : Surface K) (surfaceIndex : Nat)
    (pContent : Content K) (s : SubState K) : SubState K × Except String Unit :=
  match pContent with
  | .other => (s, .ok ())
  | .aperture none => (s, .error "Object reference not set to an instance of an object.")
  | .aperture (some pFaceAperture) =>
    let area := k.Area pFaceAperture
    if area ≤ 0.1 then (s, .ok ())
    else
      let pApertureVertices := pFaceAperture.ExternalBoundary
      let osWindowSubSurface := CreateSubSurface pApertureVertices
      let dotProduct :=
        (k.outwardNormal osWindowSubSurface.vertices).dot (k.outwardNormal osSurface.vertices)
      if dotProduct < -0.99 then
        (attachAperture k osSurface surfaceIndex
          (CreateSubSurface pApertureVertices.reverse) s, .ok ())
      else if dotProduct > -0.99 ∧ dotProduct < 0.99 then
        ({ s with subs := s.subs ++ [osWindowSubSurface] },
          .error "There is a non-coplanar subsurface.")
      else
        (attachAperture k osSurface surfaceIndex osWindowSubSurface s, .ok ())

/-- The explicit-aperture loop of `AddSurface`. -/
def applyApertures (k : Kernel K) (osSurface : Surface K) (surfaceIndex : Nat) :
    List (Content K) → SubState K → SubState K × Except String Unit
  | [], s => (s, .ok ())
  | pContent :: rest, s =>
    match applyAperture k osSurface surfaceIndex pContent s with
    | (s1, .error e) => (s1, .error e)
    | (s1, .ok ()) => applyApertures k osSurface surfaceIndex rest s1

/-- The body of the exterior above-grade wall branch of `AddSurface` after the
five setters: the glazing-ratio check and the two aperture strategies. -/
def addWallApertures (k : Kernel K) (buildingFace : Face K) (osSurface : Surface K)
    (surfaceIndex : Nat) (glazingRatio : Option K) (s : SubState K) :
    SubState K × Except String Unit :=
  match glazingRatio with
  | some value =>
    if value < 0.0 ∨ value > 1.0 then
      (s, .error "The glazing ratio must be between 0.0 and 1.0 (both inclusive).")
    else if value > 0.0 ∧ value ≤ 1.0 then
      match ScaleFaceVertices k buildingFace value with
      | .error e => (s, .error e)
      | .ok [] => (s, .ok ())
      | .ok (first :: rest) => synthesizeWindows k osSurface surfaceIndex first rest s
    else (s, .ok ())
  | none => applyApertures k osSurface surfaceIndex buildingFace.Contents s

/-- The state after `AddSurface` has run with the surface in the condition
`osSurface` and the aperture loops in the condition `s`: the surface is the
last of the model's surfaces, the sub-surfaces follow those already there. -/
def State.commit (st : State K) (osSurface : Surface K) (s : SubState K) : State K :=
  { osModel :=
      { constructions := st.osModel.constructions
        surfaces := st.osModel.surfaces ++ [osSurface]
        subSurfaces := st.osModel.subSurfaces ++ s.subs }
    numOfApertures := s.numOfApertures
    numOfAppliedApertures := s.numOfAppliedApertures }

/-- Mirrors `EnergyModel::AddSurface`.  Returns the state reached (also when the call
throws) and the surface handed back.  The parameter `cellComplex` is not used
by the source; `osModel` is part of the state. -/
def AddSurface (k : Kernel K) (surfaceNumber : Nat) (buildingFace : Face K)
    (buildingSpace : Cell K) (osFacePoints : List (Point3d K)) (osSpace : Space)
    (upVector : Vector K) (glazingRatio : Option K) (st : State K) :
    State K × Except String (Surface K) :=
  let constructions := st.osModel.constructions
  let osInteriorCeilingType := findConstruction constructions "000 Interior Ceiling"
  let osExteriorRoofType :=
    findConstruction constructions "ASHRAE 189.1-2009 ExtRoof IEAD ClimateZone 2-5"
  let osInteriorFloorType := findConstruction constructions "000 Interior Floor"
  let osInteriorWallType := findConstruction constructions "000 Interior Wall"
  let osExteriorWallType :=
    findConstruction constructions "ASHRAE 189.1-2009 ExtWall SteelFrame ClimateZone 4-8"
  let s0 : SubState K := ⟨[], 1, st.numOfApertures, st.numOfAppliedApertures⟩
  let adjCount := AdjacentCellCount buildingFace
  let osSurface0 : Surface K := { Surface.new osFacePoints with space := some osSpace.name }
  let surfaceIndex := st.osModel.surfaces.length
  let surfaceName := osSpace.name ++ "_SURFACE_" ++ toString surfaceNumber
  let isUnderground := IsUnderground buildingFace
  match (CalculateFaceType k buildingFace osFacePoints buildingSpace upVector).1 with
  | .error e => (st.commit osSurface0 s0, .error e)
  | .ok faceType =>
    let osSurface1 : Surface K := { osSurface0 with name := some surfaceName }
    if faceType = FACE_ROOFCEILING ∧ adjCount > 1 then
      let osSurface := setBranch osSurface1 "Surface" "RoofCeiling" osInteriorCeilingType
        "NoSun" "NoWind"
      (st.commit osSurface s0, .ok osSurface)
    else if faceType = FACE_ROOFCEILING ∧ adjCount < 2 ∧ ¬ isUnderground then
      let osSurface := setBranch (reverseUnlessFacing k osSurface1 ⟨0, 0, 1.0⟩)
        "Outdoors" "RoofCeiling" osExteriorRoofType "SunExposed" "WindExposed"
      (st.commit osSurface s0, .ok osSurface)
    else if faceType = FACE_ROOFCEILING ∧ adjCount < 2 ∧ isUnderground then
      let osSurface := setBranch (reverseUnlessFacing k osSurface1 ⟨0, 0, 1.0⟩)
        "Ground" "RoofCeiling" osExteriorRoofType "NoSun" "NoWind"
      (st.commit osSurface s0, .ok osSurface)
    else if faceType = FACE_FLOOR ∧ adjCount > 1 then
      let osSurface := setBranch osSurface1 "Surface" "Floor" osInteriorFloorType
        "NoSun" "NoWind"
      (st.commit osSurface s0, .ok osSurface)
    else if faceType = FACE_FLOOR ∧ adjCount < 2 then
      let osSurface := setBranch (reverseUnlessFacing k osSurface1 ⟨0, 0, -1.0⟩)
        "Ground" "Floor" osExteriorWallType "NoSun" "NoWind"
      (st.commit osSurface s0, .ok osSurface)
    else if faceType = FACE_WALL ∧ adjCount > 1 then
      let osSurface := setBranch osSurface1 "Surface" "Wall" osInteriorWallType
        "NoSun" "NoWind"
      (st.commit osSurface s0, .ok osSurface)
    else if faceType = FACE_WALL ∧ adjCount < 2 ∧ isUnderground then
      let osSurface := setBranch osSurface1 "Ground" "Wall" osExteriorWallType
        "NoSun" "NoWind"
      (st.commit osSurface s0, .ok osSurface)
    else if faceType = FACE_WALL ∧ adjCount < 2 ∧ ¬ isUnderground then
      let osSurface := setBranch osSurface1 "Outdoors" "Wall" osExteriorWallType
        "SunExposed" "WindExposed"
      match addWallApertures k buildingFace osSurface surfaceIndex glazingRatio s0 with
      | (s1, .error e) => (st.commit osSurface s1, .error e)
      | (s1, .ok ()) => (st.commit osSurface s1, .ok osSurface)
    else
      (st.commit osSurface1 s0, .ok osSurface1)

end Resolver

/-! ## Loop geometry, concrete kernels and a concrete cell

`newell` is the Newell vector of a closed loop (twice its vector area) and
`polygonArea` the area of a planar loop, half the Euclidean norm of its Newell
vector; the square root is a parameter, so that the definitions compute over
`ℚ` and are exact over `ℝ` with `Real.sqrt`.

`boxKernel` is a kernel over `ℚ` that agrees with the geometric library on
axis-aligned input: vectors are normalised by the sum of the absolute values
of their components (the Euclidean norm, for a vector along an axis), the
angle between two unit vectors along axes is `90 - 90 * dot` degrees, areas
and normals come from the Newell vector of the loop, and containment is strict
containment in the bounding box of the cell.  `euclidKernel` is the same
kernel with the Euclidean norm, for a given square root and a given arc
cosine in degrees.  `unitCube` is the cell `[0,1] x [0,1] x [0,1]`, standing
on the ground. -/

section Concrete

variable {K : Type} [LinearOrderedField K]

/-- Position vector of an OpenStudio point. -/
def Point3d.toVector (p : Point3d K) : Vector K :=
  ⟨p.x, p.y, p.z⟩

/-- Componentwise sum of two vectors. -/
def Vector.Add (a b : Vector K) : Vector K :=
  ⟨a.X + b.X, a.Y + b.Y, a.Z + b.Z⟩

/-- The sum of the cross products of consecutive position vectors along the
path `first, p, ...`, closed back to `first`. -/
def newellFrom (first : Point3d K) : List (Point3d K) → Vector K
  | [] => ⟨0, 0, 0⟩
  | [p] => p.toVector.Cross first.toVector
  | p :: q :: rest => (p.toVector.Cross q.toVector).Add (newellFrom first (q :: rest))

/-- Newell vector of a closed loop (twice its vector area). -/
def newell (points : List (Point3d K)) : Vector K :=
  match points with
  | [] => ⟨0, 0, 0⟩
  | first :: rest => newellFrom first (first :: rest)

/-- Euclidean norm, for a given square root. -/
def Vector.norm (sqrt : K → K) (v : Vector K) : K :=
  sqrt (v.dot v)

/-- Area of a planar loop: half the norm of its Newell vector. -/
def polygonArea (sqrt : K → K) (points : List (Point3d K)) : K :=
  (newell points).norm sqrt / 2

/-- Sum of the absolute values of the components. -/
def Vector.l1 (v : Vector K) : K :=
  |v.X| + |v.Y| + |v.Z|

/-- The vector divided by `Vector.l1`; the zero vector is left as it is. -/
def normalizeAxis (v : Vector K) : Vector K :=
  if v.l1 = 0 then v else v.Scale (1 / v.l1) (1 / v.l1) (1 / v.l1)

/-- The vector divided by its Euclidean norm; a vector of norm zero is left as
it is. -/
def normalizeEuclid (sqrt : K → K) (v : Vector K) : Vector K :=
  if v.norm sqrt = 0 then v
  else v.Scale (1 / v.norm sqrt) (1 / v.norm sqrt) (1 / v.norm sqrt)

/-- Fan triangulation of a vertex loop from its first vertex. -/
def fanTriangles (first : Vertex K) (cells : List Nat) : List (Vertex K) → List (Face K)
  | b :: c :: rest =>
    ⟨[first, b, c], [first, b, c], [], cells⟩ :: fanTriangles first cells (c :: rest)
  | _ => []

/-- Triangulation of a face: the fan of its external boundary from the first
vertex; a face of zero area (zero Newell vector) has no triangle. -/
def triangulateFan (f : Face K) : List (Face K) :=
  match f.ExternalBoundary with
  | first :: rest =>
    if (newell (f.ExternalBoundary.map Vertex.toPoint3d)).dot
        (newell (f.ExternalBoundary.map Vertex.toPoint3d)) = 0 then []
    else fanTriangles first f.Cells rest
  | [] => []

/-- Arithmetic mean of a list of vertices (the origin for the empty list). -/
def meanVertex (vs : List (Vertex K)) : Vertex K :=
  let sum := vs.foldl (fun (s : Vertex K) v => s.Add v.AsVector) ⟨0, 0, 0⟩
  sum.Scale (1 / vs.length) (1 / vs.length) (1 / vs.length)

/-- Strict containment of a vertex in the bounding box of a list of vertices. -/
def strictlyInBox (vs : List (Vertex K)) (p : Vertex K) : Bool :=
  (vs.any fun v => v.X < p.X) && (vs.any fun v => p.X < v.X) &&
  (vs.any fun v => v.Y < p.Y) && (vs.any fun v => p.Y < v.Y) &&
  (vs.any fun v => v.Z < p.Z) && (vs.any fun v => p.Z < v.Z)

/-- A kernel exact on axis-aligned geometry. -/
def boxKernel : Kernel ℚ where
  Sqrt := fun x => x
  Triangulate := triangulateFan
  CenterOfMass := fun f => meanVertex f.Vertices
  Normalized := normalizeAxis
  AngleWithVector := fun a b => 90 - 90 * a.dot b
  Contains := fun cell p => strictlyInBox (cell.Faces.flatMap Face.Vertices) p
  Area := fun f => (newell (f.ExternalBoundary.map Vertex.toPoint3d)).l1 / 2
  outwardNormal := fun points => normalizeAxis (newell points)
  grossArea := fun points => (newell points).l1 / 2
  setSurfaceOk := fun _ _ => true

/-- The Euclidean kernel for a square root `sqrt` and an arc cosine in degrees
`acosDeg`. -/
def euclidKernel (sqrt acosDeg : K → K) : Kernel K where
  Sqrt := sqrt
  Triangulate := triangulateFan
  CenterOfMass := fun f => meanVertex f.Vertices
  Normalized := normalizeEuclid sqrt
  AngleWithVector := fun a b => acosDeg (a.dot b / (a.norm sqrt * b.norm sqrt))
  Contains := fun cell p => strictlyInBox (cell.Faces.flatMap Face.Vertices) p
  Area := fun f => polygonArea sqrt (f.ExternalBoundary.map Vertex.toPoint3d)
  outwardNormal := fun points => normalizeEuclid sqrt (newell points)
  grossArea := polygonArea sqrt
  setSurfaceOk := fun _ _ => true

/-- A face of `unitCube` with the given vertex loop and no aperture. -/
def cubeFace (loop : List (Vertex K)) : Face K :=
  ⟨loop, loop, [], [0]⟩

/-- Bottom face of the unit cube (`z = 0`). -/
def bottomFace : Face K := cubeFace [⟨0, 0, 0⟩, ⟨0, 1, 0⟩, ⟨1, 1, 0⟩, ⟨1, 0, 0⟩]

/-- Top face of the unit cube (`z = 1`). -/
def topFace : Face K := cubeFace [⟨0, 0, 1⟩, ⟨1, 0, 1⟩, ⟨1, 1, 1⟩, ⟨0, 1, 1⟩]

/-- South wall of the unit cube (`y = 0`). -/
def southFace : Face K := cubeFace [⟨0, 0, 0⟩, ⟨1, 0, 0⟩, ⟨1, 0, 1⟩, ⟨0, 0, 1⟩]

/-- North wall of the unit cube (`y = 1`). -/
def northFace : Face K := cubeFace [⟨0, 1, 0⟩, ⟨0, 1, 1⟩, ⟨1, 1, 1⟩, ⟨1, 1, 0⟩]

/-- West wall of the unit cube (`x = 0`). -/
def westFace : Face K := cubeFace [⟨0, 0, 0⟩, ⟨0, 0, 1⟩, ⟨0, 1, 1⟩, ⟨0, 1, 0⟩]

/-- East wall of the unit cube (`x = 1`). -/
def eastFace : Face K := cubeFace [⟨1, 0, 0⟩, ⟨1, 1, 0⟩, ⟨1, 1, 1⟩, ⟨1, 0, 1⟩]

/-- The unit cube standing on the ground. -/
def unitCube : Cell K :=
  ⟨[bottomFace, topFace, southFace, northFace, westFace, eastFace], ⟨1 / 2, 1 / 2, 1 / 2⟩⟩

/-- A degenerate face: three collinear vertices, of zero area; it has no
triangulation. -/
def sliverFace : Face K := cubeFace [⟨0, 0, 0⟩, ⟨1, 0, 0⟩, ⟨2, 0, 0⟩]

/-- The box `[0,1] x [0,1] x [zLow, zHigh]`. -/
def boxCell (zLow zHigh : K) : Cell K :=
  ⟨[cubeFace [⟨0, 0, zLow⟩, ⟨0, 1, zLow⟩, ⟨1, 1, zLow⟩, ⟨1, 0, zLow⟩],
    cubeFace [⟨0, 0, zHigh⟩, ⟨1, 0, zHigh⟩, ⟨1, 1, zHigh⟩, ⟨0, 1, zHigh⟩],
    cubeFace [⟨0, 0, zLow⟩, ⟨1, 0, zLow⟩, ⟨1, 0, zHigh⟩, ⟨0, 0, zHigh⟩],
    cubeFace [⟨0, 1, zLow⟩, ⟨0, 1, zHigh⟩, ⟨1, 1, zHigh⟩, ⟨1, 1, zLow⟩],
    cubeFace [⟨0, 0, zLow⟩, ⟨0, 0, zHigh⟩, ⟨0, 1, zHigh⟩, ⟨0, 1, zLow⟩],
    cubeFace [⟨1, 0, zLow⟩, ⟨1, 1, zLow⟩, ⟨1, 1, zHigh⟩, ⟨1, 0, zHigh⟩]],
   ⟨1 / 2, 1 / 2, (zLow + zHigh) / 2⟩⟩

/-- The south wall of the unit cube wound the other way: the normal of its loop
points into the cube. -/
def inwardSouthFace : Face K := cubeFace [⟨0, 0, 0⟩, ⟨0, 0, 1⟩, ⟨1, 0, 1⟩, ⟨1, 0, 0⟩]

/-- The top face of the unit cube wound so that the normal of its loop points
down, into the cube; the cube is the only cell it bounds. -/
def downwardTopFace : Face K := cubeFace [⟨0, 0, 1⟩, ⟨0, 1, 1⟩, ⟨1, 1, 1⟩, ⟨1, 0, 1⟩]

/-- The same loop as `downwardTopFace`, shared with a cell above: an interior
ceiling of the unit cube. -/
def ceilingFace : Face K :=
  ⟨[⟨0, 0, 1⟩, ⟨0, 1, 1⟩, ⟨1, 1, 1⟩, ⟨1, 0, 1⟩], [⟨0, 0, 1⟩, ⟨0, 1, 1⟩, ⟨1, 1, 1⟩, ⟨1, 0, 1⟩],
    [], [0, 1]⟩

/-- A window of 0.5 x 0.5 in the south wall, wound like the wall. -/
def windowAperture : ApertureFace K :=
  ⟨[⟨1 / 4, 0, 1 / 4⟩, ⟨3 / 4, 0, 1 / 4⟩, ⟨3 / 4, 0, 3 / 4⟩, ⟨1 / 4, 0, 3 / 4⟩]⟩

/-- The same window wound the other way. -/
def flippedAperture : ApertureFace K :=
  ⟨[⟨1 / 4, 0, 3 / 4⟩, ⟨3 / 4, 0, 3 / 4⟩, ⟨3 / 4, 0, 1 / 4⟩, ⟨1 / 4, 0, 1 / 4⟩]⟩

/-- A window of 0.1 x 0.1 in the south wall: its area is below the filter. -/
def tinyAperture : ApertureFace K :=
  ⟨[⟨0, 0, 0⟩, ⟨1 / 10, 0, 0⟩, ⟨1 / 10, 0, 1 / 10⟩, ⟨0, 0, 1 / 10⟩]⟩

/-- A horizontal aperture of 0.5 x 0.5 at height 1/2: it is not parallel to the
south wall. -/
def tiltedAperture : ApertureFace K :=
  ⟨[⟨1 / 4, 0, 1 / 2⟩, ⟨3 / 4, 0, 1 / 2⟩, ⟨3 / 4, 1 / 2, 1 / 2⟩, ⟨1 / 4, 1 / 2, 1 / 2⟩]⟩

/-- The south wall of the unit cube carrying a window, a content that is not an
aperture, a tiny window and a window wound the other way. -/
def glazedSouthFace : Face K :=
  { (southFace : Face K) with
    Contents := [.aperture (some windowAperture), .other, .aperture (some tinyAperture),
      .aperture (some flippedAperture)] }

/-- The south wall of the unit cube carrying an aperture that is not parallel
to it. -/
def tiltedSouthFace : Face K :=
  { (southFace : Face K) with Contents := [.aperture (some tiltedAperture)] }

/-- The up axis (`Vector::ZAxis`). -/
def zAxis : Vector K := ⟨0, 0, 1⟩

/-- A state with the template constructions and no surface yet. -/
def emptyState : State K :=
  ⟨⟨["000 Interior Ceiling", "000 Interior Floor", "000 Interior Wall",
     "ASHRAE 189.1-2009 ExtRoof IEAD ClimateZone 2-5",
     "ASHRAE 189.1-2009 ExtWall SteelFrame ClimateZone 4-8"], [], []⟩, 0, 0⟩

end Concrete

/-! ## Space assembly, import, export and the polygon round trip

`AddSpace` is reduced to what it does to the surfaces of the model: the story
lookup, the name of the space and the loop over the faces of the cell.  The
space type, the thermal zone and the ceiling height it sets afterwards do not
touch a surface and are left out.

The file loaders, the gbXML translators, `ProcessOsModel` and
`Topology::ByVerticesIndices` are parameters.  A loader also returns nothing
when the file cannot be read, and every import returns, next to its result,
the list of the paths it has handed to a loader. -/

section Assembly

variable {K : Type} [LinearOrderedField K]

/-- The loop `for (int i = 0; i < faces->Count; ++i)` of `EnergyModel::AddSpace`
from index `i` on: `AddSurface(i + 1, faces[i], ..., facePointsList[i], ...)`
with `facePointsList[i] = GetFacePoints(faces[i])`; an exception ends it. -/
def AddSpaceSurfaces (k : Kernel K) (cell : Cell K) (osSpace : Space) (upVector : Vector K)
    (glazingRatio : Option K) : List (Face K) → Nat → State K → State K × Except String Unit
  | [], _, st => (st, .ok ())
  | face :: rest, i, st =>
    match AddSurface k (i + 1) face cell (GetFacePoints face) osSpace upVector glazingRatio
        st with
    | (st1, .error e) => (st1, .error e)
    | (st1, .ok _) => AddSpaceSurfaces k cell osSpace upVector glazingRatio rest (i + 1) st1

/-- Mirrors `EnergyModel::AddSpace`; `buildingStories` is the static list of story
names set by `ComputeBuilding`. -/
def AddSpace (k : Kernel K) (buildingStories : List String) (spaceNumber : Nat)
    (cell : Cell K) (upVector : Vector K) (floorLevels : List K) (glazingRatio : Option K)
    (st : State K) : State K × Except String Space :=
  let storyNumber := StoryNumber cell floorLevels
  match buildingStories[storyNumber]? with
  | none => (st, .error "Index was out of range.")
  | some buildingStory =>
    let osSpace : Space := ⟨buildingStory ++ "_SPACE_" ++ toString spaceNumber⟩
    match AddSpaceSurfaces k cell osSpace upVector glazingRatio cell.Faces 0 st with
    | (st1, .error e) => (st1, .error e)
    | (st1, .ok ()) => (st1, .ok osSpace)

/-- The message loop of `ExportTogbXML` and `ByImportedgbXML` from index `i` on:
each error message is appended, followed by a newline while
`i < osErrors->Count - 1`. -/
def appendErrors (count : Nat) : List String → Nat → String → String
  | [], _, errorMsg => errorMsg
  | osError :: rest, i, errorMsg =>
    let errorMsg1 := errorMsg ++ osError
    let errorMsg2 := if i < count - 1 then errorMsg1 ++ "\n" else errorMsg1
    appendErrors count rest (i + 1) errorMsg2

/-- Mirrors `EnergyModel::ExportTogbXML`.  `modelToGbXML` returns the success flag of
the translator and the list `errors()` it holds afterwards. -/
def ExportTogbXML {M : Type} (modelToGbXML : M → String → Bool × List String)
    (energyModel : Option M) (filePath : Option String) : Except String Bool :=
  match filePath with
  | none => .error "The input filePath must not be null."
  | some path =>
    match energyModel with
    | none => .error "The input energy model is null."
    | some osModel =>
      let osErrors := (modelToGbXML osModel path).2
      if osErrors.length > 0 then
        .error (appendErrors osErrors.length osErrors 0
          "Fails exporting an EnergyModel to GbXML with the following errors:\n")
      else .ok true

/-- Mirrors `EnergyModel::ByImportedOSM`.  The first component lists the paths handed
to `Model::load`; the result is `none` for the `nullptr` the source returns
when nothing could be loaded. -/
def ByImportedOSM {M E : Type} (load : String → Option M)
    (ProcessOsModel : M → K → Except String E) (filePath : Option String) (tolerance : K) :
    List String × Except String (Option E) :=
  match filePath with
  | none => ([], .error "The input filePath must not be null.")
  | some path =>
    if tolerance ≤ 0.0 then ([], .error "The tolerance must have a positive value.")
    else
      match load path with
      | none => ([path], .ok none)
      | some osModel =>
        match ProcessOsModel osModel tolerance with
        | .error e => ([path], .error e)
        | .ok energyModel => ([path], .ok (some energyModel))

/-- Mirrors `EnergyModel::ByImportedgbXML`.  `loadModel` returns the optional model of
the reverse translator and the list `errors()` it holds afterwards. -/
def ByImportedgbXML {M E : Type} (loadModel : String → Option M × List String)
    (ProcessOsModel : M → K → Except String E) (filePath : Option String) (tolerance : K) :
    List String × Except String E :=
  match filePath with
  | none => ([], .error "The input filePath must not be null.")
  | some path =>
    if tolerance ≤ 0.0 then ([], .error "The tolerance must have a positive value.")
    else
      match (loadModel path).1 with
      | none => ([path], .error "The imported gbXML yields a null OpenStudio Model.")
      | some osModel =>
        let osErrors := (loadModel path).2
        if osErrors.length > 0 then
          ([path], .error (appendErrors osErrors.length osErrors 0
            "Fails importing an OpenStudio model from GbXML with the following errors:\n"))
        else
          match ProcessOsModel osModel tolerance with
          | .error e => ([path], .error e)
          | .ok energyModel => ([path], .ok energyModel)

/-- A topology returned by `Topology::ByVerticesIndices`: a face, or something
that the `safe_cast` to a face rejects. -/
inductive Topology (K : Type) where
  | face (f : Face K)
  | other

/-- Mirrors `Topologic::Vertex::ByCoordinates(p->x(), p->y(), p->z())`. -/
def Point3d.toVertex (p : Point3d K) : Vertex K :=
  ⟨p.x, p.y, p.z⟩

/-- The first loop of `EnergyModel::FaceByOsSurface` from index `index` on: one
vertex and one index per point of the surface. -/
def collectVertices : List (Point3d K) → Nat → List (Vertex K) × List Nat
  | [], _ => ([], [])
  | osVertex :: rest, index =>
    let r := collectVertices rest (index + 1)
    (osVertex.toVertex :: r.1, index :: r.2)

/-- The arguments `EnergyModel::FaceByOsSurface` hands to
`Topology::ByVerticesIndices`: the vertices and the closed index loop. -/
def FaceByOsSurfaceArgs (osVertices : List (Point3d K)) :
    Except String (List (Vertex K) × List Nat) :=
  let collected := collectVertices osVertices 0
  if collected.1.length < 3 then .error "Invalid surface is found."
  else .ok (collected.1, collected.2 ++ [0])

/-- Mirrors `EnergyModel::FaceByOsSurface`.  `ByVerticesIndices` returns `none` for
`nullptr`. -/
def FaceByOsSurface
    (ByVerticesIndices : List (Vertex K) → List (List Nat) → Option (List (Topology K)))
    (osVertices : List (Point3d K)) : Except String (Face K) :=
  match FaceByOsSurfaceArgs osVertices with
  | .error e => .error e
  | .ok (vertices, indices) =>
    match ByVerticesIndices vertices [indices] with
    | none => .error "Error creating a topology from a surface."
    | some [] => .error "Error creating a topology from a surface."
    | some (.face face :: _) => .ok face
    | some (.other :: _) => .error "Error converting a topology to a face."

/-- The loop `for each(Cell^ buildingCell in pBuildingCells)` of
`EnergyModel::ByCellComplex`: `AddSpace` is called with `spaceNumber = 1` and the Z axis
for every cell, the new space is matched against every space made before it
(`matchSurfaces`, a library call that acts on the model) and is then added to
`osSpaceVector`; an exception ends the loop. -/
def AddSpaces (k : Kernel K) (matchSurfaces : Space → Space → Model K → Model K)
    (buildingStories : List String) (floorLevels : List K) (glazingRatio : Option K) :
    List (Cell K) → List Space → State K → State K × Except String (List Space)
  | [], osSpaceVector, st => (st, .ok osSpaceVector)
  | buildingCell :: rest, osSpaceVector, st =>
    let spaceNumber := 1
    match AddSpace k buildingStories spaceNumber buildingCell zAxis floorLevels glazingRatio
        st with
    | (st1, .error e) => (st1, .error e)
    | (st1, .ok osSpace) =>
      let osModel1 := osSpaceVector.foldl
        (fun osModel osExistingSpace => matchSurfaces osSpace osExistingSpace osModel)
        st1.osModel
      AddSpaces k matchSurfaces buildingStories floorLevels glazingRatio rest
        (osSpaceVector ++ [osSpace]) { st1 with osModel := osModel1 }

/-- Mirrors `EnergyModel::ByCellComplex` up to the end of the space loop: the two
counters are reset, the model is the one `GetModelFromTemplate` returned
(`template`), `Enumerable::Max` fails on an empty list of floor levels, the
stories are created by `ComputeBuilding`, and the spaces are added cell by
cell.  The result is the space vector.  The shading surfaces and the purge
that follow touch neither the spaces nor the counters and are left out. -/
def ByCellComplex (k : Kernel K) (matchSurfaces : Space → Space → Model K → Model K)
    (template : Model K) (pBuildingCells : List (Cell K)) (floorLevels : List K)
    (glazingRatio : Option K) : State K × Except String (List Space) :=
  let st0 : State K :=
    { osModel := template, numOfApertures := 0, numOfAppliedApertures := 0 }
  match floorLevels with
  | [] => (st0, .error "Sequence contains no elements")
  | _ :: _ =>
    let buildingStories := CreateBuildingStories (numFloors floorLevels)
    AddSpaces k matchSurfaces buildingStories floorLevels glazingRatio pBuildingCells [] st0

/-- One component of `EnergyModel::GetColor`:
`(int) Math::Floor(Math::Max(Math::Min(Math::Floor(255.0 * c), 255.0), 0.0))`. -/
def colorComponent [FloorRing K] (c : K) : Int :=
  ⌊max (min ((⌊255.0 * c⌋ : Int) : K) 255.0) 0.0⌋

/-- Mirrors `EnergyModel::GetColor`. -/
def GetColor [FloorRing K] (ratio : K) : List Int :=
  let finalRatio : K := if ratio < 0.0 then 0.0 else if ratio > 1.0 then 1.0 else ratio
  let rgb : K × K × K :=
    if finalRatio ≥ 0.0 ∧ finalRatio ≤ 0.25 then (0.0, 4.0 * finalRatio, 1.0)
    else if finalRatio > 0.25 ∧ finalRatio ≤ 0.5 then
      (0.0, 1.0, 1.0 - 4.0 * (finalRatio - 0.25))
    else if finalRatio > 0.5 ∧ finalRatio ≤ 0.75 then (4.0 * (finalRatio - 0.5), 1.0, 0.0)
    else (1.0, 1.0 - 4.0 * (finalRatio - 0.75), 0.0)
  [colorComponent rgb.1, colorComponent rgb.2.1, colorComponent rgb.2.2]

end Assembly

/-! ## Specification-side definitions -/

section SpecSide

variable {K : Type} [LinearOrderedField K]

/-- Elevation `z` lies strictly between floor level `i` and floor level `i + 1`. -/
def InOpenStory (z : K) (floorLevels : List K) (i : Nat) : Prop :=
  ∃ a b, floorLevels[i]? = some a ∧ floorLevels[i + 1]? = some b ∧ a < z ∧ z < b

/-- Elevation `z` lies in the half-open interval from floor level `i`
(included) to floor level `i + 1` (excluded), as the specification words it. -/
def InHalfOpenStory (z : K) (floorLevels : List K) (i : Nat) : Prop :=
  ∃ a b, floorLevels[i]? = some a ∧ floorLevels[i + 1]? = some b ∧ a ≤ z ∧ z < b

/-- The surface-type string of a face type. -/
def FaceType.typeString : FaceType → String
  | FACE_WALL => "Wall"
  | FACE_FLOOR => "Floor"
  | FACE_ROOFCEILING => "RoofCeiling"

/-- The decision table of the specification (section 4.2): outside boundary
condition, sun exposure and wind exposure for a face type, an adjacent-cell
count and an underground flag. -/
def specResolve : FaceType → Nat → Bool → String × String × String
  | FACE_ROOFCEILING, adjCount, underground =>
    if adjCount > 1 then ("Surface", "NoSun", "NoWind")
    else if underground then ("Ground", "NoSun", "NoWind")
    else ("Outdoors", "SunExposed", "WindExposed")
  | FACE_FLOOR, adjCount, _ =>
    if adjCount > 1 then ("Surface", "NoSun", "NoWind")
    else ("Ground", "NoSun", "NoWind")
  | FACE_WALL, adjCount, underground =>
    if adjCount > 1 then ("Surface", "NoSun", "NoWind")
    else if underground then ("Ground", "NoSun", "NoWind")
    else ("Outdoors", "SunExposed", "WindExposed")

/-- The point `c + s (p - c)`: `p` scaled by `s` about the centre `c`. -/
def scaleAbout (c : Vertex K) (s : K) (p : Vertex K) : Vertex K :=
  ((p.Subtract c.AsVector).Scale s s s).Add c.AsVector

/-- Twice the vector area of the triangle `a, b, c`: the cross product of
`b - a` and `c - a`. -/
def triCross (a b c : Vertex K) : Vector K :=
  (b.Subtract a.AsVector).AsVector.Cross (c.Subtract a.AsVector).AsVector

/-- The sum of `triCross first b c` over the consecutive pairs `b, c` of a
list: twice the vector area of the fan from `first`. -/
def fanCrossSum (first : Vertex K) : List (Vertex K) → Vector K
  | b :: c :: rest => (triCross first b c).Add (fanCrossSum first (c :: rest))
  | _ => ⟨0, 0, 0⟩

/-- The sum of the areas of the fan triangles `first, b, c` over the
consecutive pairs `b, c` of a list. -/
def fanAreaSum (sqrt : K → K) (first : Vertex K) : List (Vertex K) → K
  | b :: c :: rest => (triCross first b c).norm sqrt / 2 + fanAreaSum sqrt first (c :: rest)
  | _ => 0

/-- The sum of the cross products of consecutive position vectors along an
open path. -/
def pathCross : List (Point3d K) → Vector K
  | p :: q :: rest => (p.toVector.Cross q.toVector).Add (pathCross (q :: rest))
  | _ => ⟨0, 0, 0⟩

/-- The loop is a planar convex polygon wound positively about the direction
`n`: every three of its vertices, taken in the order of the loop, span a
triangle whose vector area is a non-negative multiple of `n`. -/
def PlanarConvex (n : Vector K) (loop : List (Vertex K)) : Prop :=
  ∀ a b c, List.Sublist [a, b, c] loop → ∃ t, 0 ≤ t ∧ triCross a b c = n.Scale t t t

/-- The sum of the areas of a list of sub-surfaces. -/
def totalArea (sqrt : K → K) (subs : List (SubSurface K)) : K :=
  (subs.map fun sub => polygonArea sqrt sub.vertices).sum

/-- The messages of a list, in order, separated by exactly one newline each,
with no newline after the last one. -/
def joinLines : List String → String
  | [] => ""
  | [message] => message
  | message :: next :: rest => message ++ "\n" ++ joinLines (next :: rest)

/-- The candidate loop of the ratio-synthesis path for the fan triangle
`first, b, c`: the triangle scaled by `ScaleVertices(triangle, 0.999)` about
the mean of its three vertices, as OpenStudio points. -/
def windowCandidate (k : Kernel K) (first b c : Vertex K) : List (Point3d K) :=
  ([first, b, c].map (scaleAbout (meanVertex [first, b, c]) (k.Sqrt 0.999))).map
    Vertex.toPoint3d

/-- The candidate loop of the explicit-aperture path for an aperture face: its
external boundary, as OpenStudio points. -/
def apertureCandidate (pFaceAperture : ApertureFace K) : List (Point3d K) :=
  pFaceAperture.ExternalBoundary.map Vertex.toPoint3d

/-- The dot product of the outward normal of a candidate loop and the outward
normal of the loop of the parent surface. -/
def orientationDot (k : Kernel K) (parent candidate : List (Point3d K)) : K :=
  (k.outwardNormal candidate).dot (k.outwardNormal parent)

/-- The dot product lies strictly between -0.99 and 0.99. -/
@[reducible]
def NonCoplanar (d : K) : Prop :=
  -0.99 < d ∧ d < 0.99

/-- The loop of an aperture candidate after the orientation check: reversed
when the dot product is below -0.99, as given otherwise. -/
def apertureFinal (k : Kernel K) (parent : List (Point3d K)) (pFaceAperture : ApertureFace K) :
    List (Point3d K) :=
  if orientationDot k parent (apertureCandidate pFaceAperture) < -0.99 then
    (apertureCandidate pFaceAperture).reverse
  else apertureCandidate pFaceAperture

/-- The content is an aperture face that passes the area filter (area above
0.1): a candidate of the explicit-aperture path. -/
def isCandidate (k : Kernel K) : Content K → Bool
  | .aperture (some pFaceAperture) => decide (k.Area pFaceAperture > 0.1)
  | _ => false

/-- The content is a candidate whose loop, after the orientation check, has a
gross area above 0.1 and is accepted by `setSurface`. -/
def isApplied (k : Kernel K) (parent : List (Point3d K)) : Content K → Bool
  | .aperture (some pFaceAperture) =>
    decide (k.Area pFaceAperture > 0.1) &&
    decide (k.grossArea (apertureFinal k parent pFaceAperture) > 0.1) &&
    k.setSurfaceOk (apertureFinal k parent pFaceAperture) parent
  | _ => false

/-- The consecutive pairs of a list. -/
def consecutivePairs {α : Type} : List α → List (α × α)
  | b :: c :: rest => (b, c) :: consecutivePairs (c :: rest)
  | _ => []

/-- The loop lies in the plane of the points `p` with `n . p = d`. -/
def InPlane (n : Vector K) (d : K) (loop : List (Point3d K)) : Prop :=
  ∀ p ∈ loop, n.dot p.toVector = d

/-- The loop `points`, reversed when the normalised outward normal of `points`
has a dot product below 0.98 with `direction`. -/
def facingLoop (k : Kernel K) (points : List (Point3d K)) (direction : Vector K) :
    List (Point3d K) :=
  if (k.Normalized (k.outwardNormal points)).dot direction < 0.98 then points.reverse
  else points

/-- The vertex loop of the Surface `AddSurface` leaves in the model for a face
of the given type and adjacent-cell count, built from `points`: for an
exterior roof or floor the loop turned to face up or down, otherwise
`points` as given. -/
def surfaceLoop (k : Kernel K) (faceType : FaceType) (adjCount : Nat)
    (points : List (Point3d K)) : List (Point3d K) :=
  if adjCount < 2 ∧ faceType = FACE_ROOFCEILING then facingLoop k points ⟨0, 0, 1⟩
  else if adjCount < 2 ∧ faceType = FACE_FLOOR then facingLoop k points ⟨0, 0, -1⟩
  else points

/-- The Surface of the exterior above-grade wall branch of `AddSurface` after
its five setters: the loop `osFacePoints` as given, attached to the space and
named, with boundary condition Outdoors, type Wall, the exterior-wall
construction, SunExposed and WindExposed. -/
def exteriorWallSurface (st : State K) (osFacePoints : List (Point3d K)) (osSpace : Space)
    (surfaceNumber : Nat) : Surface K :=
  ⟨osFacePoints, some osSpace.name,
    some (osSpace.name ++ "_SURFACE_" ++ toString surfaceNumber),
    some "Outdoors", some "Wall",
    findConstruction st.osModel.constructions
      "ASHRAE 189.1-2009 ExtWall SteelFrame ClimateZone 4-8",
    some "SunExposed", some "WindExposed"⟩

/-- The containment probe of the classifier for a loop: the centre of mass of
the first triangle of the face, offset by 0.001 along the outward normal of
`loop`, is contained in the cell. -/
def probeInside (k : Kernel K) (buildingSpace : Cell K) (buildingFace : Face K)
    (loop : List (Point3d K)) : Bool :=
  match k.Triangulate buildingFace with
  | [] => false
  | firstFace :: _ =>
    k.Contains buildingSpace (offsetVertexOf (k.CenterOfMass firstFace) (k.outwardNormal loop))

/-- The loop of a ratio-synthesis candidate after the orientation check:
reversed when the dot product is below -0.99, as given otherwise. -/
def windowFinal (k : Kernel K) (parent : List (Point3d K)) (first b c : Vertex K) :
    List (Point3d K) :=
  if orientationDot k parent (windowCandidate k first b c) < -0.99 then
    (windowCandidate k first b c).reverse
  else windowCandidate k first b c

/-- The counter invariant: `0 <= applied <= total`. -/
def CountersOrdered (applied total : Int) : Prop :=
  0 ≤ applied ∧ applied ≤ total

end SpecSide

/-! ## Theorems -/

section StoryTheorems

variable {K : Type} [LinearOrderedField K]

theorem IsUndergroundLoop_iff (vs : List (Vertex K)) :
    IsUndergroundLoop vs = true ↔ ∀ v ∈ vs, v.Z ≤ 0 := by
  induction vs with
  | nil => simp [IsUndergroundLoop]
  | cons v rest ih =>
    by_cases h : v.Z > 0
    · simp only [IsUndergroundLoop, h, if_true, List.mem_cons, forall_eq_or_imp]
      constructor
      · intro hf; cases hf
      · intro hz; exact absurd hz.1 (not_le.mpr h)
    · simp only [IsUndergroundLoop, h, if_false, List.mem_cons, forall_eq_or_imp, ih]
      exact ⟨fun hr => ⟨not_lt.mp h, hr⟩, fun hr => hr.2⟩

/-- C4: `IsUnderground` answers true exactly for the faces all of whose
vertices have elevation at most zero; a face with a vertex above zero is not
underground, and a face lying entirely at elevation zero is underground. -/
theorem IsUnderground_iff_all_le_zero (buildingFace : Face K) :
    (IsUnderground buildingFace = true ↔ ∀ v ∈ buildingFace.Vertices, v.Z ≤ 0) ∧
    ((∃ v ∈ buildingFace.Vertices, v.Z > 0) → IsUnderground buildingFace = false) ∧
    ((∀ v ∈ buildingFace.Vertices, v.Z = 0) → IsUnderground buildingFace = true) := by
  have key := IsUndergroundLoop_iff buildingFace.Vertices
  refine ⟨key, ?_, ?_⟩
  · rintro ⟨v, hv, hz⟩
    cases hu : IsUnderground buildingFace with
    | false => rfl
    | true => exact absurd (key.mp hu v hv) (not_le.mpr hz)
  · intro hall
    exact key.mpr (fun v hv => le_of_eq (hall v hv))

theorem StoryNumberLoop_some (z : K) (levels : List K) :
    ∀ (i r : Nat), StoryNumberLoop z levels i = some r →
      ∃ j, r = i + j ∧ InOpenStory z levels j ∧ ∀ j1, j1 < j → ¬ InOpenStory z levels j1 := by
  induction levels with
  | nil => intro i r h; simp [StoryNumberLoop] at h
  | cons a tl ih =>
    intro i r h
    cases tl with
    | nil => simp [StoryNumberLoop] at h
    | cons b rest =>
      by_cases hc : z > a ∧ z < b
      · simp only [StoryNumberLoop, hc, and_self, if_true, Option.some.injEq] at h
        refine ⟨0, by omega, ⟨a, b, by simp, by simp, hc.1, hc.2⟩, ?_⟩
        intro j1 hj1; omega
      · simp only [StoryNumberLoop, hc, if_false] at h
        obtain ⟨j, hr, hin, hmin⟩ := ih (i + 1) r h
        refine ⟨j + 1, by omega, ?_, ?_⟩
        · obtain ⟨x, y, hx, hy, hxz, hzy⟩ := hin
          exact ⟨x, y, by simpa using hx, by simpa using hy, hxz, hzy⟩
        · intro j1 hj1 hin1
          cases j1 with
          | zero =>
            obtain ⟨x, y, hx, hy, hxz, hzy⟩ := hin1
            simp only [List.getElem?_cons_zero, Option.some.injEq, zero_add,
              List.getElem?_cons_succ] at hx hy
            subst hx; subst hy
            exact hc ⟨hxz, hzy⟩
          | succ j2 =>
            obtain ⟨x, y, hx, hy, hxz, hzy⟩ := hin1
            exact hmin j2 (by omega) ⟨x, y, by simpa using hx, by simpa using hy, hxz, hzy⟩

theorem StoryNumberLoop_none (z : K) (levels : List K) :
    ∀ (i : Nat), StoryNumberLoop z levels i = none → ∀ j, ¬ InOpenStory z levels j := by
  induction levels with
  | nil =>
    intro i _ j hin
    obtain ⟨x, y, hx, _⟩ := hin
    simp at hx
  | cons a tl ih =>
    intro i h j hin
    cases tl with
    | nil =>
      obtain ⟨x, y, _, hy, _⟩ := hin
      simp at hy
    | cons b rest =>
      by_cases hc : z > a ∧ z < b
      · simp [StoryNumberLoop, hc] at h
      · simp only [StoryNumberLoop, hc, if_false] at h
        obtain ⟨x, y, hx, hy, hxz, hzy⟩ := hin
        cases j with
        | zero =>
          simp only [List.getElem?_cons_zero, Option.some.injEq, zero_add,
            List.getElem?_cons_succ] at hx hy
          subst hx; subst hy
          exact hc ⟨hxz, hzy⟩
        | succ j2 =>
          exact ih (i + 1) h j2 ⟨x, y, by simpa using hx, by simpa using hy, hxz, hzy⟩

theorem StoryNumberLoop_lt (z : K) (levels : List K) :
    ∀ (i r : Nat), StoryNumberLoop z levels i = some r → r + 1 < i + levels.length := by
  intro i r h
  obtain ⟨j, hr, ⟨x, y, _, hy, _⟩, _⟩ := StoryNumberLoop_some z levels i r h
  have hlt : j + 1 < levels.length := by
    rcases List.getElem?_eq_some.mp hy with ⟨hlen, _⟩
    exact hlen
  omega

theorem boxCell_centre (zLow zHigh : K) :
    (boxCell zLow zHigh).CenterOfMass.Z = (zLow + zHigh) / 2 := rfl

/-- C5 (counterexample): with floor levels 0, 3, 6 a double-height cell from
elevation 0 to 6 has its centroid at elevation exactly 3, which lies in the
half-open interval of story 1, yet `StoryNumber` returns 0, whose half-open
interval does not contain 3. -/
theorem StoryNumber_half_open_counterexample :
    (boxCell 0 6 : Cell ℚ).CenterOfMass.Z = 3 ∧
    InHalfOpenStory (boxCell 0 6 : Cell ℚ).CenterOfMass.Z [0, 3, 6] 1 ∧
    StoryNumber (boxCell 0 6 : Cell ℚ) [0, 3, 6] = 0 ∧
    ¬ InHalfOpenStory (boxCell 0 6 : Cell ℚ).CenterOfMass.Z [0, 3, 6]
        (StoryNumber (boxCell 0 6 : Cell ℚ) [0, 3, 6]) := by
  have hz : (boxCell 0 6 : Cell ℚ).CenterOfMass.Z = 3 := by
    rw [boxCell_centre]; norm_num
  have h0 : StoryNumber (boxCell 0 6 : Cell ℚ) [0, 3, 6] = 0 := by
    simp [StoryNumber, StoryNumberLoop, hz]
  refine ⟨hz, ?_, h0, ?_⟩
  · rw [hz]
    exact ⟨3, 6, rfl, rfl, le_refl _, by norm_num⟩
  · rw [h0, hz]
    rintro ⟨a, b, ha, hb, _, hzb⟩
    simp only [List.getElem?_cons_zero, Option.some.injEq, zero_add,
      List.getElem?_cons_succ] at ha hb
    subst hb
    exact absurd hzb (lt_irrefl _)

/-- C5 (amended): `StoryNumber` returns the least index whose open interval
(floor level `i`, floor level `i + 1`) contains the centroid elevation whenever
one exists, and 0 when none does; an elevation equal to floor level `i` is not
in the interval of index `i`. -/
theorem StoryNumber_open_interval (buildingCell : Cell K) (floorLevels : List K) :
    (∀ i, InOpenStory buildingCell.CenterOfMass.Z floorLevels i →
      InOpenStory buildingCell.CenterOfMass.Z floorLevels
        (StoryNumber buildingCell floorLevels) ∧
      StoryNumber buildingCell floorLevels ≤ i) ∧
    ((∀ i, ¬ InOpenStory buildingCell.CenterOfMass.Z floorLevels i) →
      StoryNumber buildingCell floorLevels = 0) ∧
    (∀ i, floorLevels[i]? = some buildingCell.CenterOfMass.Z →
      ¬ InOpenStory buildingCell.CenterOfMass.Z floorLevels i) := by
  refine ⟨?_, ?_, ?_⟩
  · intro i hi
    cases hloop : StoryNumberLoop buildingCell.CenterOfMass.Z floorLevels 0 with
    | none => exact absurd hi (StoryNumberLoop_none _ _ 0 hloop i)
    | some r =>
      obtain ⟨j, hr, hin, hmin⟩ := StoryNumberLoop_some _ _ 0 r hloop
      have hrj : r = j := by omega
      subst hrj
      simp only [StoryNumber, hloop]
      refine ⟨hin, ?_⟩
      by_contra hlt
      exact hmin i (by omega) hi
  · intro hnone
    cases hloop : StoryNumberLoop buildingCell.CenterOfMass.Z floorLevels 0 with
    | none => simp [StoryNumber, hloop]
    | some r =>
      obtain ⟨j, _, hin, _⟩ := StoryNumberLoop_some _ _ 0 r hloop
      exact absurd hin (hnone j)
  · rintro i hi ⟨a, b, ha, _, haz, _⟩
    rw [hi] at ha
    simp only [Option.some.injEq] at ha
    rw [ha] at haz
    exact absurd haz (lt_irrefl _)

/-- Witness of `StoryNumber_open_interval`: floor levels 0, 3, 6 and a cell
from elevation 3 to 5, whose centroid is at elevation 4. -/
theorem StoryNumber_open_interval_witness :
    InOpenStory (boxCell 3 5 : Cell ℚ).CenterOfMass.Z [0, 3, 6] 1 ∧
    InOpenStory (boxCell 3 5 : Cell ℚ).CenterOfMass.Z [0, 3, 6]
      (StoryNumber (boxCell 3 5 : Cell ℚ) [0, 3, 6]) ∧
    StoryNumber (boxCell 3 5 : Cell ℚ) [0, 3, 6] ≤ 1 :=
  have h : InOpenStory (boxCell 3 5 : Cell ℚ).CenterOfMass.Z [0, 3, 6] 1 :=
    ⟨3, 6, rfl, rfl, by rw [boxCell_centre]; norm_num, by rw [boxCell_centre]; norm_num⟩
  ⟨h, (StoryNumber_open_interval (boxCell 3 5 : Cell ℚ) [0, 3, 6]).1 1 h⟩

theorem StoryNumber_lt (buildingCell : Cell K) (floorLevels : List K)
    (h : 2 ≤ floorLevels.length) :
    StoryNumber buildingCell floorLevels < floorLevels.length - 1 := by
  cases hloop : StoryNumberLoop buildingCell.CenterOfMass.Z floorLevels 0 with
  | none => simp only [StoryNumber, hloop]; omega
  | some r =>
    have := StoryNumberLoop_lt _ _ 0 r hloop
    simp only [StoryNumber, hloop]
    omega

/-- C6: for a list of at least two floor levels, `CreateBuildingStories`
creates one story per interval, named STORY_1 to STORY_(len - 1) in order, and
for every cell the index `StoryNumber` returns is below the number of stories,
so the lookup of the story in the list of stories succeeds. -/
theorem StoryNumber_story_lookup_in_range (floorLevels : List K)
    (h : 2 ≤ floorLevels.length) :
    (CreateBuildingStories (numFloors floorLevels)).length = floorLevels.length - 1 ∧
    (∀ i, i < floorLevels.length - 1 →
      (CreateBuildingStories (numFloors floorLevels))[i]? =
        some ("STORY_" ++ toString (i + 1))) ∧
    (∀ buildingCell : Cell K,
      StoryNumber buildingCell floorLevels < floorLevels.length - 1 ∧
      (CreateBuildingStories (numFloors floorLevels))[StoryNumber buildingCell floorLevels]? =
        some ("STORY_" ++ toString (StoryNumber buildingCell floorLevels + 1))) := by
  have hnames : ∀ i, i < floorLevels.length - 1 →
      (CreateBuildingStories (numFloors floorLevels))[i]? =
        some ("STORY_" ++ toString (i + 1)) := by
    intro i hi
    simp [CreateBuildingStories, numFloors, AddBuildingStory, List.getElem?_range hi]
  refine ⟨by simp [CreateBuildingStories, numFloors], hnames, ?_⟩
  intro buildingCell
  have hlt := StoryNumber_lt buildingCell floorLevels h
  exact ⟨hlt, hnames _ hlt⟩

/-- Witness of `StoryNumber_story_lookup_in_range`: floor levels 0, 3, 6. -/
theorem StoryNumber_story_lookup_in_range_witness :
    2 ≤ ([0, 3, 6] : List ℚ).length ∧
    (CreateBuildingStories (numFloors ([0, 3, 6] : List ℚ))).length = 2 :=
  ⟨by decide, (StoryNumber_story_lookup_in_range ([0, 3, 6] : List ℚ) (by decide)).1⟩

end StoryTheorems

section ClassifierTheorems

variable {K : Type} [LinearOrderedField K]

theorem triangulateFan_bottomFace :
    triangulateFan (bottomFace : Face K) =
      [⟨[⟨0, 0, 0⟩, ⟨0, 1, 0⟩, ⟨1, 1, 0⟩], [⟨0, 0, 0⟩, ⟨0, 1, 0⟩, ⟨1, 1, 0⟩], [], [0]⟩,
       ⟨[⟨0, 0, 0⟩, ⟨1, 1, 0⟩, ⟨1, 0, 0⟩], [⟨0, 0, 0⟩, ⟨1, 1, 0⟩, ⟨1, 0, 0⟩], [], [0]⟩] := by
  norm_num [triangulateFan, bottomFace, cubeFace, fanTriangles, newell, newellFrom,
    Vector.Add, Vector.Cross, Vector.dot, Point3d.toVector, Vertex.toPoint3d]

theorem triangulateFan_southFace :
    triangulateFan (southFace : Face K) =
      [⟨[⟨0, 0, 0⟩, ⟨1, 0, 0⟩, ⟨1, 0, 1⟩], [⟨0, 0, 0⟩, ⟨1, 0, 0⟩, ⟨1, 0, 1⟩], [], [0]⟩,
       ⟨[⟨0, 0, 0⟩, ⟨1, 0, 1⟩, ⟨0, 0, 1⟩], [⟨0, 0, 0⟩, ⟨1, 0, 1⟩, ⟨0, 0, 1⟩], [], [0]⟩] := by
  norm_num [triangulateFan, southFace, cubeFace, fanTriangles, newell, newellFrom,
    Vector.Add, Vector.Cross, Vector.dot, Point3d.toVector, Vertex.toPoint3d]

theorem triangulateFan_sliverFace : triangulateFan (sliverFace : Face K) = [] := by
  norm_num [triangulateFan, sliverFace, cubeFace, newell, newellFrom,
    Vector.Add, Vector.Cross, Vector.dot, Point3d.toVector, Vertex.toPoint3d]

theorem boxKernel_angle_reverse (n up : Vector ℚ) :
    boxKernel.AngleWithVector n.Reverse up = 180 - boxKernel.AngleWithVector n up := by
  simp only [boxKernel, Vector.dot, Vector.Reverse]
  ring

theorem bottomFace_angle :
    boxKernel.AngleWithVector (faceNormalOf boxKernel ⟨0, 0, 0⟩ ⟨0, 1, 0⟩ ⟨1, 1, 0⟩) zAxis
      = 180 := by
  norm_num [boxKernel, faceNormalOf, normalizeAxis, Vector.l1, Vector.Cross, Vector.Scale,
    Vector.dot, Vertex.AsVector, Vertex.Subtract, zAxis]

theorem CalculateFaceType_cases (k : Kernel K) (buildingFace : Face K)
    (facePoints : List (Point3d K)) (buildingSpace : Cell K) (upVector : Vector K)
    (firstFace : Face K) (rest : List (Face K)) (p1 p2 p3 : Vertex K) (tl : List (Vertex K))
    (htri : k.Triangulate buildingFace = firstFace :: rest)
    (hv : buildingFace.Vertices = p1 :: p2 :: p3 :: tl)
    (hrev : k.AngleWithVector (faceNormalOf k p1 p2 p3).Reverse upVector =
      180 - k.AngleWithVector (faceNormalOf k p1 p2 p3) upVector) :
    let a := k.AngleWithVector (faceNormalOf k p1 p2 p3) upVector
    let inside := k.Contains buildingSpace
      (offsetVertexOf (k.CenterOfMass firstFace) (faceNormalOf k p1 p2 p3))
    let a1 := if inside = true then 180 - a else a
    let result := (CalculateFaceType k buildingFace facePoints buildingSpace upVector).1
    (5 ≤ a ∧ a ≤ 175 → result = .ok FACE_WALL) ∧
    (a < 5 ∨ a > 175 →
      (a1 < 5 → result = .ok FACE_ROOFCEILING) ∧ (a1 > 175 → result = .ok FACE_FLOOR)) ∧
    (a < 5 ∨ a > 175 → result = .ok FACE_ROOFCEILING ∨ result = .ok FACE_FLOOR) ∧
    (a < 5 ∨ a > 175 → result ≠ .ok FACE_WALL) ∧
    (5 ≤ a ∧ a ≤ 175 → result ≠ .ok FACE_FLOOR ∧ result ≠ .ok FACE_ROOFCEILING) := by
  intro a inside a1 result
  have hres : result =
      (if a < 5 ∨ a > 175 then
        (if a1 < 5 then Except.ok FACE_ROOFCEILING
         else if a1 > 175 then Except.ok FACE_FLOOR else Except.ok FACE_WALL)
       else Except.ok FACE_WALL) := by
    simp only [result, a1, a, inside, CalculateFaceType, htri, hv, hrev]
    norm_num
    split_ifs <;> rfl
  have hnear : a < 5 ∨ a > 175 → a1 < 5 ∨ a1 > 175 := by
    intro h
    by_cases hin : inside = true
    · simp only [a1, hin, if_true]
      rcases h with h | h
      · right; linarith
      · left; linarith
    · simp only [a1, hin]
      exact h
  refine ⟨?_, ?_, ?_, ?_, ?_⟩
  · rintro ⟨h5, h175⟩
    rw [hres, if_neg (by rintro (h | h) <;> linarith)]
  · intro h
    rw [hres, if_pos h]
    refine ⟨fun h1 => by rw [if_pos h1], fun h1 => ?_⟩
    rw [if_neg (by linarith), if_pos h1]
  · intro h
    rw [hres, if_pos h]
    rcases hnear h with h1 | h1
    · left; rw [if_pos h1]
    · right; rw [if_neg (by linarith), if_pos h1]
  · intro h
    rw [hres, if_pos h]
    rcases hnear h with h1 | h1
    · rw [if_pos h1]; intro hc; cases hc
    · rw [if_neg (by linarith), if_pos h1]; intro hc; cases hc
  · rintro ⟨h5, h175⟩
    rw [hres, if_neg (by rintro (h | h) <;> linarith)]
    exact ⟨fun hc => (by cases hc), fun hc => (by cases hc)⟩

/-- C2: for a face with a non-empty triangulation (and the three vertices the
normal is computed from), with `a` the angle between the face normal and the
up axis and `inside` the result of the containment probe: the face is a Wall
when `5 ≤ a ≤ 175`; otherwise, with `a1 = 180 - a` if `inside` and `a1 = a` if
not, it is a RoofCeiling when `a1 < 5` and a Floor when `a1 > 175`, so a
near-horizontal face is never a Wall and a face in `[5, 175]` is never a Floor
or a RoofCeiling. -/
theorem CalculateFaceType_classification (k : Kernel K) (buildingFace : Face K)
    (facePoints : List (Point3d K)) (buildingSpace : Cell K) (upVector : Vector K)
    (firstFace : Face K) (rest : List (Face K)) (p1 p2 p3 : Vertex K) (tl : List (Vertex K))
    (htri : k.Triangulate buildingFace = firstFace :: rest)
    (hv : buildingFace.Vertices = p1 :: p2 :: p3 :: tl)
    (hrev : k.AngleWithVector (faceNormalOf k p1 p2 p3).Reverse upVector =
      180 - k.AngleWithVector (faceNormalOf k p1 p2 p3) upVector) :
    let a := k.AngleWithVector (faceNormalOf k p1 p2 p3) upVector
    let inside := k.Contains buildingSpace
      (offsetVertexOf (k.CenterOfMass firstFace) (faceNormalOf k p1 p2 p3))
    let a1 := if inside = true then 180 - a else a
    let result := (CalculateFaceType k buildingFace facePoints buildingSpace upVector).1
    (5 ≤ a ∧ a ≤ 175 → result = .ok FACE_WALL) ∧
    (a < 5 ∨ a > 175 →
      (a1 < 5 → result = .ok FACE_ROOFCEILING) ∧ (a1 > 175 → result = .ok FACE_FLOOR)) ∧
    (a < 5 ∨ a > 175 → result = .ok FACE_ROOFCEILING ∨ result = .ok FACE_FLOOR) ∧
    (a < 5 ∨ a > 175 → result ≠ .ok FACE_WALL) ∧
    (5 ≤ a ∧ a ≤ 175 → result ≠ .ok FACE_FLOOR ∧ result ≠ .ok FACE_ROOFCEILING) :=
  CalculateFaceType_cases k buildingFace facePoints buildingSpace upVector firstFace rest
    p1 p2 p3 tl htri hv hrev

/-- Witness of `CalculateFaceType_classification`: the bottom face of the unit
cube, whose normal points down (angle 180) and whose probe is outside. -/
theorem CalculateFaceType_classification_witness :
    (CalculateFaceType boxKernel bottomFace (GetFacePoints bottomFace) unitCube zAxis).1
      = .ok FACE_FLOOR :=
  ((CalculateFaceType_classification boxKernel bottomFace (GetFacePoints bottomFace) unitCube
    zAxis ⟨[⟨0, 0, 0⟩, ⟨0, 1, 0⟩, ⟨1, 1, 0⟩], [⟨0, 0, 0⟩, ⟨0, 1, 0⟩, ⟨1, 1, 0⟩], [], [0]⟩
    [⟨[⟨0, 0, 0⟩, ⟨1, 1, 0⟩, ⟨1, 0, 0⟩], [⟨0, 0, 0⟩, ⟨1, 1, 0⟩, ⟨1, 0, 0⟩], [], [0]⟩]
    ⟨0, 0, 0⟩ ⟨0, 1, 0⟩ ⟨1, 1, 0⟩ [⟨1, 0, 0⟩] triangulateFan_bottomFace rfl
    (boxKernel_angle_reverse _ _)).2.1
      (Or.inr (by rw [bottomFace_angle]; norm_num))).2
      (by
        rw [bottomFace_angle]
        norm_num [boxKernel, faceNormalOf, offsetVertexOf, normalizeAxis, Vector.l1,
          Vector.Cross, Vector.Scale, Vertex.AsVector, Vertex.Subtract, Vertex.Translate,
          Vertex.Add, Vertex.Scale, meanVertex, strictlyInBox, unitCube, bottomFace, topFace,
          southFace, northFace, westFace, eastFace, cubeFace])

/-- C3: `CalculateFaceType` hands back the vertex loop reversed exactly when
the face is near-horizontal (angle below 5 or above 175) and the probe vertex
is inside the owning cell; in every other case the loop comes back with the
same points in the same order: when the call fails, when the face is not
near-horizontal, when the probe is outside, and in particular (the angle of
the reversed normal being `180 - a`) for every face classified Wall. -/
theorem CalculateFaceType_reverses_iff (k : Kernel K) (buildingFace : Face K)
    (facePoints : List (Point3d K)) (buildingSpace : Cell K) (upVector : Vector K) :
    (k.Triangulate buildingFace = [] →
      (CalculateFaceType k buildingFace facePoints buildingSpace upVector).2 = facePoints) ∧
    (buildingFace.Vertices.length < 3 →
      (CalculateFaceType k buildingFace facePoints buildingSpace upVector).2 = facePoints) ∧
    (∀ (firstFace : Face K) (rest : List (Face K)) (p1 p2 p3 : Vertex K) (tl : List (Vertex K)),
      k.Triangulate buildingFace = firstFace :: rest →
      buildingFace.Vertices = p1 :: p2 :: p3 :: tl →
      let a := k.AngleWithVector (faceNormalOf k p1 p2 p3) upVector
      let inside := k.Contains buildingSpace
        (offsetVertexOf (k.CenterOfMass firstFace) (faceNormalOf k p1 p2 p3))
      (CalculateFaceType k buildingFace facePoints buildingSpace upVector).2 =
        (if (a < 5 ∨ a > 175) ∧ inside = true then facePoints.reverse else facePoints) ∧
      (k.AngleWithVector (faceNormalOf k p1 p2 p3).Reverse upVector = 180 - a →
        (CalculateFaceType k buildingFace facePoints buildingSpace upVector).1 = .ok FACE_WALL →
        (CalculateFaceType k buildingFace facePoints buildingSpace upVector).2 = facePoints)) := by
  refine ⟨?_, ?_, ?_⟩
  · intro h
    simp [CalculateFaceType, h]
  · intro h
    unfold CalculateFaceType
    split
    · rfl
    · split
      · rename_i heq
        rw [heq] at h
        simp only [List.length_cons] at h
        omega
      · rfl
  · intro firstFace rest p1 p2 p3 tl htri hv a inside
    have hloop : (CalculateFaceType k buildingFace facePoints buildingSpace upVector).2 =
        (if (a < 5 ∨ a > 175) ∧ inside = true then facePoints.reverse else facePoints) := by
      simp only [a, inside, CalculateFaceType, htri, hv]
      norm_num
      split_ifs <;> simp_all
    refine ⟨hloop, ?_⟩
    intro hrev hwall
    have hcls := CalculateFaceType_cases k buildingFace facePoints buildingSpace
      upVector firstFace rest p1 p2 p3 tl htri hv hrev
    rw [hloop, if_neg]
    rintro ⟨hnear, _⟩
    exact hcls.2.2.2.1 hnear hwall

/-- Witness of `CalculateFaceType_reverses_iff`: the bottom face of the unit
cube is near-horizontal with its probe outside, so its loop is not reversed. -/
theorem CalculateFaceType_reverses_iff_witness :
    (CalculateFaceType boxKernel bottomFace (GetFacePoints bottomFace) unitCube zAxis).2 =
      (if ((180 : ℚ) < 5 ∨ (180 : ℚ) > 175) ∧ false = true
        then (GetFacePoints bottomFace).reverse else GetFacePoints bottomFace) := by
  have h := ((CalculateFaceType_reverses_iff boxKernel bottomFace (GetFacePoints bottomFace)
    unitCube zAxis).2.2
    ⟨[⟨0, 0, 0⟩, ⟨0, 1, 0⟩, ⟨1, 1, 0⟩], [⟨0, 0, 0⟩, ⟨0, 1, 0⟩, ⟨1, 1, 0⟩], [], [0]⟩
    [⟨[⟨0, 0, 0⟩, ⟨1, 1, 0⟩, ⟨1, 0, 0⟩], [⟨0, 0, 0⟩, ⟨1, 1, 0⟩, ⟨1, 0, 0⟩], [], [0]⟩]
    ⟨0, 0, 0⟩ ⟨0, 1, 0⟩ ⟨1, 1, 0⟩ [⟨1, 0, 0⟩] triangulateFan_bottomFace rfl).1
  rw [bottomFace_angle] at h
  rw [h]
  norm_num [boxKernel, faceNormalOf, offsetVertexOf, normalizeAxis, Vector.l1,
    Vector.Cross, Vector.Scale, Vertex.AsVector, Vertex.Subtract, Vertex.Translate,
    Vertex.Add, Vertex.Scale, meanVertex, strictlyInBox, unitCube, bottomFace, topFace,
    southFace, northFace, westFace, eastFace, cubeFace]

end ClassifierTheorems

section ResolverTheorems

variable {K : Type} [LinearOrderedField K]

theorem commit_surfaces {F : Type} (st : State F) (osSurface : Surface F) (s : SubState F) :
    (st.commit osSurface s).osModel.surfaces = st.osModel.surfaces ++ [osSurface] := rfl

/-- C1: whenever the classifier returns a face type, `AddSurface` leaves in
the model exactly one new Surface, whose outside boundary condition, sun
exposure and wind exposure are the entries of the decision table for the face
type, the adjacent-cell count and the underground flag, and whose surface type
string is the face type. -/
theorem AddSurface_boundary_table (k : Kernel K) (surfaceNumber : Nat) (buildingFace : Face K)
    (buildingSpace : Cell K) (osFacePoints : List (Point3d K)) (osSpace : Space)
    (upVector : Vector K) (glazingRatio : Option K) (st : State K) (faceType : FaceType)
    (hft : (CalculateFaceType k buildingFace osFacePoints buildingSpace upVector).1 =
      .ok faceType) :
    ∃ osSurface : Surface K,
      (AddSurface k surfaceNumber buildingFace buildingSpace osFacePoints osSpace upVector
        glazingRatio st).1.osModel.surfaces = st.osModel.surfaces ++ [osSurface] ∧
      osSurface.outsideBoundaryCondition = some
        (specResolve faceType (AdjacentCellCount buildingFace) (IsUnderground buildingFace)).1 ∧
      osSurface.sunExposure = some
        (specResolve faceType (AdjacentCellCount buildingFace)
          (IsUnderground buildingFace)).2.1 ∧
      osSurface.windExposure = some
        (specResolve faceType (AdjacentCellCount buildingFace)
          (IsUnderground buildingFace)).2.2 ∧
      osSurface.surfaceType = some faceType.typeString := by
  unfold AddSurface
  simp only [hft]
  by_cases hadj : AdjacentCellCount buildingFace > 1
  · have hadj2 : ¬ AdjacentCellCount buildingFace < 2 := by omega
    cases faceType <;>
      simp [hadj, hadj2, commit_surfaces, setBranch, specResolve, FaceType.typeString]
  · have hadj2 : AdjacentCellCount buildingFace < 2 := by omega
    cases hug : IsUnderground buildingFace <;> cases faceType <;>
      simp only [hadj, hadj2, hug, false_and, and_false, true_and, and_true, if_false, if_true,
        not_true_eq_false, not_false_eq_true, Bool.false_eq_true, reduceCtorEq] <;>
      first
        | (refine ⟨_, rfl, ?_⟩
           simp [specResolve, hadj, setBranch, FaceType.typeString])
        | (split <;>
            (refine ⟨_, rfl, ?_⟩
             simp [specResolve, hadj, setBranch, FaceType.typeString]))

theorem southFace_type :
    (CalculateFaceType boxKernel southFace (GetFacePoints southFace) unitCube zAxis).1
      = .ok FACE_WALL := by
  simp only [CalculateFaceType, boxKernel, triangulateFan_southFace]
  norm_num [southFace, cubeFace, faceNormalOf, normalizeAxis, Vector.l1, Vector.Cross,
    Vector.Scale, Vector.dot, Vertex.AsVector, Vertex.Subtract, zAxis]

theorem bottomFace_type :
    (CalculateFaceType boxKernel bottomFace (GetFacePoints bottomFace) unitCube zAxis).1
      = .ok FACE_FLOOR := by
  simp only [CalculateFaceType, boxKernel, triangulateFan_bottomFace]
  norm_num [faceNormalOf, offsetVertexOf, normalizeAxis,
    Vector.l1, Vector.Cross, Vector.Scale, Vector.dot, Vertex.AsVector, Vertex.Subtract,
    Vertex.Translate, Vertex.Add, Vertex.Scale, meanVertex, strictlyInBox, unitCube,
    bottomFace, topFace, southFace, northFace, westFace, eastFace, cubeFace, zAxis]

theorem southFace_not_underground : IsUnderground (southFace : Face ℚ) = false := by
  norm_num [IsUnderground, IsUndergroundLoop, southFace, cubeFace]

/-- Witness of `AddSurface_boundary_table`: the south wall of the unit cube is
an exterior wall above grade. -/
theorem AddSurface_boundary_table_witness :
    ∃ osSurface : Surface ℚ,
      (AddSurface boxKernel 1 southFace unitCube (GetFacePoints southFace) ⟨"STORY_1_SPACE_1"⟩
        zAxis none emptyState).1.osModel.surfaces = emptyState.osModel.surfaces ++ [osSurface] ∧
      osSurface.outsideBoundaryCondition = some
        (specResolve FACE_WALL (AdjacentCellCount (southFace : Face ℚ))
          (IsUnderground (southFace : Face ℚ))).1 ∧
      osSurface.sunExposure = some
        (specResolve FACE_WALL (AdjacentCellCount (southFace : Face ℚ))
          (IsUnderground (southFace : Face ℚ))).2.1 ∧
      osSurface.windExposure = some
        (specResolve FACE_WALL (AdjacentCellCount (southFace : Face ℚ))
          (IsUnderground (southFace : Face ℚ))).2.2 ∧
      osSurface.surfaceType = some FACE_WALL.typeString :=
  AddSurface_boundary_table boxKernel 1 southFace unitCube (GetFacePoints southFace)
    ⟨"STORY_1_SPACE_1"⟩ zAxis none emptyState FACE_WALL southFace_type

theorem AddSurface_of_triangulate_nil (k : Kernel K) (surfaceNumber : Nat)
    (buildingFace : Face K) (buildingSpace : Cell K) (osFacePoints : List (Point3d K))
    (osSpace : Space) (upVector : Vector K) (glazingRatio : Option K) (st : State K)
    (htri : k.Triangulate buildingFace = []) :
    AddSurface k surfaceNumber buildingFace buildingSpace osFacePoints osSpace upVector
        glazingRatio st =
      ({ osModel :=
          { constructions := st.osModel.constructions
            surfaces := st.osModel.surfaces ++
              [⟨osFacePoints, some osSpace.name, none, none, none, none, none, none⟩]
            subSurfaces := st.osModel.subSurfaces }
         numOfApertures := st.numOfApertures
         numOfAppliedApertures := st.numOfAppliedApertures },
       .error "Failed to triangulate a face.") := by
  have hft : (CalculateFaceType k buildingFace osFacePoints buildingSpace upVector).1 =
      .error "Failed to triangulate a face." := by
    simp [CalculateFaceType, htri]
  unfold AddSurface
  simp only [hft]
  simp [State.commit, Surface.new]

theorem AddSurface_exterior_wall_bad_ratio (k : Kernel K) (surfaceNumber : Nat)
    (buildingFace : Face K) (buildingSpace : Cell K) (osFacePoints : List (Point3d K))
    (osSpace : Space) (upVector : Vector K) (value : K) (st : State K)
    (hft : (CalculateFaceType k buildingFace osFacePoints buildingSpace upVector).1 =
      .ok FACE_WALL)
    (hadj : AdjacentCellCount buildingFace < 2) (hug : IsUnderground buildingFace = false)
    (hr : value < 0 ∨ value > 1) :
    AddSurface k surfaceNumber buildingFace buildingSpace osFacePoints osSpace upVector
        (some value) st =
      ({ osModel :=
          { constructions := st.osModel.constructions
            surfaces := st.osModel.surfaces ++
              [⟨osFacePoints, some osSpace.name,
                some (osSpace.name ++ "_SURFACE_" ++ toString surfaceNumber),
                some "Outdoors", some "Wall",
                findConstruction st.osModel.constructions
                  "ASHRAE 189.1-2009 ExtWall SteelFrame ClimateZone 4-8",
                some "SunExposed", some "WindExposed"⟩]
            subSurfaces := st.osModel.subSurfaces }
         numOfApertures := st.numOfApertures
         numOfAppliedApertures := st.numOfAppliedApertures },
       .error "The glazing ratio must be between 0.0 and 1.0 (both inclusive).") := by
  have hadj2 : ¬ AdjacentCellCount buildingFace > 1 := by omega
  have hr2 : value < 0.0 ∨ value > 1.0 := by norm_num; exact hr
  unfold AddSurface
  simp only [hft, hadj, hadj2, hug, false_and, and_false, true_and, and_true, if_false,
    if_true, not_true_eq_false, not_false_eq_true, Bool.false_eq_true, reduceCtorEq,
    addWallApertures, hr2]
  simp [State.commit, Surface.new, setBranch]

theorem AddSurface_ok_of_not_exterior_wall (k : Kernel K) (surfaceNumber : Nat)
    (buildingFace : Face K) (buildingSpace : Cell K) (osFacePoints : List (Point3d K))
    (osSpace : Space) (upVector : Vector K) (glazingRatio : Option K) (st : State K)
    (faceType : FaceType)
    (hft : (CalculateFaceType k buildingFace osFacePoints buildingSpace upVector).1 =
      .ok faceType)
    (hne : ¬ (faceType = FACE_WALL ∧ AdjacentCellCount buildingFace < 2 ∧
      IsUnderground buildingFace = false)) :
    ∃ osSurface, (AddSurface k surfaceNumber buildingFace buildingSpace osFacePoints osSpace
      upVector glazingRatio st).2 = .ok osSurface := by
  unfold AddSurface
  simp only [hft]
  by_cases hadj : AdjacentCellCount buildingFace > 1
  · have hadj2 : ¬ AdjacentCellCount buildingFace < 2 := by omega
    cases faceType <;> simp [hadj, hadj2]
  · have hadj2 : AdjacentCellCount buildingFace < 2 := by omega
    cases hug : IsUnderground buildingFace <;> cases faceType <;>
      first
        | (simp [hadj, hadj2, hug]; done)
        | exact absurd (And.intro rfl (And.intro hadj2 hug)) hne

theorem sliverFace_triangulate : boxKernel.Triangulate sliverFace = [] :=
  triangulateFan_sliverFace

/-- C7 (counterexample): the bottom face of the unit cube is classified Floor,
and `AddSurface` returns its Surface without error although the supplied
glazing ratio is 3/2. -/
theorem AddSurface_bad_ratio_floor_counterexample :
    ((3 / 2 : ℚ) < 0 ∨ (3 / 2 : ℚ) > 1) ∧
    ∃ osSurface, (AddSurface boxKernel 1 bottomFace unitCube (GetFacePoints bottomFace)
      ⟨"STORY_1_SPACE_1"⟩ zAxis (some (3 / 2)) emptyState).2 = .ok osSurface :=
  ⟨Or.inr (by norm_num),
    AddSurface_ok_of_not_exterior_wall boxKernel 1 bottomFace unitCube
      (GetFacePoints bottomFace) ⟨"STORY_1_SPACE_1"⟩ zAxis (some (3 / 2)) emptyState
      FACE_FLOOR bottomFace_type (fun h => by cases h.1)⟩

/-- C7 (amended): with a supplied glazing ratio below 0 or above 1,
`AddSurface` fails with the glazing-ratio error for every face classified Wall
with fewer than two adjacent cells and not underground; for a face classified
otherwise the ratio is not examined and `AddSurface` returns the Surface. -/
theorem AddSurface_bad_ratio_rejected_on_exterior_wall (k : Kernel K) (surfaceNumber : Nat)
    (buildingFace : Face K) (buildingSpace : Cell K) (osFacePoints : List (Point3d K))
    (osSpace : Space) (upVector : Vector K) (value : K) (st : State K) (faceType : FaceType)
    (hft : (CalculateFaceType k buildingFace osFacePoints buildingSpace upVector).1 =
      .ok faceType)
    (hr : value < 0 ∨ value > 1) :
    ((faceType = FACE_WALL ∧ AdjacentCellCount buildingFace < 2 ∧
        IsUnderground buildingFace = false) →
      (AddSurface k surfaceNumber buildingFace buildingSpace osFacePoints osSpace upVector
        (some value) st).2 =
        .error "The glazing ratio must be between 0.0 and 1.0 (both inclusive).") ∧
    (¬ (faceType = FACE_WALL ∧ AdjacentCellCount buildingFace < 2 ∧
        IsUnderground buildingFace = false) →
      ∃ osSurface, (AddSurface k surfaceNumber buildingFace buildingSpace osFacePoints osSpace
        upVector (some value) st).2 = .ok osSurface) := by
  refine ⟨?_, ?_⟩
  · rintro ⟨hw, hadj, hug⟩
    subst hw
    rw [AddSurface_exterior_wall_bad_ratio k surfaceNumber buildingFace buildingSpace
      osFacePoints osSpace upVector value st hft hadj hug hr]
  · intro hne
    exact AddSurface_ok_of_not_exterior_wall k surfaceNumber buildingFace buildingSpace
      osFacePoints osSpace upVector (some value) st faceType hft hne

/-- Witness of `AddSurface_bad_ratio_rejected_on_exterior_wall`: the south wall
of the unit cube with glazing ratio 3/2. -/
theorem AddSurface_bad_ratio_rejected_on_exterior_wall_witness :
    (AddSurface boxKernel 1 southFace unitCube (GetFacePoints southFace)
      ⟨"STORY_1_SPACE_1"⟩ zAxis (some (3 / 2)) emptyState).2 =
      .error "The glazing ratio must be between 0.0 and 1.0 (both inclusive)." :=
  (AddSurface_bad_ratio_rejected_on_exterior_wall boxKernel 1 southFace unitCube
    (GetFacePoints southFace) ⟨"STORY_1_SPACE_1"⟩ zAxis (3 / 2) emptyState FACE_WALL
    southFace_type (Or.inr (by norm_num))).1
    ⟨rfl, by decide, southFace_not_underground⟩

/-- C8 (counterexample): `AddSurface` on the south wall of the unit cube with
glazing ratio 3/2 fails with the glazing-ratio error, and the model then holds
a Surface that was not there before the call. -/
theorem AddSurface_bad_ratio_mutation_counterexample :
    (AddSurface boxKernel 1 southFace unitCube (GetFacePoints southFace)
      ⟨"STORY_1_SPACE_1"⟩ zAxis (some (3 / 2)) emptyState).2 =
      .error "The glazing ratio must be between 0.0 and 1.0 (both inclusive)." ∧
    (emptyState : State ℚ).osModel.surfaces.length = 0 ∧
    (AddSurface boxKernel 1 southFace unitCube (GetFacePoints southFace)
      ⟨"STORY_1_SPACE_1"⟩ zAxis (some (3 / 2)) emptyState).1.osModel.surfaces.length = 1 ∧
    (AddSurface boxKernel 1 southFace unitCube (GetFacePoints southFace)
      ⟨"STORY_1_SPACE_1"⟩ zAxis (some (3 / 2)) emptyState).1.osModel.surfaces ≠
      emptyState.osModel.surfaces := by
  have h := AddSurface_exterior_wall_bad_ratio boxKernel 1 southFace unitCube
    (GetFacePoints southFace) ⟨"STORY_1_SPACE_1"⟩ zAxis (3 / 2) emptyState southFace_type
    (by decide) southFace_not_underground (Or.inr (by norm_num))
  rw [h]
  refine ⟨rfl, rfl, rfl, ?_⟩
  simp [emptyState]

/-- C8 (amended): when `AddSurface` fails because the supplied glazing ratio is
outside [0,1] (a face classified Wall, with fewer than two adjacent cells, not
underground), no sub-surface has been created and the aperture counters are
unchanged, and the model after the failure is the model before the call with
one more Surface: the face's, already attached to the space, named, and given
boundary condition Outdoors, type Wall, the exterior-wall construction and
SunExposed, WindExposed. -/
theorem AddSurface_bad_ratio_state (k : Kernel K) (surfaceNumber : Nat)
    (buildingFace : Face K) (buildingSpace : Cell K) (osFacePoints : List (Point3d K))
    (osSpace : Space) (upVector : Vector K) (value : K) (st : State K)
    (hft : (CalculateFaceType k buildingFace osFacePoints buildingSpace upVector).1 =
      .ok FACE_WALL)
    (hadj : AdjacentCellCount buildingFace < 2) (hug : IsUnderground buildingFace = false)
    (hr : value < 0 ∨ value > 1) :
    (AddSurface k surfaceNumber buildingFace buildingSpace osFacePoints osSpace upVector
        (some value) st).2 =
      .error "The glazing ratio must be between 0.0 and 1.0 (both inclusive)." ∧
    (AddSurface k surfaceNumber buildingFace buildingSpace osFacePoints osSpace upVector
        (some value) st).1 =
      { osModel :=
          { constructions := st.osModel.constructions
            surfaces := st.osModel.surfaces ++
              [⟨osFacePoints, some osSpace.name,
                some (osSpace.name ++ "_SURFACE_" ++ toString surfaceNumber),
                some "Outdoors", some "Wall",
                findConstruction st.osModel.constructions
                  "ASHRAE 189.1-2009 ExtWall SteelFrame ClimateZone 4-8",
                some "SunExposed", some "WindExposed"⟩]
            subSurfaces := st.osModel.subSurfaces }
        numOfApertures := st.numOfApertures
        numOfAppliedApertures := st.numOfAppliedApertures } := by
  rw [AddSurface_exterior_wall_bad_ratio k surfaceNumber buildingFace buildingSpace
    osFacePoints osSpace upVector value st hft hadj hug hr]
  exact ⟨rfl, rfl⟩

/-- Witness of `AddSurface_bad_ratio_state`: the south wall of the unit cube
with glazing ratio -1/10. -/
theorem AddSurface_bad_ratio_state_witness :
    (AddSurface boxKernel 1 southFace unitCube (GetFacePoints southFace)
      ⟨"STORY_1_SPACE_1"⟩ zAxis (some (-1 / 10)) emptyState).1.osModel.subSurfaces =
      emptyState.osModel.subSurfaces := by
  rw [(AddSurface_bad_ratio_state boxKernel 1 southFace unitCube (GetFacePoints southFace)
    ⟨"STORY_1_SPACE_1"⟩ zAxis (-1 / 10) emptyState southFace_type (by decide)
    southFace_not_underground (Or.inl (by norm_num))).2]

/-- C9 (counterexample): `AddSurface` on a face without triangulation fails
with the error of `CalculateFaceType`, and the model then holds a Surface that
was not there before the call. -/
theorem AddSurface_untriangulated_counterexample :
    boxKernel.Triangulate sliverFace = [] ∧
    (AddSurface boxKernel 1 sliverFace unitCube (GetFacePoints sliverFace)
      ⟨"STORY_1_SPACE_1"⟩ zAxis none emptyState).2 =
      .error "Failed to triangulate a face." ∧
    (emptyState : State ℚ).osModel.surfaces.length = 0 ∧
    (AddSurface boxKernel 1 sliverFace unitCube (GetFacePoints sliverFace)
      ⟨"STORY_1_SPACE_1"⟩ zAxis none emptyState).1.osModel.surfaces.length = 1 ∧
    (AddSurface boxKernel 1 sliverFace unitCube (GetFacePoints sliverFace)
      ⟨"STORY_1_SPACE_1"⟩ zAxis none emptyState).1.osModel.surfaces ≠
      emptyState.osModel.surfaces := by
  have h := AddSurface_of_triangulate_nil boxKernel 1 sliverFace unitCube
    (GetFacePoints sliverFace) ⟨"STORY_1_SPACE_1"⟩ zAxis none emptyState
    sliverFace_triangulate
  rw [h]
  refine ⟨sliverFace_triangulate, rfl, rfl, rfl, ?_⟩
  simp [emptyState]

/-- C9 (amended): for every face whose triangulation yields zero triangles,
`AddSurface` fails with the error raised by `CalculateFaceType`; no sub-surface
is created and the aperture counters are unchanged, and the model after the
failure is the model before the call with one more Surface, built from the
face's points and attached to the space, with no name, boundary condition,
type, construction or exposure set. -/
theorem AddSurface_untriangulated_state (k : Kernel K) (surfaceNumber : Nat)
    (buildingFace : Face K) (buildingSpace : Cell K) (osFacePoints : List (Point3d K))
    (osSpace : Space) (upVector : Vector K) (glazingRatio : Option K) (st : State K)
    (htri : k.Triangulate buildingFace = []) :
    (CalculateFaceType k buildingFace osFacePoints buildingSpace upVector).1 =
      .error "Failed to triangulate a face." ∧
    (AddSurface k surfaceNumber buildingFace buildingSpace osFacePoints osSpace upVector
        glazingRatio st).2 = .error "Failed to triangulate a face." ∧
    (AddSurface k surfaceNumber buildingFace buildingSpace osFacePoints osSpace upVector
        glazingRatio st).1 =
      { osModel :=
          { constructions := st.osModel.constructions
            surfaces := st.osModel.surfaces ++
              [⟨osFacePoints, some osSpace.name, none, none, none, none, none, none⟩]
            subSurfaces := st.osModel.subSurfaces }
        numOfApertures := st.numOfApertures
        numOfAppliedApertures := st.numOfAppliedApertures } := by
  rw [AddSurface_of_triangulate_nil k surfaceNumber buildingFace buildingSpace
    osFacePoints osSpace upVector glazingRatio st htri]
  refine ⟨?_, rfl, rfl⟩
  simp [CalculateFaceType, htri]

/-- Witness of `AddSurface_untriangulated_state`: a degenerate face of three
collinear vertices. -/
theorem AddSurface_untriangulated_state_witness :
    (AddSurface boxKernel 1 sliverFace unitCube (GetFacePoints sliverFace)
      ⟨"STORY_1_SPACE_1"⟩ zAxis (some (1 / 2)) emptyState).2 =
      .error "Failed to triangulate a face." :=
  (AddSurface_untriangulated_state boxKernel 1 sliverFace unitCube
    (GetFacePoints sliverFace) ⟨"STORY_1_SPACE_1"⟩ zAxis (some (1 / 2)) emptyState
    sliverFace_triangulate).2.1

end ResolverTheorems

section GlazingAlgebra

variable {K : Type} [LinearOrderedField K]

theorem GetCentreVertex_ok (a b c : Vertex K) (rest : List (Vertex K)) :
    ∃ centre, GetCentreVertex (a :: b :: c :: rest) = .ok centre := by
  unfold GetCentreVertex
  rw [if_neg (by simp only [List.length_cons]; omega)]
  exact ⟨_, rfl⟩

theorem GetCentreVertex_error (vertices : List (Vertex K)) (h : vertices.length < 3) :
    GetCentreVertex vertices = .error "Invalid face" := by
  unfold GetCentreVertex
  rw [if_pos h]

theorem ScaleVertices_eq (k : Kernel K) (vertices : List (Vertex K)) (scaleFactor : K)
    (centre : Vertex K) (hc : GetCentreVertex vertices = .ok centre) :
    ScaleVertices k vertices scaleFactor =
      .ok (vertices.map (scaleAbout centre (k.Sqrt scaleFactor))) := by
  unfold ScaleVertices
  simp only [hc]
  rfl

theorem triCross_scaleAbout (centre : Vertex K) (s : K) (a b c : Vertex K) :
    triCross (scaleAbout centre s a) (scaleAbout centre s b) (scaleAbout centre s c) =
      (triCross a b c).Scale (s * s) (s * s) (s * s) := by
  ext <;>
    simp only [triCross, scaleAbout, Vector.Cross, Vector.Scale, Vertex.AsVector,
      Vertex.Subtract, Vertex.Add, Vertex.Scale] <;> ring

theorem newell_triangle (a b c : Vertex K) :
    newell [a.toPoint3d, b.toPoint3d, c.toPoint3d] = triCross a b c := by
  ext <;>
    simp only [newell, newellFrom, triCross, Vector.Cross, Vector.Add, Vertex.AsVector,
      Vertex.Subtract, Vertex.toPoint3d, Point3d.toVector] <;> ring

theorem newell_triangle_reverse (a b c : Vertex K) :
    newell [c.toPoint3d, b.toPoint3d, a.toPoint3d] = (triCross a b c).Scale (-1) (-1) (-1) := by
  ext <;>
    simp only [newell, newellFrom, triCross, Vector.Cross, Vector.Add, Vector.Scale,
      Vertex.AsVector, Vertex.Subtract, Vertex.toPoint3d, Point3d.toVector] <;> ring

theorem newellFrom_fan (first : Vertex K) :
    ∀ (b : Vertex K) (rest : List (Vertex K)),
      newellFrom first.toPoint3d ((b :: rest).map Vertex.toPoint3d) =
        (fanCrossSum first (b :: rest)).Add (b.toPoint3d.toVector.Cross first.toPoint3d.toVector)
  | b, [] => by
    ext <;>
      simp only [List.map, newellFrom, fanCrossSum, Vector.Add, Vector.Cross,
        Point3d.toVector, Vertex.toPoint3d] <;> ring
  | b, c :: rest => by
    have ih := newellFrom_fan first c rest
    simp only [List.map] at ih ⊢
    simp only [newellFrom, fanCrossSum, ih]
    ext <;>
      simp only [triCross, Vector.Add, Vector.Cross, Point3d.toVector, Vertex.toPoint3d,
        Vertex.AsVector, Vertex.Subtract] <;> ring

theorem newell_fan (first : Vertex K) (rest : List (Vertex K)) :
    newell ((first :: rest).map Vertex.toPoint3d) = fanCrossSum first rest := by
  cases rest with
  | nil =>
    ext <;>
      simp only [List.map, newell, newellFrom, fanCrossSum, Vector.Cross, Point3d.toVector,
        Vertex.toPoint3d] <;> ring
  | cons b rest =>
    have h := newellFrom_fan first b rest
    simp only [List.map] at h ⊢
    simp only [newell, newellFrom, h]
    ext <;>
      simp only [Vector.Add, Vector.Cross, Point3d.toVector, Vertex.toPoint3d] <;> ring

theorem newellFrom_pathCross (first : Point3d K) :
    ∀ (p : Point3d K) (rest : List (Point3d K)),
      newellFrom first (p :: rest) =
        (pathCross (p :: rest)).Add ((rest.getLastD p).toVector.Cross first.toVector)
  | p, [] => by
    ext <;> simp only [newellFrom, pathCross, Vector.Add, List.getLastD] <;> ring
  | p, q :: rest => by
    have ih := newellFrom_pathCross first q rest
    simp only [newellFrom, pathCross, ih, List.getLastD_cons]
    ext <;> simp only [Vector.Add] <;> ring

theorem newell_pathCross (points : List (Point3d K)) :
    newell points =
      (pathCross points).Add
        (((points.getLast?).getD ⟨0, 0, 0⟩).toVector.Cross
          ((points.head?).getD ⟨0, 0, 0⟩).toVector) := by
  cases points with
  | nil =>
    ext <;>
      simp only [newell, pathCross, Vector.Add, Vector.Cross, Point3d.toVector,
        List.getLast?_nil, List.head?_nil, Option.getD_none] <;> ring
  | cons p rest =>
    simp only [newell, newellFrom_pathCross, List.head?_cons, Option.getD_some,
      List.getLast?_cons, List.getLastD_eq_getLast?]

theorem pathCross_append_singleton (x : Point3d K) :
    ∀ (p : Point3d K) (rest : List (Point3d K)),
      pathCross ((p :: rest) ++ [x]) =
        (pathCross (p :: rest)).Add ((rest.getLastD p).toVector.Cross x.toVector)
  | p, [] => by
    ext <;>
      simp only [List.cons_append, List.nil_append, pathCross, Vector.Add, List.getLastD] <;>
      ring
  | p, q :: rest => by
    have ih := pathCross_append_singleton x q rest
    simp only [List.cons_append] at ih ⊢
    simp only [pathCross, ih, List.getLastD_cons]
    ext <;> simp only [Vector.Add] <;> ring

theorem pathCross_reverse :
    ∀ (points : List (Point3d K)),
      pathCross points.reverse = (pathCross points).Scale (-1) (-1) (-1)
  | [] => by
    ext <;> simp only [List.reverse_nil, pathCross, Vector.Scale] <;> ring
  | [p] => by
    ext <;> simp only [List.reverse_singleton, pathCross, Vector.Scale] <;> ring
  | p :: q :: rest => by
    have ih := pathCross_reverse (q :: rest)
    have hne : (q :: rest).reverse ≠ [] := by simp
    obtain ⟨m, tl, hm⟩ := List.exists_cons_of_ne_nil hne
    have hlast : tl.getLastD m = q := by
      have h1 : (m :: tl).getLast? = some q := by
        rw [← hm, List.getLast?_reverse]; rfl
      rw [List.getLast?_cons, ← List.getLastD_eq_getLast?] at h1
      exact Option.some.inj h1
    rw [List.reverse_cons, hm, pathCross_append_singleton, hlast, ← hm, ih]
    ext <;>
      simp only [pathCross, Vector.Add, Vector.Scale, Vector.Cross, Point3d.toVector] <;> ring

theorem newell_reverse (points : List (Point3d K)) :
    newell points.reverse = (newell points).Scale (-1) (-1) (-1) := by
  rw [newell_pathCross points.reverse, newell_pathCross points, pathCross_reverse,
    List.getLast?_reverse, List.head?_reverse]
  ext <;> simp only [Vector.Add, Vector.Scale, Vector.Cross, Point3d.toVector] <;> ring

end GlazingAlgebra

section GlazingArea

theorem norm_scale_nonneg (v : Vector ℝ) (t : ℝ) (ht : 0 ≤ t) :
    (v.Scale t t t).norm Real.sqrt = t * v.norm Real.sqrt := by
  have h : (v.Scale t t t).dot (v.Scale t t t) = (t * t) * v.dot v := by
    simp only [Vector.dot, Vector.Scale]; ring
  simp only [Vector.norm]
  rw [h, Real.sqrt_mul (mul_self_nonneg t), Real.sqrt_mul_self ht]

theorem norm_scale_neg_one (v : Vector ℝ) :
    (v.Scale (-1) (-1) (-1)).norm Real.sqrt = v.norm Real.sqrt := by
  have h : (v.Scale (-1) (-1) (-1)).dot (v.Scale (-1) (-1) (-1)) = v.dot v := by
    simp only [Vector.dot, Vector.Scale]; ring
  simp only [Vector.norm]
  rw [h]

theorem norm_nonneg (v : Vector ℝ) : 0 ≤ v.norm Real.sqrt := Real.sqrt_nonneg _

theorem scaled_triangle_area (centre : Vertex ℝ) (u : ℝ) (a b c : Vertex ℝ) :
    polygonArea Real.sqrt
        (([a, b, c].map (scaleAbout centre u)).map Vertex.toPoint3d) =
      (u * u) * ((triCross a b c).norm Real.sqrt / 2) ∧
    polygonArea Real.sqrt
        (([a, b, c].map (scaleAbout centre u)).map Vertex.toPoint3d).reverse =
      (u * u) * ((triCross a b c).norm Real.sqrt / 2) := by
  have h1 : polygonArea Real.sqrt
      (([a, b, c].map (scaleAbout centre u)).map Vertex.toPoint3d) =
      (u * u) * ((triCross a b c).norm Real.sqrt / 2) := by
    simp only [polygonArea, List.map, newell_triangle, triCross_scaleAbout]
    rw [norm_scale_nonneg _ _ (mul_self_nonneg u)]
    ring
  refine ⟨h1, ?_⟩
  rw [← h1]
  simp only [polygonArea, newell_reverse, norm_scale_neg_one]

theorem synthesizeWindow_ok (k : Kernel ℝ) (osSurface : Surface ℝ) (surfaceIndex : Nat)
    (first b c : Vertex ℝ) (s s1 : SubState ℝ)
    (h : synthesizeWindow k osSurface surfaceIndex first b c s = (s1, .ok ())) :
    ∃ sub, s1.subs = s.subs ++ [sub] ∧
      polygonArea Real.sqrt sub.vertices =
        (k.Sqrt 0.999 * k.Sqrt 0.999) * ((triCross first b c).norm Real.sqrt / 2) := by
  obtain ⟨centre, hc⟩ := GetCentreVertex_ok first b c []
  obtain ⟨ha, hr⟩ := scaled_triangle_area centre (k.Sqrt 0.999) first b c
  simp only [synthesizeWindow, ScaleVertices_eq k _ _ centre hc] at h
  split_ifs at h with h1 h2
  · simp only [Prod.mk.injEq, and_true] at h
    subst h
    exact ⟨_, rfl, hr⟩
  · simp only [Prod.mk.injEq, reduceCtorEq, and_false] at h
  · simp only [Prod.mk.injEq, and_true] at h
    subst h
    exact ⟨_, rfl, ha⟩

theorem synthesizeWindows_ok (k : Kernel ℝ) (osSurface : Surface ℝ) (surfaceIndex : Nat)
    (first : Vertex ℝ) (rest : List (Vertex ℝ)) :
    ∀ (s s1 : SubState ℝ),
      synthesizeWindows k osSurface surfaceIndex first rest s = (s1, .ok ()) →
      ∃ created, s1.subs = s.subs ++ created ∧
        totalArea Real.sqrt created =
          (k.Sqrt 0.999 * k.Sqrt 0.999) * fanAreaSum Real.sqrt first rest := by
  induction rest with
  | nil =>
    intro s s1 h
    simp only [synthesizeWindows, Prod.mk.injEq, and_true] at h
    subst h
    exact ⟨[], by simp, by simp [totalArea, fanAreaSum]⟩
  | cons b tl ih =>
    intro s s1 h
    cases tl with
    | nil =>
      simp only [synthesizeWindows, Prod.mk.injEq, and_true] at h
      subst h
      exact ⟨[], by simp, by simp [totalArea, fanAreaSum]⟩
    | cons c rest =>
      rw [synthesizeWindows] at h
      rcases hstep : synthesizeWindow k osSurface surfaceIndex first b c s with ⟨s2, e | u⟩
      · rw [hstep] at h
        simp only [Prod.mk.injEq, reduceCtorEq, and_false] at h
      · rw [hstep] at h
        simp only at h
        obtain ⟨sub, hsub, harea⟩ := synthesizeWindow_ok k osSurface surfaceIndex first b c
          s s2 hstep
        obtain ⟨created, hcr, htot⟩ := ih s2 s1 h
        refine ⟨sub :: created, ?_, ?_⟩
        · rw [hcr, hsub]; simp
        · simp only [totalArea, List.map_cons, List.sum_cons, fanAreaSum] at htot ⊢
          rw [htot, harea]
          ring

theorem fanAreaSum_scaleAbout (centre : Vertex ℝ) (u : ℝ) (first : Vertex ℝ)
    (rest : List (Vertex ℝ)) :
    fanAreaSum Real.sqrt (scaleAbout centre u first) (rest.map (scaleAbout centre u)) =
      (u * u) * fanAreaSum Real.sqrt first rest := by
  induction rest with
  | nil => simp [fanAreaSum]
  | cons b tl ih =>
    cases tl with
    | nil => simp [fanAreaSum]
    | cons c rest =>
      simp only [List.map_cons, fanAreaSum] at ih ⊢
      rw [ih, triCross_scaleAbout, norm_scale_nonneg _ _ (mul_self_nonneg u)]
      ring

theorem PlanarConvex_tail (n : Vector ℝ) (first b : Vertex ℝ) (rest : List (Vertex ℝ))
    (h : PlanarConvex n (first :: b :: rest)) : PlanarConvex n (first :: rest) := by
  intro x y z hsub
  refine h x y z (hsub.trans ?_)
  exact List.Sublist.cons₂ first (List.sublist_cons_self b rest)

theorem fan_of_PlanarConvex (n : Vector ℝ) (first : Vertex ℝ) (rest : List (Vertex ℝ)) :
    PlanarConvex n (first :: rest) →
      ∃ t, 0 ≤ t ∧ fanCrossSum first rest = n.Scale t t t ∧
        fanAreaSum Real.sqrt first rest = t * n.norm Real.sqrt / 2 := by
  induction rest with
  | nil =>
    intro _
    exact ⟨0, le_refl _, by ext <;> simp [fanCrossSum, Vector.Scale], by simp [fanAreaSum]⟩
  | cons b tl ih =>
    intro h
    cases tl with
    | nil =>
      exact ⟨0, le_refl _, by ext <;> simp [fanCrossSum, Vector.Scale], by simp [fanAreaSum]⟩
    | cons c rest =>
      obtain ⟨t1, ht1, hcross⟩ := h first b c
        (List.Sublist.cons₂ first (List.Sublist.cons₂ b (List.Sublist.cons₂ c
          (List.nil_sublist rest))))
      obtain ⟨t2, ht2, hsum, harea⟩ := ih (PlanarConvex_tail n first b (c :: rest) h)
      refine ⟨t1 + t2, add_nonneg ht1 ht2, ?_, ?_⟩
      · simp only [fanCrossSum, hcross, hsum]
        ext <;> simp only [Vector.Add, Vector.Scale] <;> ring
      · simp only [fanAreaSum, hcross, harea]
        rw [norm_scale_nonneg _ _ ht1]
        ring

theorem fanAreaSum_of_PlanarConvex (n : Vector ℝ) (first : Vertex ℝ) (rest : List (Vertex ℝ))
    (h : PlanarConvex n (first :: rest)) :
    fanAreaSum Real.sqrt first rest =
      polygonArea Real.sqrt ((first :: rest).map Vertex.toPoint3d) := by
  obtain ⟨t, ht, hsum, harea⟩ := fan_of_PlanarConvex n first rest h
  rw [polygonArea, newell_fan, hsum, norm_scale_nonneg _ _ ht, harea]

theorem triCross_swap (a b c : Vertex ℝ) :
    triCross c b a = (triCross a b c).Scale (-1) (-1) (-1) := by
  ext <;>
    simp only [triCross, Vector.Cross, Vector.Scale, Vertex.AsVector, Vertex.Subtract] <;> ring

theorem PlanarConvex_reverse (n : Vector ℝ) (loop : List (Vertex ℝ))
    (h : PlanarConvex n loop) : PlanarConvex (n.Scale (-1) (-1) (-1)) loop.reverse := by
  intro a b c hsub
  have hrev : List.Sublist [c, b, a] loop := by
    have := List.reverse_sublist.mpr hsub
    simpa using this
  obtain ⟨t, ht, hcross⟩ := h c b a hrev
  refine ⟨t, ht, ?_⟩
  have hswap := triCross_swap c b a
  rw [hswap, hcross]
  ext <;> simp only [Vector.Scale] <;> ring

theorem polygonArea_reverse (points : List (Point3d ℝ)) :
    polygonArea Real.sqrt points.reverse = polygonArea Real.sqrt points := by
  simp only [polygonArea, newell_reverse, norm_scale_neg_one]

theorem addWallApertures_ratio_area (k : Kernel ℝ) (buildingFace : Face ℝ)
    (osSurface : Surface ℝ) (surfaceIndex : Nat) (value : ℝ) (n : Vector ℝ)
    (s s1 : SubState ℝ)
    (hconvex : PlanarConvex n buildingFace.ExternalBoundary)
    (h0 : 0 < value) (h1 : value ≤ 1)
    (h : addWallApertures k buildingFace osSurface surfaceIndex (some value) s = (s1, .ok ())) :
    ∃ created, s1.subs = s.subs ++ created ∧
      totalArea Real.sqrt created =
        (k.Sqrt 0.999 * k.Sqrt 0.999) *
          ((k.Sqrt value * k.Sqrt value) *
            polygonArea Real.sqrt (GetFacePoints buildingFace)) := by
  have hnot : ¬ (value < 0.0 ∨ value > 1.0) := by
    norm_num
    exact ⟨le_of_lt h0, h1⟩
  have hin : value > 0.0 ∧ value ≤ 1.0 := by
    norm_num
    exact ⟨h0, h1⟩
  simp only [addWallApertures, if_neg hnot, if_pos hin, ScaleFaceVertices] at h
  have hrevconvex := PlanarConvex_reverse n _ hconvex
  have hareaRev : polygonArea Real.sqrt
      (buildingFace.ExternalBoundary.reverse.map Vertex.toPoint3d) =
      polygonArea Real.sqrt (GetFacePoints buildingFace) := by
    rw [GetFacePoints, List.map_reverse, polygonArea_reverse]
  rcases hloop : buildingFace.ExternalBoundary.reverse with _ | ⟨a, _ | ⟨b, _ | ⟨c, tl⟩⟩⟩
  · rw [hloop] at h
    simp [ScaleVertices, GetCentreVertex] at h
  · rw [hloop] at h
    simp [ScaleVertices, GetCentreVertex] at h
  · rw [hloop] at h
    simp [ScaleVertices, GetCentreVertex] at h
  · rw [hloop] at h hrevconvex hareaRev
    obtain ⟨centre, hc⟩ := GetCentreVertex_ok a b c tl
    rw [ScaleVertices_eq k _ _ centre hc] at h
    simp only [List.map_cons] at h
    obtain ⟨created, hcr, htot⟩ := synthesizeWindows_ok k osSurface surfaceIndex
      (scaleAbout centre (k.Sqrt value) a)
      (scaleAbout centre (k.Sqrt value) b :: scaleAbout centre (k.Sqrt value) c ::
        tl.map (scaleAbout centre (k.Sqrt value))) s s1 h
    refine ⟨created, hcr, ?_⟩
    have hfan := fanAreaSum_scaleAbout centre (k.Sqrt value) a (b :: c :: tl)
    simp only [List.map_cons] at hfan
    rw [htot, hfan, fanAreaSum_of_PlanarConvex _ a (b :: c :: tl) hrevconvex, hareaRev]

theorem AddSurface_exterior_wall {F : Type} [LinearOrderedField F] (k : Kernel F)
    (surfaceNumber : Nat) (buildingFace : Face F) (buildingSpace : Cell F)
    (osFacePoints : List (Point3d F)) (osSpace : Space) (upVector : Vector F)
    (glazingRatio : Option F) (st : State F)
    (hft : (CalculateFaceType k buildingFace osFacePoints buildingSpace upVector).1 =
      .ok FACE_WALL)
    (hadj : AdjacentCellCount buildingFace < 2) (hug : IsUnderground buildingFace = false)
    (osSurface : Surface F)
    (hsurf : osSurface = ⟨osFacePoints, some osSpace.name,
      some (osSpace.name ++ "_SURFACE_" ++ toString surfaceNumber),
      some "Outdoors", some "Wall",
      findConstruction st.osModel.constructions
        "ASHRAE 189.1-2009 ExtWall SteelFrame ClimateZone 4-8",
      some "SunExposed", some "WindExposed"⟩)
    (s1 : SubState F) (res : Except String Unit)
    (hap : addWallApertures k buildingFace osSurface st.osModel.surfaces.length glazingRatio
      ⟨[], 1, st.numOfApertures, st.numOfAppliedApertures⟩ = (s1, res)) :
    AddSurface k surfaceNumber buildingFace buildingSpace osFacePoints osSpace upVector
        glazingRatio st =
      (st.commit osSurface s1, res.map fun _ => osSurface) := by
  have hadj2 : ¬ AdjacentCellCount buildingFace > 1 := by omega
  subst hsurf
  unfold AddSurface
  simp only [hft, hadj, hadj2, hug, false_and, and_false, true_and, and_true, if_false,
    if_true, not_true_eq_false, not_false_eq_true, Bool.false_eq_true, reduceCtorEq]
  simp only [setBranch, Surface.new] at hap ⊢
  rw [hap]
  cases res <;> rfl

theorem AddSurface_glazing_area_of_ok (k : Kernel ℝ) (surfaceNumber : Nat)
    (buildingFace : Face ℝ) (buildingSpace : Cell ℝ) (osFacePoints : List (Point3d ℝ))
    (osSpace : Space) (upVector : Vector ℝ) (value : ℝ) (st : State ℝ) (n : Vector ℝ)
    (osSurface : Surface ℝ)
    (hft : (CalculateFaceType k buildingFace osFacePoints buildingSpace upVector).1 =
      .ok FACE_WALL)
    (hadj : AdjacentCellCount buildingFace < 2) (hug : IsUnderground buildingFace = false)
    (hconvex : PlanarConvex n buildingFace.ExternalBoundary)
    (h0 : 0 < value) (h1 : value ≤ 1)
    (hsr : k.Sqrt value * k.Sqrt value = value)
    (hs9 : k.Sqrt 0.999 * k.Sqrt 0.999 = 0.999)
    (hok : (AddSurface k surfaceNumber buildingFace buildingSpace osFacePoints osSpace upVector
      (some value) st).2 = .ok osSurface) :
    ∃ created,
      (AddSurface k surfaceNumber buildingFace buildingSpace osFacePoints osSpace upVector
        (some value) st).1.osModel.subSurfaces = st.osModel.subSurfaces ++ created ∧
      totalArea Real.sqrt created =
        0.999 * (value * polygonArea Real.sqrt (GetFacePoints buildingFace)) := by
  rcases hap : addWallApertures k buildingFace
      ⟨osFacePoints, some osSpace.name,
        some (osSpace.name ++ "_SURFACE_" ++ toString surfaceNumber),
        some "Outdoors", some "Wall",
        findConstruction st.osModel.constructions
          "ASHRAE 189.1-2009 ExtWall SteelFrame ClimateZone 4-8",
        some "SunExposed", some "WindExposed"⟩ st.osModel.surfaces.length (some value)
      ⟨[], 1, st.numOfApertures, st.numOfAppliedApertures⟩ with ⟨s1, res⟩
  have hadd := AddSurface_exterior_wall k surfaceNumber buildingFace buildingSpace
    osFacePoints osSpace upVector (some value) st hft hadj hug _ rfl s1 res hap
  rw [hadd] at hok ⊢
  cases res with
  | error e => simp [Except.map] at hok
  | ok u =>
    obtain ⟨created, hcr, htot⟩ := addWallApertures_ratio_area k buildingFace _ _ value n _ s1
      hconvex h0 h1 hap
    refine ⟨created, ?_, ?_⟩
    · simp only [State.commit, hcr, List.nil_append]
    · rw [htot, hsr, hs9]

theorem sublist_three_of_four {α : Type} (a b c p0 p1 p2 p3 : α)
    (h : List.Sublist [a, b, c] [p0, p1, p2, p3]) :
    (a = p0 ∧ b = p1 ∧ c = p2) ∨ (a = p0 ∧ b = p1 ∧ c = p3) ∨
    (a = p0 ∧ b = p2 ∧ c = p3) ∨ (a = p1 ∧ b = p2 ∧ c = p3) := by
  cases h with
  | cons _ h1 =>
    have he := h1.eq_of_length rfl
    simp only [List.cons.injEq, and_true] at he
    exact Or.inr (Or.inr (Or.inr he))
  | cons₂ _ h1 =>
    cases h1 with
    | cons _ h2 =>
      have he := h2.eq_of_length rfl
      simp only [List.cons.injEq, and_true] at he
      exact Or.inr (Or.inr (Or.inl ⟨rfl, he⟩))
    | cons₂ _ h2 =>
      cases h2 with
      | cons _ h3 =>
        have he := h3.eq_of_length rfl
        simp only [List.cons.injEq, and_true] at he
        exact Or.inr (Or.inl ⟨rfl, rfl, he⟩)
      | cons₂ _ h3 => exact Or.inl ⟨rfl, rfl, rfl⟩

theorem southFace_PlanarConvex :
    PlanarConvex (⟨0, -1, 0⟩ : Vector ℝ) (southFace : Face ℝ).ExternalBoundary := by
  intro a b c hsub
  simp only [southFace, cubeFace] at hsub
  rcases sublist_three_of_four a b c _ _ _ _ hsub with
    ⟨ha, hb, hc⟩ | ⟨ha, hb, hc⟩ | ⟨ha, hb, hc⟩ | ⟨ha, hb, hc⟩ <;>
  · subst ha; subst hb; subst hc
    refine ⟨1, zero_le_one, ?_⟩
    ext <;>
      simp [triCross, Vector.Cross, Vector.Scale, Vertex.AsVector, Vertex.Subtract]

theorem southFace_type_euclid (acosDeg : ℝ → ℝ) (hacos : acosDeg 0 = 90)
    (points : List (Point3d ℝ)) :
    (CalculateFaceType (euclidKernel Real.sqrt acosDeg) southFace points unitCube zAxis).1
      = .ok FACE_WALL := by
  simp only [CalculateFaceType, euclidKernel, triangulateFan_southFace]
  simp [southFace, cubeFace, faceNormalOf, normalizeEuclid, Vector.norm, Vector.Cross,
    Vector.Scale, Vector.dot, Vertex.AsVector, Vertex.Subtract, zAxis, hacos]
  norm_num

theorem arccos_degrees_zero : Real.arccos 0 * 180 / Real.pi = 90 := by
  rw [Real.arccos_zero]
  field_simp
  ring

theorem normalizeEuclid_scale (m : Vector ℝ) (hm : m.dot m = 1) (c : ℝ) (hc : 0 < c) :
    normalizeEuclid Real.sqrt (m.Scale c c c) = m ∧
    normalizeEuclid Real.sqrt (m.Scale (-c) (-c) (-c)) = m.Scale (-1) (-1) (-1) := by
  have hnm : m.norm Real.sqrt = 1 := by simp [Vector.norm, hm]
  have hn1 : (m.Scale c c c).norm Real.sqrt = c := by
    rw [norm_scale_nonneg _ _ (le_of_lt hc), hnm, mul_one]
  have hsplit : m.Scale (-c) (-c) (-c) = (m.Scale (-1) (-1) (-1)).Scale c c c := by
    ext <;> simp only [Vector.Scale] <;> ring
  have hn2 : (m.Scale (-c) (-c) (-c)).norm Real.sqrt = c := by
    rw [hsplit, norm_scale_nonneg _ _ (le_of_lt hc), norm_scale_neg_one, hnm, mul_one]
  have hc0 : c ≠ 0 := ne_of_gt hc
  refine ⟨?_, ?_⟩
  · simp only [normalizeEuclid, hn1, if_neg hc0]
    ext <;> simp only [Vector.Scale] <;> field_simp
  · simp only [normalizeEuclid, hn2, if_neg hc0]
    ext <;> simp only [Vector.Scale] <;> field_simp

theorem synthesizeWindow_euclid_ok (acosDeg : ℝ → ℝ) (osSurface : Surface ℝ)
    (surfaceIndex : Nat) (first b c : Vertex ℝ) (s : SubState ℝ) (m : Vector ℝ)
    (hm : m.dot m = 1) (t T : ℝ) (ht : 0 < t) (hT : 0 < T)
    (hcross : triCross first b c = m.Scale t t t)
    (hsurf : newell osSurface.vertices = m.Scale (-T) (-T) (-T)) :
    ∃ s1, synthesizeWindow (euclidKernel Real.sqrt acosDeg) osSurface surfaceIndex first b c s
      = (s1, .ok ()) := by
  obtain ⟨centre, hcen⟩ := GetCentreVertex_ok first b c []
  have hu : Real.sqrt 0.999 * Real.sqrt 0.999 = 0.999 := Real.mul_self_sqrt (by norm_num)
  have hnew : newell (([first, b, c].map (scaleAbout centre (Real.sqrt 0.999))).map
      Vertex.toPoint3d) = m.Scale (0.999 * t) (0.999 * t) (0.999 * t) := by
    simp only [List.map, newell_triangle, triCross_scaleAbout, hcross, hu]
    ext <;> simp only [Vector.Scale] <;> ring
  have hdot : (m.dot (m.Scale (-1) (-1) (-1))) = -1 := by
    have : m.dot (m.Scale (-1) (-1) (-1)) = -(m.dot m) := by
      simp only [Vector.dot, Vector.Scale]; ring
    rw [this, hm]
  have hk : (euclidKernel Real.sqrt acosDeg).Sqrt = Real.sqrt := rfl
  have ho : ∀ pts, (euclidKernel Real.sqrt acosDeg).outwardNormal pts =
      normalizeEuclid Real.sqrt (newell pts) := fun _ => rfl
  simp only [synthesizeWindow, ScaleVertices_eq _ _ _ centre hcen, hk, ho, hnew, hsurf,
    (normalizeEuclid_scale m hm (0.999 * t) (by positivity)).1,
    (normalizeEuclid_scale m hm T hT).2, hdot]
  rw [if_pos (by norm_num)]
  exact ⟨_, rfl⟩

theorem southFace_newell :
    newell (GetFacePoints (southFace : Face ℝ)) =
      (⟨0, 1, 0⟩ : Vector ℝ).Scale (-2) (-2) (-2) := by
  ext <;>
    norm_num [GetFacePoints, southFace, cubeFace, newell, newellFrom, Vector.Add,
      Vector.Cross, Vector.Scale, Point3d.toVector, Vertex.toPoint3d]

theorem southFace_area : polygonArea Real.sqrt (GetFacePoints (southFace : Face ℝ)) = 1 := by
  have hm : ((⟨0, 1, 0⟩ : Vector ℝ)).norm Real.sqrt = 1 := by
    simp [Vector.norm, Vector.dot]
  have hsplit : (⟨0, 1, 0⟩ : Vector ℝ).Scale (-2) (-2) (-2) =
      ((⟨0, 1, 0⟩ : Vector ℝ).Scale (-1) (-1) (-1)).Scale 2 2 2 := by
    ext <;> simp only [Vector.Scale] <;> ring
  rw [polygonArea, southFace_newell, hsplit, norm_scale_nonneg _ _ (by norm_num),
    norm_scale_neg_one, hm]
  norm_num

theorem southFace_glazing_ok (acosDeg : ℝ → ℝ) (hacos : acosDeg 0 = 90) :
    ∃ osSurface, (AddSurface (euclidKernel Real.sqrt acosDeg) 1 southFace unitCube
      (GetFacePoints southFace) ⟨"STORY_1_SPACE_1"⟩ zAxis (some 1) emptyState).2 =
        .ok osSurface := by
  have hm : (⟨0, 1, 0⟩ : Vector ℝ).dot ⟨0, 1, 0⟩ = 1 := by simp [Vector.dot]
  obtain ⟨centre, hcen⟩ := GetCentreVertex_ok (⟨0, 0, 1⟩ : Vertex ℝ) ⟨1, 0, 1⟩ ⟨1, 0, 0⟩
    [⟨0, 0, 0⟩]
  have hscaled : ScaleFaceVertices (euclidKernel Real.sqrt acosDeg) (southFace : Face ℝ) 1 =
      .ok [scaleAbout centre (Real.sqrt 1) ⟨0, 0, 1⟩, scaleAbout centre (Real.sqrt 1) ⟨1, 0, 1⟩,
        scaleAbout centre (Real.sqrt 1) ⟨1, 0, 0⟩, scaleAbout centre (Real.sqrt 1) ⟨0, 0, 0⟩] := by
    have hrev : (southFace : Face ℝ).ExternalBoundary.reverse =
        [⟨0, 0, 1⟩, ⟨1, 0, 1⟩, ⟨1, 0, 0⟩, ⟨0, 0, 0⟩] := by
      simp [southFace, cubeFace]
    rw [ScaleFaceVertices, hrev, ScaleVertices_eq _ _ _ centre hcen]
    rfl
  have hcross1 : triCross (scaleAbout centre (Real.sqrt 1) ⟨0, 0, 1⟩)
      (scaleAbout centre (Real.sqrt 1) ⟨1, 0, 1⟩) (scaleAbout centre (Real.sqrt 1) ⟨1, 0, 0⟩) =
      (⟨0, 1, 0⟩ : Vector ℝ).Scale 1 1 1 := by
    rw [triCross_scaleAbout, Real.sqrt_one]
    ext <;>
      simp [triCross, Vector.Cross, Vector.Scale, Vertex.AsVector, Vertex.Subtract]
  have hcross2 : triCross (scaleAbout centre (Real.sqrt 1) ⟨0, 0, 1⟩)
      (scaleAbout centre (Real.sqrt 1) ⟨1, 0, 0⟩) (scaleAbout centre (Real.sqrt 1) ⟨0, 0, 0⟩) =
      (⟨0, 1, 0⟩ : Vector ℝ).Scale 1 1 1 := by
    rw [triCross_scaleAbout, Real.sqrt_one]
    ext <;>
      simp [triCross, Vector.Cross, Vector.Scale, Vertex.AsVector, Vertex.Subtract]
  have hft := southFace_type_euclid acosDeg hacos (GetFacePoints southFace)
  obtain ⟨s1, hstep1⟩ := synthesizeWindow_euclid_ok acosDeg
    (⟨GetFacePoints southFace, some "STORY_1_SPACE_1",
      some ("STORY_1_SPACE_1" ++ "_SURFACE_" ++ toString 1), some "Outdoors", some "Wall",
      findConstruction (emptyState : State ℝ).osModel.constructions
        "ASHRAE 189.1-2009 ExtWall SteelFrame ClimateZone 4-8",
      some "SunExposed", some "WindExposed"⟩ : Surface ℝ)
    (emptyState : State ℝ).osModel.surfaces.length _ _ _
    ⟨[], 1, (emptyState : State ℝ).numOfApertures, (emptyState : State ℝ).numOfAppliedApertures⟩
    ⟨0, 1, 0⟩ hm 1 2 one_pos two_pos hcross1 southFace_newell
  obtain ⟨s2, hstep2⟩ := synthesizeWindow_euclid_ok acosDeg
    (⟨GetFacePoints southFace, some "STORY_1_SPACE_1",
      some ("STORY_1_SPACE_1" ++ "_SURFACE_" ++ toString 1), some "Outdoors", some "Wall",
      findConstruction (emptyState : State ℝ).osModel.constructions
        "ASHRAE 189.1-2009 ExtWall SteelFrame ClimateZone 4-8",
      some "SunExposed", some "WindExposed"⟩ : Surface ℝ)
    (emptyState : State ℝ).osModel.surfaces.length _ _ _ s1
    ⟨0, 1, 0⟩ hm 1 2 one_pos two_pos hcross2 southFace_newell
  have hap : addWallApertures (euclidKernel Real.sqrt acosDeg) (southFace : Face ℝ)
      (⟨GetFacePoints southFace, some "STORY_1_SPACE_1",
        some ("STORY_1_SPACE_1" ++ "_SURFACE_" ++ toString 1), some "Outdoors", some "Wall",
        findConstruction (emptyState : State ℝ).osModel.constructions
          "ASHRAE 189.1-2009 ExtWall SteelFrame ClimateZone 4-8",
        some "SunExposed", some "WindExposed"⟩ : Surface ℝ)
      (emptyState : State ℝ).osModel.surfaces.length (some 1)
      ⟨[], 1, (emptyState : State ℝ).numOfApertures,
        (emptyState : State ℝ).numOfAppliedApertures⟩ = (s2, .ok ()) := by
    have hnot : ¬ ((1 : ℝ) < 0.0 ∨ (1 : ℝ) > 1.0) := by norm_num
    have hin : (1 : ℝ) > 0.0 ∧ (1 : ℝ) ≤ 1.0 := by norm_num
    simp only [addWallApertures, if_neg hnot, if_pos hin, hscaled, synthesizeWindows, hstep1,
      hstep2]
  have hadd := AddSurface_exterior_wall (euclidKernel Real.sqrt acosDeg) 1 southFace unitCube
    (GetFacePoints southFace) ⟨"STORY_1_SPACE_1"⟩ zAxis (some 1) emptyState hft
    (by decide) (by norm_num [IsUnderground, IsUndergroundLoop, southFace, cubeFace])
    _ rfl s2 (.ok ()) hap
  rw [hadd]
  exact ⟨_, rfl⟩

/-- C10 (counterexample): the south wall of the unit cube is a planar convex
exterior above-grade wall of area 1; with glazing ratio 1 and the Euclidean
kernel `AddSurface` succeeds, and the areas of the synthesized sub-surfaces sum
to 0.999, not to 1. -/
theorem AddSurface_glazing_area_counterexample :
    (∃ osSurface, (AddSurface
      (euclidKernel Real.sqrt (fun x => Real.arccos x * 180 / Real.pi)) 1 southFace unitCube
      (GetFacePoints southFace) ⟨"STORY_1_SPACE_1"⟩ zAxis (some 1) emptyState).2 =
        .ok osSurface) ∧
    PlanarConvex (⟨0, -1, 0⟩ : Vector ℝ) (southFace : Face ℝ).ExternalBoundary ∧
    polygonArea Real.sqrt (GetFacePoints (southFace : Face ℝ)) = 1 ∧
    totalArea Real.sqrt (AddSurface
      (euclidKernel Real.sqrt (fun x => Real.arccos x * 180 / Real.pi)) 1 southFace unitCube
      (GetFacePoints southFace) ⟨"STORY_1_SPACE_1"⟩ zAxis (some 1)
      emptyState).1.osModel.subSurfaces = 0.999 ∧
    totalArea Real.sqrt (AddSurface
      (euclidKernel Real.sqrt (fun x => Real.arccos x * 180 / Real.pi)) 1 southFace unitCube
      (GetFacePoints southFace) ⟨"STORY_1_SPACE_1"⟩ zAxis (some 1)
      emptyState).1.osModel.subSurfaces ≠
        1 * polygonArea Real.sqrt (GetFacePoints (southFace : Face ℝ)) := by
  obtain ⟨osSurface, hok⟩ := southFace_glazing_ok
    (fun x => Real.arccos x * 180 / Real.pi) arccos_degrees_zero
  obtain ⟨created, hcr, htot⟩ := AddSurface_glazing_area_of_ok
    (euclidKernel Real.sqrt (fun x => Real.arccos x * 180 / Real.pi)) 1 southFace unitCube
    (GetFacePoints southFace) ⟨"STORY_1_SPACE_1"⟩ zAxis 1 emptyState ⟨0, -1, 0⟩ osSurface
    (southFace_type_euclid _ arccos_degrees_zero _) (by decide)
    (by norm_num [IsUnderground, IsUndergroundLoop, southFace, cubeFace])
    southFace_PlanarConvex one_pos (le_refl _)
    (Real.mul_self_sqrt zero_le_one) (Real.mul_self_sqrt (by norm_num)) hok
  have hsum : totalArea Real.sqrt (AddSurface
      (euclidKernel Real.sqrt (fun x => Real.arccos x * 180 / Real.pi)) 1 southFace unitCube
      (GetFacePoints southFace) ⟨"STORY_1_SPACE_1"⟩ zAxis (some 1)
      emptyState).1.osModel.subSurfaces = 0.999 := by
    rw [hcr]
    simp only [emptyState, List.nil_append]
    rw [htot, southFace_area]
    norm_num
  refine ⟨⟨osSurface, hok⟩, southFace_PlanarConvex, southFace_area, hsum, ?_⟩
  rw [hsum, southFace_area]
  norm_num

/-- C10 (amended): for every exterior above-grade wall whose outer loop is a
planar convex polygon of area A and every glazing ratio r with 0 < r ≤ 1, when
`AddSurface` succeeds the areas of the sub-surfaces it synthesizes
(`ScaleFaceVertices`, fan triangles, then `ScaleVertices` by 0.999 on each
triangle) sum to 0.999 x r x A, in exact arithmetic with `Math::Sqrt` the
square root on r and on 0.999. -/
theorem AddSurface_glazing_area (k : Kernel ℝ) (surfaceNumber : Nat)
    (buildingFace : Face ℝ) (buildingSpace : Cell ℝ) (osFacePoints : List (Point3d ℝ))
    (osSpace : Space) (upVector : Vector ℝ) (value : ℝ) (st : State ℝ) (n : Vector ℝ)
    (osSurface : Surface ℝ)
    (hft : (CalculateFaceType k buildingFace osFacePoints buildingSpace upVector).1 =
      .ok FACE_WALL)
    (hadj : AdjacentCellCount buildingFace < 2) (hug : IsUnderground buildingFace = false)
    (hconvex : PlanarConvex n buildingFace.ExternalBoundary)
    (h0 : 0 < value) (h1 : value ≤ 1)
    (hsr : k.Sqrt value * k.Sqrt value = value)
    (hs9 : k.Sqrt 0.999 * k.Sqrt 0.999 = 0.999)
    (hok : (AddSurface k surfaceNumber buildingFace buildingSpace osFacePoints osSpace upVector
      (some value) st).2 = .ok osSurface) :
    ∃ created,
      (AddSurface k surfaceNumber buildingFace buildingSpace osFacePoints osSpace upVector
        (some value) st).1.osModel.subSurfaces = st.osModel.subSurfaces ++ created ∧
      totalArea Real.sqrt created =
        0.999 * (value * polygonArea Real.sqrt (GetFacePoints buildingFace)) :=
  AddSurface_glazing_area_of_ok k surfaceNumber buildingFace buildingSpace osFacePoints
    osSpace upVector value st n osSurface hft hadj hug hconvex h0 h1 hsr hs9 hok

/-- Witness of `AddSurface_glazing_area`: the south wall of the unit cube with
glazing ratio 1 and the Euclidean kernel. -/
theorem AddSurface_glazing_area_witness :
    ∃ created,
      (AddSurface (euclidKernel Real.sqrt (fun x => Real.arccos x * 180 / Real.pi)) 1
        southFace unitCube (GetFacePoints southFace) ⟨"STORY_1_SPACE_1"⟩ zAxis (some 1)
        emptyState).1.osModel.subSurfaces =
          (emptyState : State ℝ).osModel.subSurfaces ++ created ∧
      totalArea Real.sqrt created =
        0.999 * (1 * polygonArea Real.sqrt (GetFacePoints (southFace : Face ℝ))) := by
  obtain ⟨osSurface, hok⟩ := southFace_glazing_ok
    (fun x => Real.arccos x * 180 / Real.pi) arccos_degrees_zero
  exact AddSurface_glazing_area
    (euclidKernel Real.sqrt (fun x => Real.arccos x * 180 / Real.pi)) 1 southFace unitCube
    (GetFacePoints southFace) ⟨"STORY_1_SPACE_1"⟩ zAxis 1 emptyState ⟨0, -1, 0⟩ osSurface
    (southFace_type_euclid _ arccos_degrees_zero _) (by decide)
    (by norm_num [IsUnderground, IsUndergroundLoop, southFace, cubeFace])
    southFace_PlanarConvex one_pos (le_refl _)
    (Real.mul_self_sqrt zero_le_one) (Real.mul_self_sqrt (by norm_num)) hok

end GlazingArea

section ImportExportTheorems

variable {K : Type} [LinearOrderedField K]

theorem ByImportedOSM_null_path {M E : Type} (load : String → Option M)
    (ProcessOsModel : M → K → Except String E) (tolerance : K) :
    ByImportedOSM load ProcessOsModel none tolerance =
      ([], .error "The input filePath must not be null.") := rfl

theorem ByImportedgbXML_null_path {M E : Type} (loadModel : String → Option M × List String)
    (ProcessOsModel : M → K → Except String E) (tolerance : K) :
    ByImportedgbXML loadModel ProcessOsModel none tolerance =
      ([], .error "The input filePath must not be null.") := rfl

theorem ByImportedOSM_bad_tolerance {M E : Type} (load : String → Option M)
    (ProcessOsModel : M → K → Except String E) (path : String) (tolerance : K)
    (h : tolerance ≤ 0) :
    ByImportedOSM load ProcessOsModel (some path) tolerance =
      ([], .error "The tolerance must have a positive value.") := by
  have h0 : tolerance ≤ 0.0 := by norm_num; exact h
  simp only [ByImportedOSM, if_pos h0]

theorem ByImportedgbXML_bad_tolerance {M E : Type}
    (loadModel : String → Option M × List String)
    (ProcessOsModel : M → K → Except String E) (path : String) (tolerance : K)
    (h : tolerance ≤ 0) :
    ByImportedgbXML loadModel ProcessOsModel (some path) tolerance =
      ([], .error "The tolerance must have a positive value.") := by
  have h0 : tolerance ≤ 0.0 := by norm_num; exact h
  simp only [ByImportedgbXML, if_pos h0]

/-- C18: `ByImportedOSM` and `ByImportedgbXML` fail with the null-path error for
a null file path, whatever the tolerance, and with the tolerance error for a
non-null path and every tolerance at most 0; in both cases no path has been
handed to a loader and the result is an error, not a model. -/
theorem imports_reject_invalid_arguments {M E : Type} (load : String → Option M)
    (loadModel : String → Option M × List String)
    (ProcessOsModel : M → K → Except String E) (tolerance : K) :
    ByImportedOSM load ProcessOsModel none tolerance =
      ([], .error "The input filePath must not be null.") ∧
    ByImportedgbXML loadModel ProcessOsModel none tolerance =
      ([], .error "The input filePath must not be null.") ∧
    (tolerance ≤ 0 → ∀ path : String,
      ByImportedOSM load ProcessOsModel (some path) tolerance =
        ([], .error "The tolerance must have a positive value.") ∧
      ByImportedgbXML loadModel ProcessOsModel (some path) tolerance =
        ([], .error "The tolerance must have a positive value.")) :=
  ⟨rfl, rfl, fun h path =>
    ⟨ByImportedOSM_bad_tolerance load ProcessOsModel path tolerance h,
     ByImportedgbXML_bad_tolerance loadModel ProcessOsModel path tolerance h⟩⟩

/-- Witness of `imports_reject_invalid_arguments`: the path `model.osm` with
tolerance 0 and loaders that would succeed. -/
theorem imports_reject_invalid_arguments_witness :
    ByImportedOSM (fun _ => some ()) (fun _ (_ : ℚ) => Except.ok ()) (some "model.osm") 0 =
      ([], .error "The tolerance must have a positive value.") ∧
    ByImportedgbXML (fun _ => (some (), [])) (fun _ (_ : ℚ) => Except.ok ())
        (some "model.osm") 0 =
      ([], .error "The tolerance must have a positive value.") :=
  (imports_reject_invalid_arguments (fun _ => some ()) (fun _ => (some (), []))
    (fun _ (_ : ℚ) => Except.ok ()) 0).2.2 (le_refl _) "model.osm"

theorem appendErrors_eq (count : Nat) :
    ∀ (rest : List String) (i : Nat) (errorMsg : String), count = i + rest.length →
      appendErrors count rest i errorMsg = errorMsg ++ joinLines rest
  | [], _, errorMsg, _ => by simp [appendErrors, joinLines]
  | [e], i, errorMsg, h => by
    have hi : ¬ i < count - 1 := by simp at h; omega
    simp [appendErrors, joinLines, hi]
  | e :: next :: rest, i, errorMsg, h => by
    have hi : i < count - 1 := by simp at h; omega
    have ih := appendErrors_eq count (next :: rest) (i + 1) (errorMsg ++ e ++ "\n")
      (by simp at h ⊢; omega)
    rw [appendErrors]
    simp only [hi, if_true]
    rw [ih, joinLines]
    simp only [String.append_assoc]

end ImportExportTheorems

section GbXMLTheorems

variable {K : Type} [LinearOrderedField K]

theorem ExportTogbXML_errors {M : Type} (modelToGbXML : M → String → Bool × List String)
    (osModel : M) (path : String) (h : 1 ≤ (modelToGbXML osModel path).2.length) :
    ExportTogbXML modelToGbXML (some osModel) (some path) =
      .error ("Fails exporting an EnergyModel to GbXML with the following errors:\n" ++
        joinLines (modelToGbXML osModel path).2) := by
  have hpos : (modelToGbXML osModel path).2.length > 0 := h
  simp only [ExportTogbXML, if_pos hpos]
  rw [appendErrors_eq _ _ 0 _ (by simp)]

theorem ByImportedgbXML_errors {M E : Type} (loadModel : String → Option M × List String)
    (ProcessOsModel : M → K → Except String E) (path : String) (tolerance : K)
    (osModel : M) (htol : 0 < tolerance) (hmodel : (loadModel path).1 = some osModel)
    (h : 1 ≤ (loadModel path).2.length) :
    ByImportedgbXML loadModel ProcessOsModel (some path) tolerance =
      ([path], .error
        ("Fails importing an OpenStudio model from GbXML with the following errors:\n" ++
          joinLines (loadModel path).2)) := by
  have h0 : ¬ tolerance ≤ 0.0 := by norm_num; exact htol
  have hpos : (loadModel path).2.length > 0 := h
  simp only [ByImportedgbXML, if_neg h0, hmodel, if_pos hpos]
  rw [appendErrors_eq _ _ 0 _ (by simp)]

theorem ByImportedgbXML_null_model {M E : Type} (loadModel : String → Option M × List String)
    (ProcessOsModel : M → K → Except String E) (path : String) (tolerance : K)
    (htol : 0 < tolerance) (hmodel : (loadModel path).1 = none) :
    ByImportedgbXML loadModel ProcessOsModel (some path) tolerance =
      ([path], .error "The imported gbXML yields a null OpenStudio Model.") := by
  have h0 : ¬ tolerance ≤ 0.0 := by norm_num; exact htol
  simp only [ByImportedgbXML, if_neg h0, hmodel]

/-- C19 (counterexample): a reverse translator that reports one error and
yields no model makes `ByImportedgbXML` fail with the null-model message, not
with the header followed by the error message. -/
theorem ByImportedgbXML_report_counterexample :
    1 ≤ ((fun _ => ((none : Option Unit), ["The file cannot be parsed."])) "model.xml").2.length ∧
    ByImportedgbXML (fun _ => ((none : Option Unit), ["The file cannot be parsed."]))
        (fun _ (_ : ℚ) => (Except.ok () : Except String Unit)) (some "model.xml") 1 =
      (["model.xml"], .error "The imported gbXML yields a null OpenStudio Model.") ∧
    "The imported gbXML yields a null OpenStudio Model." ≠
      "Fails importing an OpenStudio model from GbXML with the following errors:\n" ++
        joinLines ["The file cannot be parsed."] := by
  refine ⟨by decide, ?_, by decide⟩
  exact ByImportedgbXML_null_model _ _ "model.xml" 1 one_pos rfl

/-- C19 (amended): when the gbXML translator reports n >= 1 errors,
`ExportTogbXML` (for a non-null model and path) fails with a single message
equal to its fixed header line followed by the n error messages in their
reported order, separated by exactly one newline each and with no newline
after the last; `ByImportedgbXML` (for a non-null path and a positive
tolerance) does likewise when the translator has also yielded a model, and
fails with the null-model message, whatever the errors, when it has not. -/
theorem gbXML_error_report {M E : Type} (modelToGbXML : M → String → Bool × List String)
    (loadModel : String → Option M × List String)
    (ProcessOsModel : M → K → Except String E) (path : String) (tolerance : K)
    (htol : 0 < tolerance) :
    (∀ osModel : M, 1 ≤ (modelToGbXML osModel path).2.length →
      ExportTogbXML modelToGbXML (some osModel) (some path) =
        .error ("Fails exporting an EnergyModel to GbXML with the following errors:\n" ++
          joinLines (modelToGbXML osModel path).2)) ∧
    (∀ osModel : M, (loadModel path).1 = some osModel → 1 ≤ (loadModel path).2.length →
      ByImportedgbXML loadModel ProcessOsModel (some path) tolerance =
        ([path], .error
          ("Fails importing an OpenStudio model from GbXML with the following errors:\n" ++
            joinLines (loadModel path).2))) ∧
    ((loadModel path).1 = none →
      ByImportedgbXML loadModel ProcessOsModel (some path) tolerance =
        ([path], .error "The imported gbXML yields a null OpenStudio Model.")) :=
  ⟨fun osModel h => ExportTogbXML_errors modelToGbXML osModel path h,
   fun osModel hmodel h =>
     ByImportedgbXML_errors loadModel ProcessOsModel path tolerance osModel htol hmodel h,
   fun hmodel => ByImportedgbXML_null_model loadModel ProcessOsModel path tolerance htol hmodel⟩

/-- Witness of `gbXML_error_report`: a forward translator that reports two
errors. -/
theorem gbXML_error_report_witness :
    ExportTogbXML (fun (_ : Unit) _ => (false, ["first error", "second error"]))
        (some ()) (some "model.xml") =
      .error ("Fails exporting an EnergyModel to GbXML with the following errors:\n" ++
        joinLines ["first error", "second error"]) :=
  (gbXML_error_report (fun (_ : Unit) _ => (false, ["first error", "second error"]))
    (fun _ => (some (), [])) (fun _ (_ : ℚ) => (Except.ok () : Except String Unit))
    "model.xml" 1 one_pos).1 () (by decide)

end GbXMLTheorems

section RoundTripTheorems

variable {K : Type}

theorem collectVertices_eq {F : Type} :
    ∀ (osVertices : List (Point3d F)) (index : Nat),
      collectVertices osVertices index =
        (osVertices.map Point3d.toVertex, List.range' index osVertices.length)
  | [], _ => rfl
  | p :: rest, index => by
    simp only [collectVertices, collectVertices_eq rest (index + 1), List.map_cons,
      List.length_cons, List.range'_succ]

theorem FaceByOsSurfaceArgs_eq (osVertices : List (Point3d K)) (h : 3 ≤ osVertices.length) :
    FaceByOsSurfaceArgs osVertices =
      .ok (osVertices.map Point3d.toVertex, List.range osVertices.length ++ [0]) := by
  have hlt : ¬ (osVertices.map Point3d.toVertex).length < 3 := by
    rw [List.length_map]; omega
  simp only [FaceByOsSurfaceArgs, collectVertices_eq, if_neg hlt, List.range_eq_range']

theorem FaceByOsSurfaceArgs_short (osVertices : List (Point3d K))
    (h : osVertices.length < 3) :
    FaceByOsSurfaceArgs osVertices = .error "Invalid surface is found." := by
  have hlt : (osVertices.map Point3d.toVertex).length < 3 := by
    rw [List.length_map]; exact h
  simp only [FaceByOsSurfaceArgs, collectVertices_eq, if_pos hlt]

theorem GetFacePoints_toVertex {F : Type} (buildingFace : Face F) :
    (GetFacePoints buildingFace).map Point3d.toVertex = buildingFace.ExternalBoundary := by
  simp only [GetFacePoints, List.map_map]
  have : (Point3d.toVertex ∘ Vertex.toPoint3d : Vertex F → Vertex F) = id := by
    funext v; rfl
  rw [this, List.map_id]

theorem FaceByOsSurface_short
    (ByVerticesIndices : List (Vertex K) → List (List Nat) → Option (List (Topology K)))
    (osVertices : List (Point3d K)) (h : osVertices.length < 3) :
    FaceByOsSurface ByVerticesIndices osVertices = .error "Invalid surface is found." := by
  simp only [FaceByOsSurface, FaceByOsSurfaceArgs_short osVertices h]

/-- C20: for a face whose external boundary has n >= 3 vertices, the points
`GetFacePoints` yields are turned by `FaceByOsSurface` into the n vertices of
the boundary, with the same coordinates in the same order, joined by the
closed index loop 0, 1, ..., n-1, 0, and the face built from them by
`Topology::ByVerticesIndices` is returned; `FaceByOsSurface` fails for every
surface of fewer than 3 vertices. -/
theorem FaceByOsSurface_GetFacePoints_round_trip (buildingFace : Face K)
    (h : 3 ≤ buildingFace.ExternalBoundary.length) :
    (GetFacePoints buildingFace).length = buildingFace.ExternalBoundary.length ∧
    FaceByOsSurfaceArgs (GetFacePoints buildingFace) =
      .ok (buildingFace.ExternalBoundary,
        List.range buildingFace.ExternalBoundary.length ++ [0]) ∧
    (∀ (ByVerticesIndices : List (Vertex K) → List (List Nat) → Option (List (Topology K)))
      (face : Face K) (others : List (Topology K)),
      ByVerticesIndices buildingFace.ExternalBoundary
          [List.range buildingFace.ExternalBoundary.length ++ [0]] =
        some (.face face :: others) →
      FaceByOsSurface ByVerticesIndices (GetFacePoints buildingFace) = .ok face) ∧
    (∀ (ByVerticesIndices : List (Vertex K) → List (List Nat) → Option (List (Topology K)))
      (osVertices : List (Point3d K)), osVertices.length < 3 →
      FaceByOsSurface ByVerticesIndices osVertices = .error "Invalid surface is found.") := by
  have hlen : (GetFacePoints buildingFace).length = buildingFace.ExternalBoundary.length := by
    simp [GetFacePoints]
  have hargs : FaceByOsSurfaceArgs (GetFacePoints buildingFace) =
      .ok (buildingFace.ExternalBoundary,
        List.range buildingFace.ExternalBoundary.length ++ [0]) := by
    rw [FaceByOsSurfaceArgs_eq _ (by rw [hlen]; exact h), GetFacePoints_toVertex, hlen]
  refine ⟨hlen, hargs, ?_, ?_⟩
  · intro ByVerticesIndices face others hbvi
    simp only [FaceByOsSurface, hargs, hbvi]
  · intro ByVerticesIndices osVertices hshort
    exact FaceByOsSurface_short ByVerticesIndices osVertices hshort

/-- Witness of `FaceByOsSurface_GetFacePoints_round_trip`: the south wall of the
unit cube. -/
theorem FaceByOsSurface_GetFacePoints_round_trip_witness :
    FaceByOsSurfaceArgs (GetFacePoints (southFace : Face ℚ)) =
      .ok ([⟨0, 0, 0⟩, ⟨1, 0, 0⟩, ⟨1, 0, 1⟩, ⟨0, 0, 1⟩], [0, 1, 2, 3, 0]) :=
  (FaceByOsSurface_GetFacePoints_round_trip (southFace : Face ℚ) (by decide)).2.1

end RoundTripTheorems

section SurfaceShape

variable {K : Type} [LinearOrderedField K]

theorem reverseUnlessFacing_eq (k : Kernel K) (osSurface : Surface K) (direction : Vector K) :
    reverseUnlessFacing k osSurface direction =
      { osSurface with vertices := facingLoop k osSurface.vertices direction } := by
  simp only [reverseUnlessFacing, facingLoop]
  split_ifs <;> rfl

theorem AddSurface_surface (k : Kernel K) (surfaceNumber : Nat) (buildingFace : Face K)
    (buildingSpace : Cell K) (osFacePoints : List (Point3d K)) (osSpace : Space)
    (upVector : Vector K) (glazingRatio : Option K) (st : State K) (faceType : FaceType)
    (hft : (CalculateFaceType k buildingFace osFacePoints buildingSpace upVector).1 =
      .ok faceType) :
    ∃ osSurface : Surface K,
      (AddSurface k surfaceNumber buildingFace buildingSpace osFacePoints osSpace upVector
        glazingRatio st).1.osModel.surfaces = st.osModel.surfaces ++ [osSurface] ∧
      osSurface.vertices =
        surfaceLoop k faceType (AdjacentCellCount buildingFace) osFacePoints ∧
      osSurface.space = some osSpace.name ∧
      osSurface.name = some (osSpace.name ++ "_SURFACE_" ++ toString surfaceNumber) ∧
      (∀ returned, (AddSurface k surfaceNumber buildingFace buildingSpace osFacePoints osSpace
        upVector glazingRatio st).2 = .ok returned → returned = osSurface) := by
  have hone : (1.0 : K) = 1 := by norm_num
  unfold AddSurface
  simp only [hft]
  by_cases hadj : AdjacentCellCount buildingFace > 1
  · have hadj2 : ¬ AdjacentCellCount buildingFace < 2 := by omega
    cases faceType <;>
      simp [hadj, hadj2, commit_surfaces, setBranch, surfaceLoop, Surface.new]
  · have hadj2 : AdjacentCellCount buildingFace < 2 := by omega
    cases hug : IsUnderground buildingFace <;> cases faceType <;>
      simp only [hadj, hadj2, hug, false_and, and_false, true_and, and_true, if_false, if_true,
        not_true_eq_false, not_false_eq_true, Bool.false_eq_true, reduceCtorEq] <;>
      first
        | (refine ⟨_, rfl, ?_⟩
           simp [surfaceLoop, hadj2, setBranch, Surface.new, reverseUnlessFacing_eq, hone])
        | (split <;>
            (refine ⟨_, rfl, ?_⟩
             simp [surfaceLoop, hadj2, setBranch, Surface.new, reverseUnlessFacing_eq, hone]))

theorem AddSurface_error_of_classifier_error (k : Kernel K) (surfaceNumber : Nat)
    (buildingFace : Face K) (buildingSpace : Cell K) (osFacePoints : List (Point3d K))
    (osSpace : Space) (upVector : Vector K) (glazingRatio : Option K) (st : State K)
    (e : String)
    (hft : (CalculateFaceType k buildingFace osFacePoints buildingSpace upVector).1 =
      .error e) :
    AddSurface k surfaceNumber buildingFace buildingSpace osFacePoints osSpace upVector
        glazingRatio st =
      (st.commit { Surface.new osFacePoints with space := some osSpace.name }
        ⟨[], 1, st.numOfApertures, st.numOfAppliedApertures⟩, .error e) := by
  unfold AddSurface
  simp only [hft]

theorem AddSurface_no_subsurface (k : Kernel K) (surfaceNumber : Nat)
    (buildingFace : Face K) (buildingSpace : Cell K) (osFacePoints : List (Point3d K))
    (osSpace : Space) (upVector : Vector K) (glazingRatio : Option K) (st : State K)
    (hne : ¬ ((CalculateFaceType k buildingFace osFacePoints buildingSpace upVector).1 =
        .ok FACE_WALL ∧ AdjacentCellCount buildingFace < 2 ∧
      IsUnderground buildingFace = false)) :
    (AddSurface k surfaceNumber buildingFace buildingSpace osFacePoints osSpace upVector
      glazingRatio st).1.osModel.subSurfaces = st.osModel.subSurfaces ∧
    (AddSurface k surfaceNumber buildingFace buildingSpace osFacePoints osSpace upVector
      glazingRatio st).1.numOfApertures = st.numOfApertures ∧
    (AddSurface k surfaceNumber buildingFace buildingSpace osFacePoints osSpace upVector
      glazingRatio st).1.numOfAppliedApertures = st.numOfAppliedApertures := by
  rcases hcls : (CalculateFaceType k buildingFace osFacePoints buildingSpace upVector).1 with
    e | faceType
  · rw [AddSurface_error_of_classifier_error k _ _ _ _ _ _ _ _ e hcls]
    simp [State.commit]
  · rw [hcls] at hne
    unfold AddSurface
    simp only [hcls]
    by_cases hadj : AdjacentCellCount buildingFace > 1
    · have hadj2 : ¬ AdjacentCellCount buildingFace < 2 := by omega
      cases faceType <;> simp [hadj, hadj2, State.commit]
    · have hadj2 : AdjacentCellCount buildingFace < 2 := by omega
      cases hug : IsUnderground buildingFace <;> cases faceType <;>
        first
          | (simp [hadj, hadj2, hug, State.commit]; done)
          | exact absurd (And.intro rfl (And.intro hadj2 hug)) hne

end SurfaceShape

section AssemblyTheorems

variable {K : Type} [LinearOrderedField K]

theorem surfaceLoop_cases (k : Kernel K) (faceType : FaceType) (adjCount : Nat)
    (points : List (Point3d K)) :
    surfaceLoop k faceType adjCount points = points ∨
    surfaceLoop k faceType adjCount points = points.reverse := by
  unfold surfaceLoop facingLoop
  split_ifs <;> simp

theorem CalculateFaceType_ok (k : Kernel K) (buildingFace : Face K)
    (facePoints : List (Point3d K)) (buildingSpace : Cell K) (upVector : Vector K)
    (htri : k.Triangulate buildingFace ≠ []) (hv : 3 ≤ buildingFace.Vertices.length) :
    ∃ faceType, (CalculateFaceType k buildingFace facePoints buildingSpace upVector).1 =
      .ok faceType := by
  obtain ⟨firstFace, rest, hfaces⟩ := List.exists_cons_of_ne_nil htri
  rcases hvs : buildingFace.Vertices with _ | ⟨p1, _ | ⟨p2, _ | ⟨p3, tl⟩⟩⟩
  · rw [hvs] at hv; simp at hv
  · rw [hvs] at hv; simp at hv
  · rw [hvs] at hv; simp at hv
  · simp only [CalculateFaceType, hfaces, hvs]
    split_ifs <;> exact ⟨_, rfl⟩

theorem AddSurface_ok_without_apertures (k : Kernel K) (surfaceNumber : Nat)
    (buildingFace : Face K) (buildingSpace : Cell K) (osFacePoints : List (Point3d K))
    (osSpace : Space) (upVector : Vector K) (st : State K) (faceType : FaceType)
    (hft : (CalculateFaceType k buildingFace osFacePoints buildingSpace upVector).1 =
      .ok faceType)
    (hcontents : buildingFace.Contents = []) :
    ∃ osSurface, (AddSurface k surfaceNumber buildingFace buildingSpace osFacePoints osSpace
      upVector none st).2 = .ok osSurface := by
  by_cases hwall : faceType = FACE_WALL ∧ AdjacentCellCount buildingFace < 2 ∧
      IsUnderground buildingFace = false
  · obtain ⟨hw, hadj, hug⟩ := hwall
    subst hw
    have hap : addWallApertures k buildingFace
        (⟨osFacePoints, some osSpace.name,
          some (osSpace.name ++ "_SURFACE_" ++ toString surfaceNumber),
          some "Outdoors", some "Wall",
          findConstruction st.osModel.constructions
            "ASHRAE 189.1-2009 ExtWall SteelFrame ClimateZone 4-8",
          some "SunExposed", some "WindExposed"⟩ : Surface K)
        st.osModel.surfaces.length none
        ⟨[], 1, st.numOfApertures, st.numOfAppliedApertures⟩ =
        (⟨[], 1, st.numOfApertures, st.numOfAppliedApertures⟩, .ok ()) := by
      simp only [addWallApertures, hcontents, applyApertures]
    rw [AddSurface_exterior_wall k surfaceNumber buildingFace buildingSpace osFacePoints
      osSpace upVector none st hft hadj hug _ rfl _ _ hap]
    exact ⟨_, rfl⟩
  · exact AddSurface_ok_of_not_exterior_wall k surfaceNumber buildingFace buildingSpace
      osFacePoints osSpace upVector none st faceType hft hwall

theorem AddSpaceSurfaces_created (k : Kernel K) (cell : Cell K) (osSpace : Space)
    (upVector : Vector K) (glazingRatio : Option K) :
    ∀ (faces : List (Face K)) (i : Nat) (st st1 : State K),
      AddSpaceSurfaces k cell osSpace upVector glazingRatio faces i st = (st1, .ok ()) →
      ∃ created : List (Surface K),
        st1.osModel.surfaces = st.osModel.surfaces ++ created ∧
        created.length = faces.length ∧
        ∀ (j : Nat) (face : Face K), faces[j]? = some face →
          ∃ osSurface, created[j]? = some osSurface ∧
            osSurface.space = some osSpace.name ∧
            osSurface.name = some (osSpace.name ++ "_SURFACE_" ++ toString (i + j + 1)) ∧
            (osSurface.vertices = GetFacePoints face ∨
              osSurface.vertices = (GetFacePoints face).reverse) := by
  intro faces
  induction faces with
  | nil =>
    intro i st st1 h
    simp only [AddSpaceSurfaces, Prod.mk.injEq, and_true] at h
    subst h
    exact ⟨[], by simp, rfl, by intro j face hj; simp at hj⟩
  | cons face rest ih =>
    intro i st st1 h
    rw [AddSpaceSurfaces] at h
    rcases hstep : AddSurface k (i + 1) face cell (GetFacePoints face) osSpace upVector
      glazingRatio st with ⟨st2, e | returned⟩
    · rw [hstep] at h
      simp only [Prod.mk.injEq, reduceCtorEq, and_false] at h
    · rw [hstep] at h
      simp only at h
      rcases hcls : (CalculateFaceType k face (GetFacePoints face) cell upVector).1 with
        e | faceType
      · have herr := AddSurface_error_of_classifier_error k (i + 1) face cell
          (GetFacePoints face) osSpace upVector glazingRatio st e hcls
        rw [herr] at hstep
        simp only [Prod.mk.injEq, reduceCtorEq, and_false] at hstep
      · obtain ⟨osSurface, hsurf, hverts, hspace, hname, _⟩ := AddSurface_surface k (i + 1)
          face cell (GetFacePoints face) osSpace upVector glazingRatio st faceType hcls
        rw [hstep] at hsurf
        simp only at hsurf
        obtain ⟨created, hcr, hlen, hall⟩ := ih (i + 1) st2 st1 h
        refine ⟨osSurface :: created, ?_, ?_, ?_⟩
        · rw [hcr, hsurf]; simp
        · simp [hlen]
        · intro j f hj
          cases j with
          | zero =>
            simp only [List.getElem?_cons_zero, Option.some.injEq] at hj
            subst hj
            refine ⟨osSurface, by simp, hspace, by simpa using hname, ?_⟩
            rw [hverts]
            exact surfaceLoop_cases k faceType _ _
          | succ j1 =>
            simp only [List.getElem?_cons_succ] at hj
            obtain ⟨s, hs, hsp, hnm, hvs⟩ := hall j1 f hj
            refine ⟨s, by simpa using hs, hsp, ?_, hvs⟩
            rw [hnm]
            congr 3
            omega

theorem AddSpace_created (k : Kernel K) (buildingStories : List String) (spaceNumber : Nat)
    (cell : Cell K) (upVector : Vector K) (floorLevels : List K) (glazingRatio : Option K)
    (st st1 : State K) (osSpace : Space)
    (h : AddSpace k buildingStories spaceNumber cell upVector floorLevels glazingRatio st =
      (st1, .ok osSpace)) :
    ∃ created : List (Surface K),
      st1.osModel.surfaces = st.osModel.surfaces ++ created ∧
      created.length = cell.Faces.length ∧
      ∀ (i : Nat) (face : Face K), cell.Faces[i]? = some face →
        ∃ osSurface, created[i]? = some osSurface ∧
          osSurface.space = some osSpace.name ∧
          osSurface.name = some (osSpace.name ++ "_SURFACE_" ++ toString (i + 1)) ∧
          (osSurface.vertices = GetFacePoints face ∨
            osSurface.vertices = (GetFacePoints face).reverse) := by
  unfold AddSpace at h
  simp only at h
  rcases hstory : buildingStories[StoryNumber cell floorLevels]? with _ | buildingStory
  · rw [hstory] at h
    simp only [Prod.mk.injEq, reduceCtorEq, and_false] at h
  · rw [hstory] at h
    simp only at h
    rcases hloop : AddSpaceSurfaces k cell
      ⟨buildingStory ++ "_SPACE_" ++ toString spaceNumber⟩ upVector glazingRatio cell.Faces 0
      st with ⟨st2, e | u⟩
    · rw [hloop] at h
      simp only [Prod.mk.injEq, reduceCtorEq, and_false] at h
    · rw [hloop] at h
      simp only [Prod.mk.injEq, Except.ok.injEq] at h
      obtain ⟨hst, hsp⟩ := h
      subst hst; subst hsp
      obtain ⟨created, hcr, hlen, hall⟩ := AddSpaceSurfaces_created k cell _ upVector
        glazingRatio cell.Faces 0 st st2 hloop
      refine ⟨created, hcr, hlen, ?_⟩
      intro i face hi
      obtain ⟨s, hs, hsp, hnm, hvs⟩ := hall i face hi
      exact ⟨s, hs, hsp, by simpa using hnm, hvs⟩

end AssemblyTheorems

section AssemblyTheorems2

variable {K : Type} [LinearOrderedField K]

theorem AddSpaceSurfaces_ok_of_plain_faces (k : Kernel K) (cell : Cell K) (osSpace : Space)
    (upVector : Vector K) :
    ∀ (faces : List (Face K)) (i : Nat) (st : State K),
      (∀ face ∈ faces, k.Triangulate face ≠ [] ∧ 3 ≤ face.Vertices.length ∧
        face.Contents = []) →
      ∃ st1, AddSpaceSurfaces k cell osSpace upVector none faces i st = (st1, .ok ()) := by
  intro faces
  induction faces with
  | nil => intro i st _; exact ⟨st, rfl⟩
  | cons face rest ih =>
    intro i st hall
    obtain ⟨htri, hv, hcontents⟩ := hall face (List.mem_cons_self _ _)
    obtain ⟨faceType, hft⟩ := CalculateFaceType_ok k face (GetFacePoints face) cell upVector
      htri hv
    obtain ⟨osSurface, hok⟩ := AddSurface_ok_without_apertures k (i + 1) face cell
      (GetFacePoints face) osSpace upVector st faceType hft hcontents
    rcases hstep : AddSurface k (i + 1) face cell (GetFacePoints face) osSpace upVector
      none st with ⟨st2, res⟩
    rw [hstep] at hok
    simp only at hok
    subst hok
    obtain ⟨st1, hrest⟩ := ih (i + 1) st2
      (fun f hf => hall f (List.mem_cons_of_mem _ hf))
    refine ⟨st1, ?_⟩
    rw [AddSpaceSurfaces, hstep]
    exact hrest

theorem unitCube_plain_faces :
    ∀ face ∈ (unitCube : Cell ℚ).Faces,
      boxKernel.Triangulate face ≠ [] ∧ 3 ≤ face.Vertices.length ∧ face.Contents = [] := by
  intro face hface
  simp only [unitCube, List.mem_cons, List.mem_singleton, List.not_mem_nil, or_false] at hface
  rcases hface with h | h | h | h | h | h <;> subst h <;>
    norm_num [boxKernel, triangulateFan, bottomFace, topFace, southFace, northFace, westFace,
      eastFace, cubeFace, fanTriangles, newell, newellFrom, Vector.Add, Vector.Cross,
      Vector.dot, Point3d.toVector, Vertex.toPoint3d] <;>
    exact List.cons_ne_nil _ _

theorem unitCube_AddSpace_ok :
    ∃ st1, AddSpace boxKernel ["STORY_1"] 1 (unitCube : Cell ℚ) zAxis [0, 3] none emptyState =
      (st1, .ok ⟨"STORY_1_SPACE_1"⟩) := by
  obtain ⟨st1, h⟩ := AddSpaceSurfaces_ok_of_plain_faces boxKernel (unitCube : Cell ℚ)
    ⟨"STORY_1_SPACE_1"⟩ zAxis (unitCube : Cell ℚ).Faces 0 emptyState unitCube_plain_faces
  refine ⟨st1, ?_⟩
  have hstory : StoryNumber (unitCube : Cell ℚ) [0, 3] = 0 := by
    norm_num [StoryNumber, StoryNumberLoop, unitCube]
  have hname : "STORY_1" ++ "_SPACE_" ++ toString 1 = "STORY_1_SPACE_1" := by decide
  simp only [AddSpace, hstory, List.getElem?_cons_zero, hname, h]

end AssemblyTheorems2

section WindowRules

variable {K : Type} [LinearOrderedField K]

theorem GetCentreVertex_mean (vertices : List (Vertex K)) (h : 3 ≤ vertices.length) :
    GetCentreVertex vertices = .ok (meanVertex vertices) := by
  have hlt : ¬ vertices.length < 3 := by omega
  have hone : (1.0 : K) = 1 := by norm_num
  simp only [GetCentreVertex, if_neg hlt, meanVertex, hone]

theorem ScaleVertices_mean (k : Kernel K) (vertices : List (Vertex K)) (scaleFactor : K)
    (h : 3 ≤ vertices.length) :
    ScaleVertices k vertices scaleFactor =
      .ok (vertices.map (scaleAbout (meanVertex vertices) (k.Sqrt scaleFactor))) :=
  ScaleVertices_eq k vertices scaleFactor _ (GetCentreVertex_mean vertices h)

theorem ScaleVertices_short (k : Kernel K) (vertices : List (Vertex K)) (scaleFactor : K)
    (h : vertices.length < 3) :
    ScaleVertices k vertices scaleFactor = .error "Invalid face" := by
  simp only [ScaleVertices, GetCentreVertex_error vertices h]

theorem synthesizeWindow_rule (k : Kernel K) (osSurface : Surface K) (surfaceIndex : Nat)
    (first b c : Vertex K) (s : SubState K) :
    synthesizeWindow k osSurface surfaceIndex first b c s =
      if orientationDot k osSurface.vertices (windowCandidate k first b c) < -0.99 then
        (attachWindow k osSurface surfaceIndex (windowCandidate k first b c).reverse s, .ok ())
      else if NonCoplanar (orientationDot k osSurface.vertices (windowCandidate k first b c)) then
        ({ s with subs := s.subs ++ [SubSurface.new (windowCandidate k first b c)] },
          .error "There is a non-coplanar subsurface.")
      else
        (attachWindow k osSurface surfaceIndex (windowCandidate k first b c) s, .ok ()) := by
  simp only [synthesizeWindow, ScaleVertices_mean k [first, b, c] 0.999 (by simp),
    windowCandidate, orientationDot, NonCoplanar]

theorem attachWindow_subs {F : Type} (k : Kernel F) (osSurface : Surface F)
    (surfaceIndex : Nat) (finalPoints : List (Point3d F)) (s : SubState F) :
    ∃ sub, (attachWindow k osSurface surfaceIndex finalPoints s).subs = s.subs ++ [sub] ∧
      sub.vertices = finalPoints ∧
      sub.name = some (osSurface.name.getD "" ++ "_SUBSURFACE_" ++
        toString s.subsurfaceCounter) ∧
      (attachWindow k osSurface surfaceIndex finalPoints s).subsurfaceCounter =
        s.subsurfaceCounter + 1 ∧
      (attachWindow k osSurface surfaceIndex finalPoints s).numOfApertures =
        s.numOfApertures ∧
      (attachWindow k osSurface surfaceIndex finalPoints s).numOfAppliedApertures =
        s.numOfAppliedApertures :=
  ⟨_, rfl, rfl, rfl, rfl, rfl, rfl⟩

theorem synthesizeWindow_step (k : Kernel K) (osSurface : Surface K) (surfaceIndex : Nat)
    (first b c : Vertex K) (s : SubState K) :
    ∃ sub, (synthesizeWindow k osSurface surfaceIndex first b c s).1.subs = s.subs ++ [sub] ∧
      (sub.vertices = windowCandidate k first b c ∨
        sub.vertices = (windowCandidate k first b c).reverse) ∧
      (synthesizeWindow k osSurface surfaceIndex first b c s).1.numOfApertures =
        s.numOfApertures ∧
      (synthesizeWindow k osSurface surfaceIndex first b c s).1.numOfAppliedApertures =
        s.numOfAppliedApertures := by
  rw [synthesizeWindow_rule]
  split_ifs
  · exact ⟨_, rfl, Or.inr rfl, rfl, rfl⟩
  · exact ⟨SubSurface.new (windowCandidate k first b c), rfl, Or.inl rfl, rfl, rfl⟩
  · exact ⟨_, rfl, Or.inl rfl, rfl, rfl⟩

theorem synthesizeWindows_created (k : Kernel K) (osSurface : Surface K) (surfaceIndex : Nat)
    (first : Vertex K) :
    ∀ (rest : List (Vertex K)) (s : SubState K),
      ∃ created,
        (synthesizeWindows k osSurface surfaceIndex first rest s).1.subs = s.subs ++ created ∧
        (∀ sub ∈ created, ∃ pair ∈ consecutivePairs rest,
          sub.vertices = windowCandidate k first pair.1 pair.2 ∨
          sub.vertices = (windowCandidate k first pair.1 pair.2).reverse) ∧
        (synthesizeWindows k osSurface surfaceIndex first rest s).1.numOfApertures =
          s.numOfApertures ∧
        (synthesizeWindows k osSurface surfaceIndex first rest s).1.numOfAppliedApertures =
          s.numOfAppliedApertures := by
  intro rest
  induction rest with
  | nil => intro s; exact ⟨[], by simp [synthesizeWindows], by simp, rfl, rfl⟩
  | cons b tl ih =>
    intro s
    cases tl with
    | nil => exact ⟨[], by simp [synthesizeWindows], by simp, rfl, rfl⟩
    | cons c rest =>
      obtain ⟨sub, hsub, hverts, hn1, hn2⟩ := synthesizeWindow_step k osSurface surfaceIndex
        first b c s
      rw [synthesizeWindows]
      rcases hstep : synthesizeWindow k osSurface surfaceIndex first b c s with ⟨s1, e | u⟩
      · rw [hstep] at hsub hn1 hn2
        refine ⟨[sub], hsub, ?_, hn1, hn2⟩
        intro x hx
        simp only [List.mem_singleton] at hx
        subst hx
        exact ⟨(b, c), by simp [consecutivePairs], hverts⟩
      · rw [hstep] at hsub hn1 hn2
        simp only at hsub hn1 hn2 ⊢
        obtain ⟨created, hcr, hall, hm1, hm2⟩ := ih s1
        refine ⟨sub :: created, ?_, ?_, by rw [hm1, hn1], by rw [hm2, hn2]⟩
        · rw [hcr, hsub]; simp
        · intro x hx
          rcases List.mem_cons.mp hx with hx | hx
          · subst hx
            exact ⟨(b, c), by simp [consecutivePairs], hverts⟩
          · obtain ⟨pair, hp, hv⟩ := hall x hx
            exact ⟨pair, by simp only [consecutivePairs]; exact List.mem_cons_of_mem _ hp, hv⟩

theorem synthesizeWindows_error (k : Kernel K) (osSurface : Surface K) (surfaceIndex : Nat)
    (first : Vertex K) :
    ∀ (rest : List (Vertex K)) (s : SubState K),
      (∃ pair ∈ consecutivePairs rest,
        NonCoplanar (orientationDot k osSurface.vertices
          (windowCandidate k first pair.1 pair.2))) →
      (synthesizeWindows k osSurface surfaceIndex first rest s).2 =
        .error "There is a non-coplanar subsurface." := by
  intro rest
  induction rest with
  | nil => intro s h; obtain ⟨p, hp, _⟩ := h; simp [consecutivePairs] at hp
  | cons b tl ih =>
    intro s h
    cases tl with
    | nil => obtain ⟨p, hp, _⟩ := h; simp [consecutivePairs] at hp
    | cons c rest =>
      rw [synthesizeWindows, synthesizeWindow_rule]
      by_cases hbc : NonCoplanar (orientationDot k osSurface.vertices
          (windowCandidate k first b c))
      · have hnot : ¬ orientationDot k osSurface.vertices (windowCandidate k first b c)
            < -0.99 := not_lt.mpr (le_of_lt hbc.1)
        rw [if_neg hnot, if_pos hbc]
      · obtain ⟨p, hp, hnc⟩ := h
        simp only [consecutivePairs, List.mem_cons] at hp
        have hrest : ∃ pair ∈ consecutivePairs (c :: rest),
            NonCoplanar (orientationDot k osSurface.vertices
              (windowCandidate k first pair.1 pair.2)) := by
          rcases hp with hp | hp
          · subst hp; exact absurd hnc hbc
          · exact ⟨p, hp, hnc⟩
        split_ifs
        · exact ih _ hrest
        · exact ih _ hrest

theorem synthesizeWindows_ok_of_all (k : Kernel K) (osSurface : Surface K)
    (surfaceIndex : Nat) (first : Vertex K) :
    ∀ (rest : List (Vertex K)) (s : SubState K),
      (∀ pair ∈ consecutivePairs rest,
        ¬ NonCoplanar (orientationDot k osSurface.vertices
          (windowCandidate k first pair.1 pair.2))) →
      (synthesizeWindows k osSurface surfaceIndex first rest s).2 = .ok () := by
  intro rest
  induction rest with
  | nil => intro s _; rfl
  | cons b tl ih =>
    intro s h
    cases tl with
    | nil => rfl
    | cons c rest =>
      have hbc := h (b, c) (by simp [consecutivePairs])
      have hrest : ∀ pair ∈ consecutivePairs (c :: rest),
          ¬ NonCoplanar (orientationDot k osSurface.vertices
            (windowCandidate k first pair.1 pair.2)) := by
        intro pair hp
        exact h pair (by simp only [consecutivePairs]; exact List.mem_cons_of_mem _ hp)
      rw [synthesizeWindows, synthesizeWindow_rule]
      split_ifs
      · exact ih _ hrest
      · exact ih _ hrest

end WindowRules

section ApertureRules

variable {K : Type} [LinearOrderedField K]

theorem applyAperture_rule (k : Kernel K) (osSurface : Surface K) (surfaceIndex : Nat)
    (pFaceAperture : ApertureFace K) (s : SubState K) :
    applyAperture k osSurface surfaceIndex (.aperture (some pFaceAperture)) s =
      if k.Area pFaceAperture ≤ 0.1 then (s, .ok ())
      else if orientationDot k osSurface.vertices (apertureCandidate pFaceAperture) < -0.99 then
        (attachAperture k osSurface surfaceIndex
          (SubSurface.new (apertureCandidate pFaceAperture).reverse) s, .ok ())
      else if NonCoplanar
          (orientationDot k osSurface.vertices (apertureCandidate pFaceAperture)) then
        ({ s with subs := s.subs ++ [SubSurface.new (apertureCandidate pFaceAperture)] },
          .error "There is a non-coplanar subsurface.")
      else
        (attachAperture k osSurface surfaceIndex
          (SubSurface.new (apertureCandidate pFaceAperture)) s, .ok ()) := by
  simp only [applyAperture, CreateSubSurface, apertureCandidate, orientationDot, NonCoplanar,
    SubSurface.new, List.map_reverse]

theorem attachAperture_facts (k : Kernel K) (osSurface : Surface K) (surfaceIndex : Nat)
    (points : List (Point3d K)) (s : SubState K) :
    (attachAperture k osSurface surfaceIndex (SubSurface.new points) s).numOfApertures =
      s.numOfApertures + 1 ∧
    (attachAperture k osSurface surfaceIndex (SubSurface.new points) s).numOfAppliedApertures =
      s.numOfAppliedApertures +
        (if k.grossArea points > 0.1 ∧ k.setSurfaceOk points osSurface.vertices = true
          then 1 else 0) ∧
    (k.grossArea points ≤ 0.1 →
      (attachAperture k osSurface surfaceIndex (SubSurface.new points) s).subs = s.subs) ∧
    (k.grossArea points > 0.1 →
      ∃ sub, (attachAperture k osSurface surfaceIndex (SubSurface.new points) s).subs =
        s.subs ++ [sub] ∧ sub.vertices = points ∧
        (sub.surface = some surfaceIndex ↔ k.setSurfaceOk points osSurface.vertices = true)) := by
  by_cases hg : k.grossArea points > 0.1
  · cases hset : k.setSurfaceOk points osSurface.vertices
    · simp only [attachAperture, SubSurface.new, hg, hset, if_true, and_false,
        Bool.false_eq_true, if_false, add_zero]
      exact ⟨trivial, trivial, fun h => absurd hg (not_lt.mpr h),
        fun _ => ⟨_, rfl, rfl, by simp⟩⟩
    · simp only [attachAperture, SubSurface.new, hg, hset, if_true, and_self]
      exact ⟨trivial, trivial, fun h => absurd hg (not_lt.mpr h),
        fun _ => ⟨_, rfl, rfl, by simp⟩⟩
  · refine ⟨?_, ?_, ?_, fun h => absurd h hg⟩
    · simp only [attachAperture, SubSurface.new, hg, if_false]
    · simp only [attachAperture, SubSurface.new, hg, if_false, false_and, add_zero]
    · intro _
      simp only [attachAperture, SubSurface.new, hg, if_false]

theorem applyAperture_counts (k : Kernel K) (osSurface : Surface K) (surfaceIndex : Nat)
    (pContent : Content K) (s s1 : SubState K)
    (h : applyAperture k osSurface surfaceIndex pContent s = (s1, .ok ())) :
    s1.numOfApertures = s.numOfApertures + (if isCandidate k pContent = true then 1 else 0) ∧
    s1.numOfAppliedApertures = s.numOfAppliedApertures +
      (if isApplied k osSurface.vertices pContent = true then 1 else 0) := by
  cases pContent with
  | other =>
    simp only [applyAperture, Prod.mk.injEq, and_true] at h
    subst h
    simp [isCandidate, isApplied]
  | aperture topology =>
    cases topology with
    | none => simp [applyAperture] at h
    | some pFaceAperture =>
      rw [applyAperture_rule] at h
      by_cases harea : k.Area pFaceAperture ≤ 0.1
      · rw [if_pos harea] at h
        simp only [Prod.mk.injEq, and_true] at h
        subst h
        have hn : ¬ k.Area pFaceAperture > 0.1 := not_lt.mpr harea
        simp [isCandidate, isApplied, hn]
      · rw [if_neg harea] at h
        have hp : k.Area pFaceAperture > 0.1 := not_le.mp harea
        by_cases hflip : orientationDot k osSurface.vertices
            (apertureCandidate pFaceAperture) < -0.99
        · rw [if_pos hflip] at h
          simp only [Prod.mk.injEq, and_true] at h
          subst h
          obtain ⟨h1, h2, _, _⟩ := attachAperture_facts k osSurface surfaceIndex
            (apertureCandidate pFaceAperture).reverse s
          rw [h1, h2]
          simp [isCandidate, isApplied, hp, apertureFinal, hflip]
        · rw [if_neg hflip] at h
          by_cases hnc : NonCoplanar (orientationDot k osSurface.vertices
              (apertureCandidate pFaceAperture))
          · rw [if_pos hnc] at h
            simp only [Prod.mk.injEq, reduceCtorEq, and_false] at h
          · rw [if_neg hnc] at h
            simp only [Prod.mk.injEq, and_true] at h
            subst h
            obtain ⟨h1, h2, _, _⟩ := attachAperture_facts k osSurface surfaceIndex
              (apertureCandidate pFaceAperture) s
            rw [h1, h2]
            simp [isCandidate, isApplied, hp, apertureFinal, hflip]

theorem applyAperture_created (k : Kernel K) (osSurface : Surface K) (surfaceIndex : Nat)
    (pContent : Content K) (s : SubState K) :
    ∃ created, (applyAperture k osSurface surfaceIndex pContent s).1.subs = s.subs ++ created ∧
      ∀ sub ∈ created, ∃ pFaceAperture, pContent = .aperture (some pFaceAperture) ∧
        k.Area pFaceAperture > 0.1 ∧
        (sub.vertices = apertureCandidate pFaceAperture ∨
          sub.vertices = (apertureCandidate pFaceAperture).reverse) := by
  cases pContent with
  | other => exact ⟨[], by simp [applyAperture], by simp⟩
  | aperture topology =>
    cases topology with
    | none => exact ⟨[], by simp [applyAperture], by simp⟩
    | some pFaceAperture =>
      rw [applyAperture_rule]
      by_cases harea : k.Area pFaceAperture ≤ 0.1
      · rw [if_pos harea]
        exact ⟨[], by simp, by simp⟩
      · rw [if_neg harea]
        have hp : k.Area pFaceAperture > 0.1 := not_le.mp harea
        have key : ∀ points : List (Point3d K),
            (points = apertureCandidate pFaceAperture ∨
              points = (apertureCandidate pFaceAperture).reverse) →
            ∃ created, (attachAperture k osSurface surfaceIndex (SubSurface.new points)
                s).subs = s.subs ++ created ∧
              ∀ sub ∈ created, ∃ f, Content.aperture (some pFaceAperture) =
                  .aperture (some f) ∧ k.Area f > 0.1 ∧
                (sub.vertices = apertureCandidate f ∨
                  sub.vertices = (apertureCandidate f).reverse) := by
          intro points hpts
          obtain ⟨_, _, hsmall, hbig⟩ := attachAperture_facts k osSurface surfaceIndex points s
          by_cases hg : k.grossArea points > 0.1
          · obtain ⟨sub, hsub, hv, _⟩ := hbig hg
            refine ⟨[sub], hsub, ?_⟩
            intro x hx
            simp only [List.mem_singleton] at hx
            subst hx
            exact ⟨pFaceAperture, rfl, hp, by rw [hv]; exact hpts⟩
          · exact ⟨[], by rw [hsmall (not_lt.mp hg)]; simp, by simp⟩
        split_ifs
        · exact key _ (Or.inr rfl)
        · refine ⟨[SubSurface.new (apertureCandidate pFaceAperture)], rfl, ?_⟩
          intro x hx
          simp only [List.mem_singleton] at hx
          subst hx
          exact ⟨pFaceAperture, rfl, hp, Or.inl rfl⟩
        · exact key _ (Or.inl rfl)

theorem applyApertures_counts (k : Kernel K) (osSurface : Surface K) (surfaceIndex : Nat) :
    ∀ (contents : List (Content K)) (s s1 : SubState K),
      applyApertures k osSurface surfaceIndex contents s = (s1, .ok ()) →
      s1.numOfApertures = s.numOfApertures + (contents.countP (isCandidate k) : Nat) ∧
      s1.numOfAppliedApertures = s.numOfAppliedApertures +
        (contents.countP (isApplied k osSurface.vertices) : Nat) := by
  intro contents
  induction contents with
  | nil =>
    intro s s1 h
    simp only [applyApertures, Prod.mk.injEq, and_true] at h
    subst h
    simp
  | cons pContent rest ih =>
    intro s s1 h
    rw [applyApertures] at h
    rcases hstep : applyAperture k osSurface surfaceIndex pContent s with ⟨s2, e | u⟩
    · rw [hstep] at h
      simp only [Prod.mk.injEq, reduceCtorEq, and_false] at h
    · rw [hstep] at h
      simp only at h
      obtain ⟨h1, h2⟩ := applyAperture_counts k osSurface surfaceIndex pContent s s2 hstep
      obtain ⟨h3, h4⟩ := ih s2 s1 h
      rw [h3, h4, h1, h2, List.countP_cons, List.countP_cons]
      constructor
      · split_ifs <;> push_cast <;> ring
      · split_ifs <;> push_cast <;> ring

theorem applyApertures_created (k : Kernel K) (osSurface : Surface K) (surfaceIndex : Nat) :
    ∀ (contents : List (Content K)) (s : SubState K),
      ∃ created,
        (applyApertures k osSurface surfaceIndex contents s).1.subs = s.subs ++ created ∧
        ∀ sub ∈ created, ∃ pFaceAperture, .aperture (some pFaceAperture) ∈ contents ∧
          k.Area pFaceAperture > 0.1 ∧
          (sub.vertices = apertureCandidate pFaceAperture ∨
            sub.vertices = (apertureCandidate pFaceAperture).reverse) := by
  intro contents
  induction contents with
  | nil => intro s; exact ⟨[], by simp [applyApertures], by simp⟩
  | cons pContent rest ih =>
    intro s
    obtain ⟨first, hfirst, hprov⟩ := applyAperture_created k osSurface surfaceIndex pContent s
    have hlift : ∀ sub ∈ first, ∃ pFaceAperture,
        .aperture (some pFaceAperture) ∈ pContent :: rest ∧ k.Area pFaceAperture > 0.1 ∧
        (sub.vertices = apertureCandidate pFaceAperture ∨
          sub.vertices = (apertureCandidate pFaceAperture).reverse) := by
      intro sub hsub
      obtain ⟨f, hf, ha, hv⟩ := hprov sub hsub
      exact ⟨f, by rw [hf]; exact List.mem_cons_self _ _, ha, hv⟩
    rw [applyApertures]
    rcases hstep : applyAperture k osSurface surfaceIndex pContent s with ⟨s2, e | u⟩
    · rw [hstep] at hfirst
      exact ⟨first, hfirst, hlift⟩
    · rw [hstep] at hfirst
      simp only at hfirst ⊢
      obtain ⟨more, hmore, hprov2⟩ := ih s2
      refine ⟨first ++ more, by rw [hmore, hfirst]; simp, ?_⟩
      intro sub hsub
      rcases List.mem_append.mp hsub with hsub | hsub
      · exact hlift sub hsub
      · obtain ⟨f, hf, ha, hv⟩ := hprov2 sub hsub
        exact ⟨f, List.mem_cons_of_mem _ hf, ha, hv⟩

theorem applyApertures_error (k : Kernel K) (osSurface : Surface K) (surfaceIndex : Nat) :
    ∀ (contents : List (Content K)) (s : SubState K),
      (∀ pContent ∈ contents, pContent ≠ .aperture none) →
      (∃ pFaceAperture, .aperture (some pFaceAperture) ∈ contents ∧
        k.Area pFaceAperture > 0.1 ∧
        NonCoplanar (orientationDot k osSurface.vertices (apertureCandidate pFaceAperture))) →
      (applyApertures k osSurface surfaceIndex contents s).2 =
        .error "There is a non-coplanar subsurface." := by
  intro contents
  induction contents with
  | nil => intro s _ h; obtain ⟨f, hf, _⟩ := h; simp at hf
  | cons pContent rest ih =>
    intro s hnull h
    have hnull2 : ∀ c ∈ rest, c ≠ Content.aperture none :=
      fun c hc => hnull c (List.mem_cons_of_mem _ hc)
    rw [applyApertures]
    rcases hstep : applyAperture k osSurface surfaceIndex pContent s with ⟨s2, e | u⟩
    · simp only
      cases pContent with
      | other => simp [applyAperture] at hstep
      | aperture topology =>
        cases topology with
        | none => exact absurd rfl (hnull _ (List.mem_cons_self _ _))
        | some f =>
          rw [applyAperture_rule] at hstep
          split_ifs at hstep <;>
            simp only [Prod.mk.injEq, Except.error.injEq, reduceCtorEq, and_false] at hstep
          rw [← hstep.2]
    · simp only
      obtain ⟨f, hf, ha, hnc⟩ := h
      rcases List.mem_cons.mp hf with hf | hf
      · subst hf
        rw [applyAperture_rule] at hstep
        have hn1 : ¬ k.Area f ≤ 0.1 := not_le.mpr ha
        have hn2 : ¬ orientationDot k osSurface.vertices (apertureCandidate f) < -0.99 :=
          not_lt.mpr (le_of_lt hnc.1)
        rw [if_neg hn1, if_neg hn2, if_pos hnc] at hstep
        simp only [Prod.mk.injEq, reduceCtorEq, and_false] at hstep
      · exact ih s2 hnull2 ⟨f, hf, ha, hnc⟩

theorem applyApertures_ok_of_all (k : Kernel K) (osSurface : Surface K) (surfaceIndex : Nat) :
    ∀ (contents : List (Content K)) (s : SubState K),
      (∀ pContent ∈ contents, pContent ≠ .aperture none) →
      (∀ pFaceAperture, .aperture (some pFaceAperture) ∈ contents →
        k.Area pFaceAperture > 0.1 →
        ¬ NonCoplanar (orientationDot k osSurface.vertices
          (apertureCandidate pFaceAperture))) →
      (applyApertures k osSurface surfaceIndex contents s).2 = .ok () := by
  intro contents
  induction contents with
  | nil => intro s _ _; rfl
  | cons pContent rest ih =>
    intro s hnull hall
    have hnull2 : ∀ c ∈ rest, c ≠ Content.aperture none :=
      fun c hc => hnull c (List.mem_cons_of_mem _ hc)
    have hall2 : ∀ f, Content.aperture (some f) ∈ rest → k.Area f > 0.1 →
        ¬ NonCoplanar (orientationDot k osSurface.vertices (apertureCandidate f)) :=
      fun f hf ha => hall f (List.mem_cons_of_mem _ hf) ha
    rw [applyApertures]
    rcases hstep : applyAperture k osSurface surfaceIndex pContent s with ⟨s2, e | u⟩
    · exfalso
      cases pContent with
      | other => simp [applyAperture] at hstep
      | aperture topology =>
        cases topology with
        | none => exact absurd rfl (hnull _ (List.mem_cons_self _ _))
        | some f =>
          rw [applyAperture_rule] at hstep
          by_cases harea : k.Area f ≤ 0.1
          · rw [if_pos harea] at hstep
            simp only [Prod.mk.injEq, reduceCtorEq, and_false] at hstep
          · have hnc := hall f (List.mem_cons_self _ _) (not_le.mp harea)
            rw [if_neg harea, if_neg hnc] at hstep
            split_ifs at hstep <;>
              simp only [Prod.mk.injEq, reduceCtorEq, and_false] at hstep
    · simp only
      exact ih s2 hnull2 hall2

end ApertureRules

section WallRun

variable {K : Type} [LinearOrderedField K]

theorem AddSurface_exterior_wall_run (k : Kernel K) (surfaceNumber : Nat)
    (buildingFace : Face K) (buildingSpace : Cell K) (osFacePoints : List (Point3d K))
    (osSpace : Space) (upVector : Vector K) (glazingRatio : Option K) (st : State K)
    (hft : (CalculateFaceType k buildingFace osFacePoints buildingSpace upVector).1 =
      .ok FACE_WALL)
    (hadj : AdjacentCellCount buildingFace < 2) (hug : IsUnderground buildingFace = false) :
    AddSurface k surfaceNumber buildingFace buildingSpace osFacePoints osSpace upVector
        glazingRatio st =
      (st.commit (exteriorWallSurface st osFacePoints osSpace surfaceNumber)
        (addWallApertures k buildingFace
          (exteriorWallSurface st osFacePoints osSpace surfaceNumber)
          st.osModel.surfaces.length glazingRatio
          ⟨[], 1, st.numOfApertures, st.numOfAppliedApertures⟩).1,
       (addWallApertures k buildingFace
          (exteriorWallSurface st osFacePoints osSpace surfaceNumber)
          st.osModel.surfaces.length glazingRatio
          ⟨[], 1, st.numOfApertures, st.numOfAppliedApertures⟩).2.map
        fun _ => exteriorWallSurface st osFacePoints osSpace surfaceNumber) :=
  AddSurface_exterior_wall k surfaceNumber buildingFace buildingSpace osFacePoints osSpace
    upVector glazingRatio st hft hadj hug _ rfl _ _ rfl

theorem applyAperture_counters_core (k : Kernel K) (osSurface : Surface K) (surfaceIndex : Nat)
    (pFaceAperture : ApertureFace K) (s : SubState K) :
    (k.Area pFaceAperture ≤ 0.1 →
      applyAperture k osSurface surfaceIndex (.aperture (some pFaceAperture)) s = (s, .ok ())) ∧
    (k.Area pFaceAperture > 0.1 →
      ¬ NonCoplanar (orientationDot k osSurface.vertices (apertureCandidate pFaceAperture)) →
      (applyAperture k osSurface surfaceIndex (.aperture (some pFaceAperture)) s).2 = .ok () ∧
      (applyAperture k osSurface surfaceIndex (.aperture (some pFaceAperture))
        s).1.numOfApertures = s.numOfApertures + 1 ∧
      ((k.grossArea (apertureFinal k osSurface.vertices pFaceAperture) > 0.1 ∧
          k.setSurfaceOk (apertureFinal k osSurface.vertices pFaceAperture)
            osSurface.vertices = true) →
        (applyAperture k osSurface surfaceIndex (.aperture (some pFaceAperture))
          s).1.numOfAppliedApertures = s.numOfAppliedApertures + 1) ∧
      (¬ (k.grossArea (apertureFinal k osSurface.vertices pFaceAperture) > 0.1 ∧
          k.setSurfaceOk (apertureFinal k osSurface.vertices pFaceAperture)
            osSurface.vertices = true) →
        (applyAperture k osSurface surfaceIndex (.aperture (some pFaceAperture))
          s).1.numOfAppliedApertures = s.numOfAppliedApertures) ∧
      (k.grossArea (apertureFinal k osSurface.vertices pFaceAperture) ≤ 0.1 →
        (applyAperture k osSurface surfaceIndex (.aperture (some pFaceAperture)) s).1.subs =
          s.subs) ∧
      (k.grossArea (apertureFinal k osSurface.vertices pFaceAperture) > 0.1 →
        ∃ sub, (applyAperture k osSurface surfaceIndex (.aperture (some pFaceAperture))
            s).1.subs = s.subs ++ [sub] ∧
          sub.vertices = apertureFinal k osSurface.vertices pFaceAperture ∧
          (sub.surface = some surfaceIndex ↔
            k.setSurfaceOk (apertureFinal k osSurface.vertices pFaceAperture)
              osSurface.vertices = true))) := by
  refine ⟨fun h => by rw [applyAperture_rule, if_pos h], fun harea hnc => ?_⟩
  have harea2 : ¬ k.Area pFaceAperture ≤ 0.1 := not_le.mpr harea
  have key : applyAperture k osSurface surfaceIndex (.aperture (some pFaceAperture)) s =
      (attachAperture k osSurface surfaceIndex
        (SubSurface.new (apertureFinal k osSurface.vertices pFaceAperture)) s, .ok ()) := by
    rw [applyAperture_rule, if_neg harea2, if_neg hnc]
    unfold apertureFinal
    split_ifs <;> rfl
  rw [key]
  obtain ⟨h1, h2, h3, h4⟩ := attachAperture_facts k osSurface surfaceIndex
    (apertureFinal k osSurface.vertices pFaceAperture) s
  refine ⟨rfl, h1, fun hc => ?_, fun hc => ?_, h3, h4⟩
  · rw [h2, if_pos hc]
  · rw [h2, if_neg hc, add_zero]

theorem AddSurface_aperture_counts (k : Kernel K) (surfaceNumber : Nat)
    (buildingFace : Face K) (buildingSpace : Cell K) (osFacePoints : List (Point3d K))
    (osSpace : Space) (upVector : Vector K) (st : State K)
    (hft : (CalculateFaceType k buildingFace osFacePoints buildingSpace upVector).1 =
      .ok FACE_WALL)
    (hadj : AdjacentCellCount buildingFace < 2) (hug : IsUnderground buildingFace = false)
    (osSurface : Surface K)
    (hok : (AddSurface k surfaceNumber buildingFace buildingSpace osFacePoints osSpace upVector
      none st).2 = .ok osSurface) :
    (AddSurface k surfaceNumber buildingFace buildingSpace osFacePoints osSpace upVector
      none st).1.numOfApertures =
      st.numOfApertures + (buildingFace.Contents.countP (isCandidate k) : Nat) ∧
    (AddSurface k surfaceNumber buildingFace buildingSpace osFacePoints osSpace upVector
      none st).1.numOfAppliedApertures =
      st.numOfAppliedApertures +
        (buildingFace.Contents.countP (isApplied k osFacePoints) : Nat) := by
  rw [AddSurface_exterior_wall_run k surfaceNumber buildingFace buildingSpace osFacePoints
    osSpace upVector none st hft hadj hug] at hok ⊢
  simp only [addWallApertures] at hok ⊢
  have hres : (applyApertures k (exteriorWallSurface st osFacePoints osSpace surfaceNumber)
      st.osModel.surfaces.length buildingFace.Contents
      ⟨[], 1, st.numOfApertures, st.numOfAppliedApertures⟩).2 = .ok () := by
    cases h : (applyApertures k (exteriorWallSurface st osFacePoints osSpace surfaceNumber)
      st.osModel.surfaces.length buildingFace.Contents
      ⟨[], 1, st.numOfApertures, st.numOfAppliedApertures⟩).2 with
    | error e => rw [h] at hok; cases hok
    | ok u => rfl
  have := applyApertures_counts k (exteriorWallSurface st osFacePoints osSpace surfaceNumber)
    st.osModel.surfaces.length buildingFace.Contents
    ⟨[], 1, st.numOfApertures, st.numOfAppliedApertures⟩ _ (Prod.ext rfl hres)
  exact this

end WallRun

section ConcreteApertures

theorem abs_half : |(1 / 2 : ℚ)| = 1 / 2 := abs_of_pos (by norm_num)

theorem abs_fiftieth : |(1 / 50 : ℚ)| = 1 / 50 := abs_of_pos (by norm_num)

theorem southLoop_normal :
    boxKernel.outwardNormal (GetFacePoints (southFace : Face ℚ)) = ⟨0, -1, 0⟩ := by
  norm_num [boxKernel, GetFacePoints, southFace, cubeFace, newell, newellFrom, normalizeAxis,
    Vertex.toPoint3d,
    Vector.l1, Vector.Cross, Vector.Add, Vector.Scale, Point3d.toVector]

theorem windowAperture_area : boxKernel.Area windowAperture = 1 / 4 := by
  norm_num [abs_half, boxKernel, windowAperture, newell, newellFrom, Vertex.toPoint3d,
    Vector.l1, Vector.Cross, Vector.Add, Point3d.toVector]

theorem flippedAperture_area : boxKernel.Area flippedAperture = 1 / 4 := by
  norm_num [abs_half, boxKernel, flippedAperture, newell, newellFrom, Vertex.toPoint3d,
    Vector.l1, Vector.Cross, Vector.Add, Point3d.toVector]

theorem tinyAperture_area : boxKernel.Area tinyAperture = 1 / 100 := by
  norm_num [abs_fiftieth, boxKernel, tinyAperture, newell, newellFrom, Vertex.toPoint3d,
    Vector.l1, Vector.Cross, Vector.Add, Point3d.toVector]

theorem tiltedAperture_area : boxKernel.Area tiltedAperture = 1 / 4 := by
  norm_num [abs_half, boxKernel, tiltedAperture, newell, newellFrom, Vertex.toPoint3d,
    Vector.l1, Vector.Cross, Vector.Add, Point3d.toVector]

theorem windowAperture_normal :
    boxKernel.outwardNormal (apertureCandidate windowAperture) = ⟨0, -1, 0⟩ := by
  norm_num [abs_half, boxKernel, apertureCandidate, windowAperture, newell, newellFrom, normalizeAxis,
    Vertex.toPoint3d, Vector.l1, Vector.Cross, Vector.Add, Vector.Scale, Point3d.toVector]

theorem flippedAperture_normal :
    boxKernel.outwardNormal (apertureCandidate flippedAperture) = ⟨0, 1, 0⟩ := by
  norm_num [abs_half, boxKernel, apertureCandidate, flippedAperture, newell, newellFrom, normalizeAxis,
    Vertex.toPoint3d, Vector.l1, Vector.Cross, Vector.Add, Vector.Scale, Point3d.toVector]

theorem tiltedAperture_normal :
    boxKernel.outwardNormal (apertureCandidate tiltedAperture) = ⟨0, 0, 1⟩ := by
  norm_num [abs_half, boxKernel, apertureCandidate, tiltedAperture, newell, newellFrom, normalizeAxis,
    Vertex.toPoint3d, Vector.l1, Vector.Cross, Vector.Add, Vector.Scale, Point3d.toVector]

theorem windowAperture_dot :
    orientationDot boxKernel (GetFacePoints (southFace : Face ℚ))
      (apertureCandidate windowAperture) = 1 := by
  rw [orientationDot, southLoop_normal, windowAperture_normal]
  norm_num [Vector.dot]

theorem flippedAperture_dot :
    orientationDot boxKernel (GetFacePoints (southFace : Face ℚ))
      (apertureCandidate flippedAperture) = -1 := by
  rw [orientationDot, southLoop_normal, flippedAperture_normal]
  norm_num [Vector.dot]

theorem tiltedAperture_dot :
    orientationDot boxKernel (GetFacePoints (southFace : Face ℚ))
      (apertureCandidate tiltedAperture) = 0 := by
  rw [orientationDot, southLoop_normal, tiltedAperture_normal]
  norm_num [Vector.dot]

theorem glazedSouthFace_type :
    (CalculateFaceType boxKernel glazedSouthFace (GetFacePoints glazedSouthFace) unitCube
      zAxis).1 = .ok FACE_WALL :=
  southFace_type

theorem tiltedSouthFace_type :
    (CalculateFaceType boxKernel tiltedSouthFace (GetFacePoints tiltedSouthFace) unitCube
      zAxis).1 = .ok FACE_WALL :=
  southFace_type

end ConcreteApertures

section OrientationRule

variable {K : Type} [LinearOrderedField K]

theorem synthesizeWindow_cases (k : Kernel K) (osSurface : Surface K) (surfaceIndex : Nat)
    (first b c : Vertex K) (s : SubState K) :
    (orientationDot k osSurface.vertices (windowCandidate k first b c) < -0.99 →
      (synthesizeWindow k osSurface surfaceIndex first b c s).2 = .ok () ∧
      ∃ sub, (synthesizeWindow k osSurface surfaceIndex first b c s).1.subs = s.subs ++ [sub] ∧
        sub.vertices = (windowCandidate k first b c).reverse) ∧
    (NonCoplanar (orientationDot k osSurface.vertices (windowCandidate k first b c)) →
      (synthesizeWindow k osSurface surfaceIndex first b c s).2 =
        .error "There is a non-coplanar subsurface.") ∧
    (¬ orientationDot k osSurface.vertices (windowCandidate k first b c) < -0.99 →
      ¬ NonCoplanar (orientationDot k osSurface.vertices (windowCandidate k first b c)) →
      (synthesizeWindow k osSurface surfaceIndex first b c s).2 = .ok () ∧
      ∃ sub, (synthesizeWindow k osSurface surfaceIndex first b c s).1.subs = s.subs ++ [sub] ∧
        sub.vertices = windowCandidate k first b c) := by
  refine ⟨fun h => ?_, fun h => ?_, fun h1 h2 => ?_⟩
  · rw [synthesizeWindow_rule, if_pos h]
    obtain ⟨sub, hs, hv, _⟩ := attachWindow_subs k osSurface surfaceIndex
      (windowCandidate k first b c).reverse s
    exact ⟨rfl, sub, hs, hv⟩
  · have h1 : ¬ orientationDot k osSurface.vertices (windowCandidate k first b c) < -0.99 :=
      not_lt.mpr (le_of_lt h.1)
    rw [synthesizeWindow_rule, if_neg h1, if_pos h]
  · rw [synthesizeWindow_rule, if_neg h1, if_neg h2]
    obtain ⟨sub, hs, hv, _⟩ := attachWindow_subs k osSurface surfaceIndex
      (windowCandidate k first b c) s
    exact ⟨rfl, sub, hs, hv⟩

theorem apertureFinal_flipped (k : Kernel K) (parent : List (Point3d K))
    (pFaceAperture : ApertureFace K)
    (h : orientationDot k parent (apertureCandidate pFaceAperture) < -0.99) :
    apertureFinal k parent pFaceAperture = (apertureCandidate pFaceAperture).reverse := by
  rw [apertureFinal, if_pos h]

theorem apertureFinal_kept (k : Kernel K) (parent : List (Point3d K))
    (pFaceAperture : ApertureFace K)
    (h : ¬ orientationDot k parent (apertureCandidate pFaceAperture) < -0.99) :
    apertureFinal k parent pFaceAperture = apertureCandidate pFaceAperture := by
  rw [apertureFinal, if_neg h]

theorem applyAperture_cases (k : Kernel K) (osSurface : Surface K) (surfaceIndex : Nat)
    (pFaceAperture : ApertureFace K) (s : SubState K) (harea : k.Area pFaceAperture > 0.1) :
    (orientationDot k osSurface.vertices (apertureCandidate pFaceAperture) < -0.99 →
      (applyAperture k osSurface surfaceIndex (.aperture (some pFaceAperture)) s).2 = .ok () ∧
      (k.grossArea (apertureCandidate pFaceAperture).reverse ≤ 0.1 →
        (applyAperture k osSurface surfaceIndex (.aperture (some pFaceAperture)) s).1.subs =
          s.subs) ∧
      (k.grossArea (apertureCandidate pFaceAperture).reverse > 0.1 →
        ∃ sub, (applyAperture k osSurface surfaceIndex (.aperture (some pFaceAperture))
            s).1.subs = s.subs ++ [sub] ∧
          sub.vertices = (apertureCandidate pFaceAperture).reverse)) ∧
    (NonCoplanar (orientationDot k osSurface.vertices (apertureCandidate pFaceAperture)) →
      (applyAperture k osSurface surfaceIndex (.aperture (some pFaceAperture)) s).2 =
        .error "There is a non-coplanar subsurface.") ∧
    (¬ orientationDot k osSurface.vertices (apertureCandidate pFaceAperture) < -0.99 →
      ¬ NonCoplanar (orientationDot k osSurface.vertices (apertureCandidate pFaceAperture)) →
      (applyAperture k osSurface surfaceIndex (.aperture (some pFaceAperture)) s).2 = .ok () ∧
      (k.grossArea (apertureCandidate pFaceAperture) ≤ 0.1 →
        (applyAperture k osSurface surfaceIndex (.aperture (some pFaceAperture)) s).1.subs =
          s.subs) ∧
      (k.grossArea (apertureCandidate pFaceAperture) > 0.1 →
        ∃ sub, (applyAperture k osSurface surfaceIndex (.aperture (some pFaceAperture))
            s).1.subs = s.subs ++ [sub] ∧
          sub.vertices = apertureCandidate pFaceAperture)) := by
  have harea2 : ¬ k.Area pFaceAperture ≤ 0.1 := not_le.mpr harea
  refine ⟨fun h => ?_, fun h => ?_, fun h1 h2 => ?_⟩
  · have hnc : ¬ NonCoplanar
        (orientationDot k osSurface.vertices (apertureCandidate pFaceAperture)) :=
      fun hc => absurd h (not_lt.mpr (le_of_lt hc.1))
    obtain ⟨hok, _, _, _, hsmall, hbig⟩ :=
      (applyAperture_counters_core k osSurface surfaceIndex pFaceAperture s).2 harea hnc
    rw [apertureFinal_flipped k _ _ h] at hsmall hbig
    exact ⟨hok, hsmall, fun hg => by
      obtain ⟨sub, hs, hv, _⟩ := hbig hg
      exact ⟨sub, hs, hv⟩⟩
  · have h1 : ¬ orientationDot k osSurface.vertices (apertureCandidate pFaceAperture) < -0.99 :=
      not_lt.mpr (le_of_lt h.1)
    rw [applyAperture_rule, if_neg harea2, if_neg h1, if_pos h]
  · obtain ⟨hok, _, _, _, hsmall, hbig⟩ :=
      (applyAperture_counters_core k osSurface surfaceIndex pFaceAperture s).2 harea h2
    rw [apertureFinal_kept k _ _ h1] at hsmall hbig
    exact ⟨hok, hsmall, fun hg => by
      obtain ⟨sub, hs, hv, _⟩ := hbig hg
      exact ⟨sub, hs, hv⟩⟩

theorem AddSurface_ratio_outcome (k : Kernel K) (surfaceNumber : Nat)
    (buildingFace : Face K) (buildingSpace : Cell K) (osFacePoints : List (Point3d K))
    (osSpace : Space) (upVector : Vector K) (st : State K)
    (hft : (CalculateFaceType k buildingFace osFacePoints buildingSpace upVector).1 =
      .ok FACE_WALL)
    (hadj : AdjacentCellCount buildingFace < 2) (hug : IsUnderground buildingFace = false)
    (value : K) (hpos : 0 < value) (hle : value ≤ 1)
    (first : Vertex K) (rest : List (Vertex K))
    (hscaled : ScaleFaceVertices k buildingFace value = .ok (first :: rest)) :
    ((∃ pair ∈ consecutivePairs rest,
        NonCoplanar (orientationDot k osFacePoints (windowCandidate k first pair.1 pair.2))) →
      (AddSurface k surfaceNumber buildingFace buildingSpace osFacePoints osSpace upVector
        (some value) st).2 = .error "There is a non-coplanar subsurface.") ∧
    ((∀ pair ∈ consecutivePairs rest,
        ¬ NonCoplanar (orientationDot k osFacePoints (windowCandidate k first pair.1 pair.2))) →
      (AddSurface k surfaceNumber buildingFace buildingSpace osFacePoints osSpace upVector
        (some value) st).2 = .ok (exteriorWallSurface st osFacePoints osSpace surfaceNumber)) := by
  have hzero : (0.0 : K) = 0 := by norm_num
  have hone : (1.0 : K) = 1 := by norm_num
  have hrange : ¬ (value < 0.0 ∨ value > 1.0) := by
    rw [hzero, hone]
    intro h
    rcases h with h | h
    · exact absurd hpos (not_lt.mpr (le_of_lt h))
    · exact absurd hle (not_le.mpr h)
  have hin : value > 0.0 ∧ value ≤ 1.0 := by
    rw [hzero, hone]
    exact ⟨hpos, hle⟩
  rw [AddSurface_exterior_wall_run k surfaceNumber buildingFace buildingSpace osFacePoints
    osSpace upVector (some value) st hft hadj hug]
  simp only [addWallApertures, if_neg hrange, if_pos hin, hscaled]
  refine ⟨fun h => ?_, fun h => ?_⟩
  · rw [synthesizeWindows_error k _ _ first rest _ h]
    rfl
  · rw [synthesizeWindows_ok_of_all k _ _ first rest _ h]
    rfl

theorem AddSurface_aperture_outcome (k : Kernel K) (surfaceNumber : Nat)
    (buildingFace : Face K) (buildingSpace : Cell K) (osFacePoints : List (Point3d K))
    (osSpace : Space) (upVector : Vector K) (st : State K)
    (hft : (CalculateFaceType k buildingFace osFacePoints buildingSpace upVector).1 =
      .ok FACE_WALL)
    (hadj : AdjacentCellCount buildingFace < 2) (hug : IsUnderground buildingFace = false)
    (hnull : ∀ pContent ∈ buildingFace.Contents, pContent ≠ .aperture none) :
    ((∃ pFaceAperture, .aperture (some pFaceAperture) ∈ buildingFace.Contents ∧
        k.Area pFaceAperture > 0.1 ∧
        NonCoplanar (orientationDot k osFacePoints (apertureCandidate pFaceAperture))) →
      (AddSurface k surfaceNumber buildingFace buildingSpace osFacePoints osSpace upVector
        none st).2 = .error "There is a non-coplanar subsurface.") ∧
    ((∀ pFaceAperture, .aperture (some pFaceAperture) ∈ buildingFace.Contents →
        k.Area pFaceAperture > 0.1 →
        ¬ NonCoplanar (orientationDot k osFacePoints (apertureCandidate pFaceAperture))) →
      (AddSurface k surfaceNumber buildingFace buildingSpace osFacePoints osSpace upVector
        none st).2 = .ok (exteriorWallSurface st osFacePoints osSpace surfaceNumber)) := by
  rw [AddSurface_exterior_wall_run k surfaceNumber buildingFace buildingSpace osFacePoints
    osSpace upVector none st hft hadj hug]
  simp only [addWallApertures]
  refine ⟨fun h => ?_, fun h => ?_⟩
  · rw [applyApertures_error k _ _ buildingFace.Contents _ hnull h]
    rfl
  · rw [applyApertures_ok_of_all k _ _ buildingFace.Contents _ hnull h]
    rfl

end OrientationRule

section OrientationClaims

variable {K : Type} [LinearOrderedField K]

/-- C13: for a candidate sub-surface with `d` the dot product of its outward
normal and the outward normal of the parent wall, on the ratio-synthesis path
(a re-scaled fan triangle) and on the explicit-aperture path (an aperture of
area above 0.1) alike: if `d < -0.99` the step succeeds and the sub-surface
left in the model carries the reversed vertex order; if `-0.99 < d < 0.99` the
step fails with the non-coplanar error; otherwise the step succeeds and the
sub-surface carries the vertex order as given.  On the aperture path the
sub-surface stays in the model only when its gross area is above 0.1.  For a
face classified Wall with fewer than two adjacent cells and not underground,
`AddSurface` fails with the non-coplanar error as soon as one candidate has
`-0.99 < d < 0.99`, and returns the Surface when no candidate has. -/
theorem subsurface_orientation_rule (k : Kernel K) (surfaceNumber : Nat)
    (buildingFace : Face K) (buildingSpace : Cell K) (osFacePoints : List (Point3d K))
    (osSpace : Space) (upVector : Vector K) (st : State K) :
    (∀ (osSurface : Surface K) (surfaceIndex : Nat) (first b c : Vertex K) (s : SubState K),
      (orientationDot k osSurface.vertices (windowCandidate k first b c) < -0.99 →
        (synthesizeWindow k osSurface surfaceIndex first b c s).2 = .ok () ∧
        ∃ sub, (synthesizeWindow k osSurface surfaceIndex first b c s).1.subs =
            s.subs ++ [sub] ∧
          sub.vertices = (windowCandidate k first b c).reverse) ∧
      (NonCoplanar (orientationDot k osSurface.vertices (windowCandidate k first b c)) →
        (synthesizeWindow k osSurface surfaceIndex first b c s).2 =
          .error "There is a non-coplanar subsurface.") ∧
      (¬ orientationDot k osSurface.vertices (windowCandidate k first b c) < -0.99 →
        ¬ NonCoplanar (orientationDot k osSurface.vertices (windowCandidate k first b c)) →
        (synthesizeWindow k osSurface surfaceIndex first b c s).2 = .ok () ∧
        ∃ sub, (synthesizeWindow k osSurface surfaceIndex first b c s).1.subs =
            s.subs ++ [sub] ∧
          sub.vertices = windowCandidate k first b c)) ∧
    (∀ (osSurface : Surface K) (surfaceIndex : Nat) (pFaceAperture : ApertureFace K)
        (s : SubState K), k.Area pFaceAperture > 0.1 →
      (orientationDot k osSurface.vertices (apertureCandidate pFaceAperture) < -0.99 →
        (applyAperture k osSurface surfaceIndex (.aperture (some pFaceAperture)) s).2 =
          .ok () ∧
        (k.grossArea (apertureCandidate pFaceAperture).reverse ≤ 0.1 →
          (applyAperture k osSurface surfaceIndex (.aperture (some pFaceAperture)) s).1.subs =
            s.subs) ∧
        (k.grossArea (apertureCandidate pFaceAperture).reverse > 0.1 →
          ∃ sub, (applyAperture k osSurface surfaceIndex (.aperture (some pFaceAperture))
              s).1.subs = s.subs ++ [sub] ∧
            sub.vertices = (apertureCandidate pFaceAperture).reverse)) ∧
      (NonCoplanar (orientationDot k osSurface.vertices (apertureCandidate pFaceAperture)) →
        (applyAperture k osSurface surfaceIndex (.aperture (some pFaceAperture)) s).2 =
          .error "There is a non-coplanar subsurface.") ∧
      (¬ orientationDot k osSurface.vertices (apertureCandidate pFaceAperture) < -0.99 →
        ¬ NonCoplanar (orientationDot k osSurface.vertices (apertureCandidate pFaceAperture)) →
        (applyAperture k osSurface surfaceIndex (.aperture (some pFaceAperture)) s).2 =
          .ok () ∧
        (k.grossArea (apertureCandidate pFaceAperture) ≤ 0.1 →
          (applyAperture k osSurface surfaceIndex (.aperture (some pFaceAperture)) s).1.subs =
            s.subs) ∧
        (k.grossArea (apertureCandidate pFaceAperture) > 0.1 →
          ∃ sub, (applyAperture k osSurface surfaceIndex (.aperture (some pFaceAperture))
              s).1.subs = s.subs ++ [sub] ∧
            sub.vertices = apertureCandidate pFaceAperture))) ∧
    ((CalculateFaceType k buildingFace osFacePoints buildingSpace upVector).1 = .ok FACE_WALL →
      AdjacentCellCount buildingFace < 2 → IsUnderground buildingFace = false →
      (∀ (value : K) (first : Vertex K) (rest : List (Vertex K)), 0 < value → value ≤ 1 →
        ScaleFaceVertices k buildingFace value = .ok (first :: rest) →
        ((∃ pair ∈ consecutivePairs rest,
            NonCoplanar (orientationDot k osFacePoints
              (windowCandidate k first pair.1 pair.2))) →
          (AddSurface k surfaceNumber buildingFace buildingSpace osFacePoints osSpace upVector
            (some value) st).2 = .error "There is a non-coplanar subsurface.") ∧
        ((∀ pair ∈ consecutivePairs rest,
            ¬ NonCoplanar (orientationDot k osFacePoints
              (windowCandidate k first pair.1 pair.2))) →
          (AddSurface k surfaceNumber buildingFace buildingSpace osFacePoints osSpace upVector
            (some value) st).2 =
            .ok (exteriorWallSurface st osFacePoints osSpace surfaceNumber))) ∧
      ((∀ pContent ∈ buildingFace.Contents, pContent ≠ .aperture none) →
        ((∃ pFaceAperture, .aperture (some pFaceAperture) ∈ buildingFace.Contents ∧
            k.Area pFaceAperture > 0.1 ∧
            NonCoplanar (orientationDot k osFacePoints (apertureCandidate pFaceAperture))) →
          (AddSurface k surfaceNumber buildingFace buildingSpace osFacePoints osSpace upVector
            none st).2 = .error "There is a non-coplanar subsurface.") ∧
        ((∀ pFaceAperture, .aperture (some pFaceAperture) ∈ buildingFace.Contents →
            k.Area pFaceAperture > 0.1 →
            ¬ NonCoplanar (orientationDot k osFacePoints (apertureCandidate pFaceAperture))) →
          (AddSurface k surfaceNumber buildingFace buildingSpace osFacePoints osSpace upVector
            none st).2 = .ok (exteriorWallSurface st osFacePoints osSpace surfaceNumber)))) :=
  ⟨fun osSurface surfaceIndex first b c s =>
      synthesizeWindow_cases k osSurface surfaceIndex first b c s,
    fun osSurface surfaceIndex pFaceAperture s harea =>
      applyAperture_cases k osSurface surfaceIndex pFaceAperture s harea,
    fun hft hadj hug =>
      ⟨fun value first rest hpos hle hscaled =>
          AddSurface_ratio_outcome k surfaceNumber buildingFace buildingSpace osFacePoints
            osSpace upVector st hft hadj hug value hpos hle first rest hscaled,
        fun hnull =>
          AddSurface_aperture_outcome k surfaceNumber buildingFace buildingSpace osFacePoints
            osSpace upVector st hft hadj hug hnull⟩⟩

theorem flippedAperture_gross :
    boxKernel.grossArea (apertureCandidate (flippedAperture : ApertureFace ℚ)).reverse =
      1 / 4 := by
  norm_num [abs_half, boxKernel, apertureCandidate, flippedAperture, newell, newellFrom,
    Vertex.toPoint3d, Vector.l1, Vector.Cross, Vector.Add, Point3d.toVector]

theorem windowAperture_gross :
    boxKernel.grossArea (apertureCandidate (windowAperture : ApertureFace ℚ)) = 1 / 4 := by
  norm_num [abs_half, boxKernel, apertureCandidate, windowAperture, newell, newellFrom,
    Vertex.toPoint3d, Vector.l1, Vector.Cross, Vector.Add, Point3d.toVector]

/-- Witness of `subsurface_orientation_rule` on the south wall of the unit
cube: an aperture wound against the wall (`d = -1`) is attached with the
reversed vertex order, and a horizontal aperture (`d = 0`) makes `AddSurface`
fail with the non-coplanar error. -/
theorem subsurface_orientation_rule_witness :
    (∃ sub, (applyAperture boxKernel
        (exteriorWallSurface emptyState (GetFacePoints (southFace : Face ℚ))
          ⟨"STORY_1_SPACE_1"⟩ 1) 0 (.aperture (some flippedAperture))
        ⟨[], 1, 0, 0⟩).1.subs = [] ++ [sub] ∧
      sub.vertices = (apertureCandidate flippedAperture).reverse) ∧
    (AddSurface boxKernel 1 tiltedSouthFace unitCube (GetFacePoints tiltedSouthFace)
      ⟨"STORY_1_SPACE_1"⟩ zAxis none emptyState).2 =
      .error "There is a non-coplanar subsurface." :=
  ⟨((((subsurface_orientation_rule boxKernel 1 tiltedSouthFace unitCube
        (GetFacePoints tiltedSouthFace) ⟨"STORY_1_SPACE_1"⟩ zAxis emptyState).2.1
      (exteriorWallSurface emptyState (GetFacePoints (southFace : Face ℚ))
        ⟨"STORY_1_SPACE_1"⟩ 1) 0 flippedAperture ⟨[], 1, 0, 0⟩
      (by rw [flippedAperture_area]; norm_num)).1
      (by
        show orientationDot boxKernel (GetFacePoints (southFace : Face ℚ))
          (apertureCandidate flippedAperture) < -0.99
        rw [flippedAperture_dot]; norm_num)).2.2
      (by rw [flippedAperture_gross]; norm_num)),
    (((subsurface_orientation_rule boxKernel 1 tiltedSouthFace unitCube
        (GetFacePoints tiltedSouthFace) ⟨"STORY_1_SPACE_1"⟩ zAxis emptyState).2.2
      tiltedSouthFace_type (by decide) southFace_not_underground).2
      (by
        intro pContent h
        simp only [tiltedSouthFace, List.mem_singleton] at h
        rw [h]
        simp)).1
      ⟨tiltedAperture, by simp [tiltedSouthFace],
        by rw [tiltedAperture_area]; norm_num,
        by
          show NonCoplanar (orientationDot boxKernel (GetFacePoints (southFace : Face ℚ))
            (apertureCandidate tiltedAperture))
          rw [tiltedAperture_dot]
          constructor <;> norm_num⟩⟩

end OrientationClaims

section CounterClaims

variable {K : Type} [LinearOrderedField K]

/-- C14: on the explicit-aperture path an aperture of area at most 0.1 is
skipped: the step succeeds and leaves the sub-surfaces and both counters as
they were.  A candidate of area above 0.1 that passes the orientation check
raises the total-aperture counter by exactly one; it raises the applied counter
by exactly one when the gross area of its final loop is above 0.1 and
`setSurface` succeeds, and leaves the applied counter unchanged otherwise; with
a gross area of at most 0.1 no sub-surface of it stays in the model, with a
gross area above 0.1 exactly one does, attached to the parent exactly when
`setSurface` succeeds.  Hence when `AddSurface` returns for a face classified
Wall with fewer than two adjacent cells and not underground and no ratio is
supplied, the total counter has grown by the number of candidates among the
contents and the applied counter by the number of applied candidates. -/
theorem aperture_counters (k : Kernel K) (surfaceNumber : Nat)
    (buildingFace : Face K) (buildingSpace : Cell K) (osFacePoints : List (Point3d K))
    (osSpace : Space) (upVector : Vector K) (st : State K) :
    (∀ (osSurface : Surface K) (surfaceIndex : Nat) (pFaceAperture : ApertureFace K)
        (s : SubState K),
      (k.Area pFaceAperture ≤ 0.1 →
        applyAperture k osSurface surfaceIndex (.aperture (some pFaceAperture)) s =
          (s, .ok ())) ∧
      (k.Area pFaceAperture > 0.1 →
        ¬ NonCoplanar (orientationDot k osSurface.vertices (apertureCandidate pFaceAperture)) →
        (applyAperture k osSurface surfaceIndex (.aperture (some pFaceAperture)) s).2 =
          .ok () ∧
        (applyAperture k osSurface surfaceIndex (.aperture (some pFaceAperture))
          s).1.numOfApertures = s.numOfApertures + 1 ∧
        ((k.grossArea (apertureFinal k osSurface.vertices pFaceAperture) > 0.1 ∧
            k.setSurfaceOk (apertureFinal k osSurface.vertices pFaceAperture)
              osSurface.vertices = true) →
          (applyAperture k osSurface surfaceIndex (.aperture (some pFaceAperture))
            s).1.numOfAppliedApertures = s.numOfAppliedApertures + 1) ∧
        (¬ (k.grossArea (apertureFinal k osSurface.vertices pFaceAperture) > 0.1 ∧
            k.setSurfaceOk (apertureFinal k osSurface.vertices pFaceAperture)
              osSurface.vertices = true) →
          (applyAperture k osSurface surfaceIndex (.aperture (some pFaceAperture))
            s).1.numOfAppliedApertures = s.numOfAppliedApertures) ∧
        (k.grossArea (apertureFinal k osSurface.vertices pFaceAperture) ≤ 0.1 →
          (applyAperture k osSurface surfaceIndex (.aperture (some pFaceAperture)) s).1.subs =
            s.subs) ∧
        (k.grossArea (apertureFinal k osSurface.vertices pFaceAperture) > 0.1 →
          ∃ sub, (applyAperture k osSurface surfaceIndex (.aperture (some pFaceAperture))
              s).1.subs = s.subs ++ [sub] ∧
            sub.vertices = apertureFinal k osSurface.vertices pFaceAperture ∧
            (sub.surface = some surfaceIndex ↔
              k.setSurfaceOk (apertureFinal k osSurface.vertices pFaceAperture)
                osSurface.vertices = true)))) ∧
    ((CalculateFaceType k buildingFace osFacePoints buildingSpace upVector).1 = .ok FACE_WALL →
      AdjacentCellCount buildingFace < 2 → IsUnderground buildingFace = false →
      ∀ osSurface : Surface K,
        (AddSurface k surfaceNumber buildingFace buildingSpace osFacePoints osSpace upVector
          none st).2 = .ok osSurface →
        (AddSurface k surfaceNumber buildingFace buildingSpace osFacePoints osSpace upVector
          none st).1.numOfApertures =
          st.numOfApertures + (buildingFace.Contents.countP (isCandidate k) : Nat) ∧
        (AddSurface k surfaceNumber buildingFace buildingSpace osFacePoints osSpace upVector
          none st).1.numOfAppliedApertures =
          st.numOfAppliedApertures +
            (buildingFace.Contents.countP (isApplied k osFacePoints) : Nat)) :=
  ⟨fun osSurface surfaceIndex pFaceAperture s =>
      applyAperture_counters_core k osSurface surfaceIndex pFaceAperture s,
    fun hft hadj hug osSurface hok =>
      AddSurface_aperture_counts k surfaceNumber buildingFace buildingSpace osFacePoints
        osSpace upVector st hft hadj hug osSurface hok⟩

theorem glazedSouthFace_ok :
    (AddSurface boxKernel 1 glazedSouthFace unitCube (GetFacePoints glazedSouthFace)
      ⟨"STORY_1_SPACE_1"⟩ zAxis none emptyState).2 =
      .ok (exteriorWallSurface emptyState (GetFacePoints glazedSouthFace)
        ⟨"STORY_1_SPACE_1"⟩ 1) := by
  refine (AddSurface_aperture_outcome boxKernel 1 glazedSouthFace unitCube
    (GetFacePoints glazedSouthFace) ⟨"STORY_1_SPACE_1"⟩ zAxis emptyState glazedSouthFace_type
    (by decide) southFace_not_underground ?_).2 ?_
  · intro pContent h
    simp only [glazedSouthFace, List.mem_cons, List.mem_singleton] at h
    rcases h with h | h | h | h | h <;> first | (rw [h]; simp) | simp at h
  · intro pFaceAperture h harea
    simp only [glazedSouthFace, List.mem_cons, List.mem_singleton, Content.aperture.injEq,
      Option.some.injEq, reduceCtorEq, false_or, List.not_mem_nil, or_false] at h
    have hd : orientationDot boxKernel (GetFacePoints (glazedSouthFace : Face ℚ))
        (apertureCandidate pFaceAperture) =
        orientationDot boxKernel (GetFacePoints (southFace : Face ℚ))
          (apertureCandidate pFaceAperture) := rfl
    rw [hd]
    rcases h with h | h | h
    · rw [h, windowAperture_dot]
      intro hc
      exact absurd hc.2 (by norm_num)
    · rw [h, tinyAperture_area] at harea
      exact absurd harea (by norm_num)
    · rw [h, flippedAperture_dot]
      intro hc
      exact absurd hc.1 (by norm_num)

theorem glazedSouthFace_candidates :
    (glazedSouthFace : Face ℚ).Contents.countP (isCandidate boxKernel) = 2 := by
  simp [glazedSouthFace, isCandidate, windowAperture_area, tinyAperture_area,
    flippedAperture_area, List.countP_cons]
  norm_num

theorem glazedSouthFace_applied :
    (glazedSouthFace : Face ℚ).Contents.countP
      (isApplied boxKernel (GetFacePoints (glazedSouthFace : Face ℚ))) = 2 := by
  have hg : GetFacePoints (glazedSouthFace : Face ℚ) = GetFacePoints (southFace : Face ℚ) := rfl
  have hw : apertureFinal boxKernel (GetFacePoints (southFace : Face ℚ)) windowAperture =
      apertureCandidate windowAperture := by
    rw [apertureFinal, windowAperture_dot, if_neg (by norm_num)]
  have hf : apertureFinal boxKernel (GetFacePoints (southFace : Face ℚ)) flippedAperture =
      (apertureCandidate flippedAperture).reverse := by
    rw [apertureFinal, flippedAperture_dot, if_pos (by norm_num)]
  have hset : ∀ a b, boxKernel.setSurfaceOk a b = true := fun _ _ => rfl
  rw [hg]
  simp [glazedSouthFace, isApplied, hw, hf, hset, windowAperture_area, tinyAperture_area,
    flippedAperture_area, windowAperture_gross, flippedAperture_gross, List.countP_cons]
  norm_num

/-- Witness of `aperture_counters`: the south wall of the unit cube carrying a
window, a content that is no aperture, a window below the area filter and a
window wound the other way; `AddSurface` returns and both counters have gone
from 0 to 2. -/
theorem aperture_counters_witness :
    (AddSurface boxKernel 1 glazedSouthFace unitCube (GetFacePoints glazedSouthFace)
      ⟨"STORY_1_SPACE_1"⟩ zAxis none emptyState).1.numOfApertures = 0 + (2 : Nat) ∧
    (AddSurface boxKernel 1 glazedSouthFace unitCube (GetFacePoints glazedSouthFace)
      ⟨"STORY_1_SPACE_1"⟩ zAxis none emptyState).1.numOfAppliedApertures = 0 + (2 : Nat) := by
  have h := (aperture_counters boxKernel 1 glazedSouthFace unitCube
    (GetFacePoints glazedSouthFace) ⟨"STORY_1_SPACE_1"⟩ zAxis emptyState).2
    glazedSouthFace_type (by decide) southFace_not_underground _ glazedSouthFace_ok
  rw [glazedSouthFace_candidates, glazedSouthFace_applied] at h
  exact h

end CounterClaims

section StrategyClaims

variable {K : Type} [LinearOrderedField K]

theorem addWallApertures_ratio_created (k : Kernel K) (buildingFace : Face K)
    (osSurface : Surface K) (surfaceIndex : Nat) (value : K) (s : SubState K)
    (hlo : 0 ≤ value) (hhi : value ≤ 1) :
    ∃ created,
      (addWallApertures k buildingFace osSurface surfaceIndex (some value) s).1.subs =
        s.subs ++ created ∧
      (value = 0 → created = []) ∧
      (∀ sub ∈ created, ∃ first rest, ∃ pair ∈ consecutivePairs rest,
        ScaleFaceVertices k buildingFace value = .ok (first :: rest) ∧
        (sub.vertices = windowCandidate k first pair.1 pair.2 ∨
          sub.vertices = (windowCandidate k first pair.1 pair.2).reverse)) ∧
      (addWallApertures k buildingFace osSurface surfaceIndex (some value) s).1.numOfApertures =
        s.numOfApertures ∧
      (addWallApertures k buildingFace osSurface surfaceIndex
        (some value) s).1.numOfAppliedApertures = s.numOfAppliedApertures := by
  have hzero : (0.0 : K) = 0 := by norm_num
  have hone : (1.0 : K) = 1 := by norm_num
  have hrange : ¬ (value < 0.0 ∨ value > 1.0) := by
    rw [hzero, hone]
    intro h
    rcases h with h | h
    · exact absurd hlo (not_le.mpr h)
    · exact absurd hhi (not_le.mpr h)
  simp only [addWallApertures, if_neg hrange]
  by_cases hpos : value > 0.0 ∧ value ≤ 1.0
  · rw [if_pos hpos]
    have hne : value ≠ 0 := by
      have := hpos.1
      rw [hzero] at this
      exact ne_of_gt this
    rcases hsc : ScaleFaceVertices k buildingFace value with e | scaled
    · exact ⟨[], by simp, fun _ => rfl, by simp, rfl, rfl⟩
    · cases scaled with
      | nil => exact ⟨[], by simp, fun _ => rfl, by simp, rfl, rfl⟩
      | cons first rest =>
        obtain ⟨created, h1, h2, h3, h4⟩ :=
          synthesizeWindows_created k osSurface surfaceIndex first rest s
        refine ⟨created, h1, fun h => absurd h hne, ?_, h3, h4⟩
        intro sub hsub
        obtain ⟨pair, hp, hv⟩ := h2 sub hsub
        exact ⟨first, rest, pair, hp, rfl, hv⟩
  · rw [if_neg hpos]
    exact ⟨[], by simp, fun _ => rfl, by simp, rfl, rfl⟩

theorem addWallApertures_none_created (k : Kernel K) (buildingFace : Face K)
    (osSurface : Surface K) (surfaceIndex : Nat) (s : SubState K) :
    ∃ created,
      (addWallApertures k buildingFace osSurface surfaceIndex none s).1.subs =
        s.subs ++ created ∧
      ∀ sub ∈ created, ∃ pFaceAperture,
        .aperture (some pFaceAperture) ∈ buildingFace.Contents ∧
        k.Area pFaceAperture > 0.1 ∧
        (sub.vertices = apertureCandidate pFaceAperture ∨
          sub.vertices = (apertureCandidate pFaceAperture).reverse) :=
  applyApertures_created k osSurface surfaceIndex buildingFace.Contents s

theorem AddSurface_exterior_wall_subs (k : Kernel K) (surfaceNumber : Nat)
    (buildingFace : Face K) (buildingSpace : Cell K) (osFacePoints : List (Point3d K))
    (osSpace : Space) (upVector : Vector K) (glazingRatio : Option K) (st : State K)
    (hft : (CalculateFaceType k buildingFace osFacePoints buildingSpace upVector).1 =
      .ok FACE_WALL)
    (hadj : AdjacentCellCount buildingFace < 2) (hug : IsUnderground buildingFace = false) :
    (AddSurface k surfaceNumber buildingFace buildingSpace osFacePoints osSpace upVector
      glazingRatio st).1.osModel.subSurfaces =
      st.osModel.subSurfaces ++
        (addWallApertures k buildingFace
          (exteriorWallSurface st osFacePoints osSpace surfaceNumber)
          st.osModel.surfaces.length glazingRatio
          ⟨[], 1, st.numOfApertures, st.numOfAppliedApertures⟩).1.subs ∧
    (AddSurface k surfaceNumber buildingFace buildingSpace osFacePoints osSpace upVector
      glazingRatio st).1.numOfApertures =
      (addWallApertures k buildingFace
        (exteriorWallSurface st osFacePoints osSpace surfaceNumber)
        st.osModel.surfaces.length glazingRatio
        ⟨[], 1, st.numOfApertures, st.numOfAppliedApertures⟩).1.numOfApertures ∧
    (AddSurface k surfaceNumber buildingFace buildingSpace osFacePoints osSpace upVector
      glazingRatio st).1.numOfAppliedApertures =
      (addWallApertures k buildingFace
        (exteriorWallSurface st osFacePoints osSpace surfaceNumber)
        st.osModel.surfaces.length glazingRatio
        ⟨[], 1, st.numOfApertures, st.numOfAppliedApertures⟩).1.numOfAppliedApertures := by
  rw [AddSurface_exterior_wall_run k surfaceNumber buildingFace buildingSpace osFacePoints
    osSpace upVector glazingRatio st hft hadj hug]
  exact ⟨rfl, rfl, rfl⟩

theorem AddSurface_strategy_core (k : Kernel K) (surfaceNumber : Nat)
    (buildingFace : Face K) (buildingSpace : Cell K) (osFacePoints : List (Point3d K))
    (osSpace : Space) (upVector : Vector K) (st : State K)
    (hft : (CalculateFaceType k buildingFace osFacePoints buildingSpace upVector).1 =
      .ok FACE_WALL)
    (hadj : AdjacentCellCount buildingFace < 2) (hug : IsUnderground buildingFace = false) :
    (∀ value : K, 0 ≤ value → value ≤ 1 →
      ∃ created,
        (AddSurface k surfaceNumber buildingFace buildingSpace osFacePoints osSpace upVector
          (some value) st).1.osModel.subSurfaces = st.osModel.subSurfaces ++ created ∧
        (value = 0 → created = []) ∧
        (∀ sub ∈ created, ∃ first rest, ∃ pair ∈ consecutivePairs rest,
          ScaleFaceVertices k buildingFace value = .ok (first :: rest) ∧
          (sub.vertices = windowCandidate k first pair.1 pair.2 ∨
            sub.vertices = (windowCandidate k first pair.1 pair.2).reverse)) ∧
        (AddSurface k surfaceNumber buildingFace buildingSpace osFacePoints osSpace upVector
          (some value) st).1.numOfApertures = st.numOfApertures ∧
        (AddSurface k surfaceNumber buildingFace buildingSpace osFacePoints osSpace upVector
          (some value) st).1.numOfAppliedApertures = st.numOfAppliedApertures) ∧
    (∃ created,
      (AddSurface k surfaceNumber buildingFace buildingSpace osFacePoints osSpace upVector
        none st).1.osModel.subSurfaces = st.osModel.subSurfaces ++ created ∧
      ∀ sub ∈ created, ∃ pFaceAperture,
        .aperture (some pFaceAperture) ∈ buildingFace.Contents ∧
        k.Area pFaceAperture > 0.1 ∧
        (sub.vertices = apertureCandidate pFaceAperture ∨
          sub.vertices = (apertureCandidate pFaceAperture).reverse)) := by
  constructor
  · intro value hlo hhi
    obtain ⟨hs, hn, ha⟩ := AddSurface_exterior_wall_subs k surfaceNumber buildingFace
      buildingSpace osFacePoints osSpace upVector (some value) st hft hadj hug
    obtain ⟨created, h1, h2, h3, h4, h5⟩ := addWallApertures_ratio_created k buildingFace
      (exteriorWallSurface st osFacePoints osSpace surfaceNumber) st.osModel.surfaces.length
      value ⟨[], 1, st.numOfApertures, st.numOfAppliedApertures⟩ hlo hhi
    refine ⟨created, ?_, h2, h3, ?_, ?_⟩
    · rw [hs, h1]; simp
    · rw [hn, h4]
    · rw [ha, h5]
  · obtain ⟨hs, _, _⟩ := AddSurface_exterior_wall_subs k surfaceNumber buildingFace
      buildingSpace osFacePoints osSpace upVector none st hft hadj hug
    obtain ⟨created, h1, h2⟩ := addWallApertures_none_created k buildingFace
      (exteriorWallSurface st osFacePoints osSpace surfaceNumber) st.osModel.surfaces.length
      ⟨[], 1, st.numOfApertures, st.numOfAppliedApertures⟩
    refine ⟨created, ?_, h2⟩
    rw [hs, h1]; simp

/-- C12: `AddSurface` leaves the sub-surfaces of the model as they were for
every face that is not classified Wall with fewer than two adjacent cells and
not underground, whatever the glazing ratio.  For a face that is, the aperture
step with a ratio supplied does not read the contents of the face, and with a
ratio in [0,1] every sub-surface created is a re-scaled fan triangle of the
scaled wall loop (in the given or the reversed order), none at all for the
ratio 0, and the aperture counters stay as they were; the aperture step with
no ratio supplied does not read the boundary of the face, and every
sub-surface created is the boundary of an aperture face among the contents of
the face, of area above 0.1, in the given or the reversed order. -/
theorem subsurface_strategy (k : Kernel K) (surfaceNumber : Nat)
    (buildingFace : Face K) (buildingSpace : Cell K) (osFacePoints : List (Point3d K))
    (osSpace : Space) (upVector : Vector K) (st : State K) :
    (¬ ((CalculateFaceType k buildingFace osFacePoints buildingSpace upVector).1 =
          .ok FACE_WALL ∧ AdjacentCellCount buildingFace < 2 ∧
        IsUnderground buildingFace = false) →
      ∀ glazingRatio : Option K,
        (AddSurface k surfaceNumber buildingFace buildingSpace osFacePoints osSpace upVector
          glazingRatio st).1.osModel.subSurfaces = st.osModel.subSurfaces) ∧
    (∀ (osSurface : Surface K) (surfaceIndex : Nat) (value : K) (s : SubState K)
        (contents : List (Content K)),
      addWallApertures k { buildingFace with Contents := contents } osSurface surfaceIndex
          (some value) s =
        addWallApertures k buildingFace osSurface surfaceIndex (some value) s) ∧
    (∀ (osSurface : Surface K) (surfaceIndex : Nat) (s : SubState K)
        (boundary : List (Vertex K)),
      addWallApertures k { buildingFace with ExternalBoundary := boundary } osSurface
          surfaceIndex none s =
        addWallApertures k buildingFace osSurface surfaceIndex none s) ∧
    ((CalculateFaceType k buildingFace osFacePoints buildingSpace upVector).1 = .ok FACE_WALL →
      AdjacentCellCount buildingFace < 2 → IsUnderground buildingFace = false →
      (∀ value : K, 0 ≤ value → value ≤ 1 →
        ∃ created,
          (AddSurface k surfaceNumber buildingFace buildingSpace osFacePoints osSpace upVector
            (some value) st).1.osModel.subSurfaces = st.osModel.subSurfaces ++ created ∧
          (value = 0 → created = []) ∧
          (∀ sub ∈ created, ∃ first rest, ∃ pair ∈ consecutivePairs rest,
            ScaleFaceVertices k buildingFace value = .ok (first :: rest) ∧
            (sub.vertices = windowCandidate k first pair.1 pair.2 ∨
              sub.vertices = (windowCandidate k first pair.1 pair.2).reverse)) ∧
          (AddSurface k surfaceNumber buildingFace buildingSpace osFacePoints osSpace upVector
            (some value) st).1.numOfApertures = st.numOfApertures ∧
          (AddSurface k surfaceNumber buildingFace buildingSpace osFacePoints osSpace upVector
            (some value) st).1.numOfAppliedApertures = st.numOfAppliedApertures) ∧
      (∃ created,
        (AddSurface k surfaceNumber buildingFace buildingSpace osFacePoints osSpace upVector
          none st).1.osModel.subSurfaces = st.osModel.subSurfaces ++ created ∧
        ∀ sub ∈ created, ∃ pFaceAperture,
          .aperture (some pFaceAperture) ∈ buildingFace.Contents ∧
          k.Area pFaceAperture > 0.1 ∧
          (sub.vertices = apertureCandidate pFaceAperture ∨
            sub.vertices = (apertureCandidate pFaceAperture).reverse))) :=
  ⟨fun hne glazingRatio =>
      (AddSurface_no_subsurface k surfaceNumber buildingFace buildingSpace osFacePoints osSpace
        upVector glazingRatio st hne).1,
    fun _ _ _ _ _ => rfl,
    fun _ _ _ _ => rfl,
    fun hft hadj hug =>
      AddSurface_strategy_core k surfaceNumber buildingFace buildingSpace osFacePoints osSpace
        upVector st hft hadj hug⟩

/-- Witness of `subsurface_strategy`: the bottom face of the unit cube is
classified Floor and gets no sub-surface with the ratio 1/2; the south wall
with its apertures and the ratio 0 gets none either. -/
theorem subsurface_strategy_witness :
    (AddSurface boxKernel 1 bottomFace unitCube (GetFacePoints bottomFace)
      ⟨"STORY_1_SPACE_1"⟩ zAxis (some (1 / 2)) emptyState).1.osModel.subSurfaces =
      emptyState.osModel.subSurfaces ∧
    ∃ created,
      (AddSurface boxKernel 1 glazedSouthFace unitCube (GetFacePoints glazedSouthFace)
        ⟨"STORY_1_SPACE_1"⟩ zAxis (some 0) emptyState).1.osModel.subSurfaces =
        emptyState.osModel.subSurfaces ++ created ∧ created = [] := by
  refine ⟨(subsurface_strategy boxKernel 1 bottomFace unitCube (GetFacePoints bottomFace)
      ⟨"STORY_1_SPACE_1"⟩ zAxis emptyState).1
      (fun h => by rw [bottomFace_type] at h; cases h.1) (some (1 / 2)), ?_⟩
  obtain ⟨created, h1, h2, _⟩ := ((subsurface_strategy boxKernel 1 glazedSouthFace unitCube
    (GetFacePoints glazedSouthFace) ⟨"STORY_1_SPACE_1"⟩ zAxis emptyState).2.2.2
    glazedSouthFace_type (by decide) southFace_not_underground).1 0 le_rfl zero_le_one
  exact ⟨created, h1, h2 rfl⟩

end StrategyClaims

section Coplanarity

variable {K : Type} [LinearOrderedField K]

theorem foldl_add_dot (n : Vector K) (d : K) :
    ∀ (vs : List (Vertex K)) (acc : Vertex K),
      (∀ v ∈ vs, n.dot v.AsVector = d) →
      n.dot (vs.foldl (fun (s : Vertex K) v => s.Add v.AsVector) acc).AsVector =
        n.dot acc.AsVector + (vs.length : K) * d := by
  intro vs
  induction vs with
  | nil => intro acc _; simp
  | cons v rest ih =>
    intro acc h
    rw [List.foldl_cons, ih _ (fun w hw => h w (List.mem_cons_of_mem _ hw))]
    have hv := h v (List.mem_cons_self _ _)
    simp only [Vector.dot, Vertex.AsVector, Vertex.Add, List.length_cons, Nat.cast_add,
      Nat.cast_one] at hv ⊢
    linear_combination hv

theorem meanVertex_coordinates (vs : List (Vertex K)) :
    (meanVertex vs).X = (vs.map Vertex.X).sum / vs.length ∧
    (meanVertex vs).Y = (vs.map Vertex.Y).sum / vs.length ∧
    (meanVertex vs).Z = (vs.map Vertex.Z).sum / vs.length := by
  have key : ∀ (l : List (Vertex K)) (acc : Vertex K),
      l.foldl (fun (s : Vertex K) v => s.Add v.AsVector) acc =
        ⟨acc.X + (l.map Vertex.X).sum, acc.Y + (l.map Vertex.Y).sum,
          acc.Z + (l.map Vertex.Z).sum⟩ := by
    intro l
    induction l with
    | nil => intro acc; simp
    | cons v rest ih =>
      intro acc
      rw [List.foldl_cons, ih]
      simp only [Vertex.Add, Vertex.AsVector, List.map_cons, List.sum_cons, add_assoc]
  simp only [meanVertex, key, Vertex.Scale, zero_add]
  refine ⟨?_, ?_, ?_⟩ <;> ring

theorem meanVertex_dot (n : Vector K) (d : K) (vs : List (Vertex K)) (hne : vs ≠ [])
    (h : ∀ v ∈ vs, n.dot v.AsVector = d) :
    n.dot (meanVertex vs).AsVector = d := by
  have hlen : (vs.length : K) ≠ 0 := by
    have : vs.length ≠ 0 := fun h0 => hne (List.length_eq_zero.mp h0)
    exact_mod_cast this
  have hsum := foldl_add_dot n d vs ⟨0, 0, 0⟩ h
  simp only [Vector.dot, Vertex.AsVector, mul_zero, add_zero, zero_add] at hsum
  simp only [meanVertex, Vector.dot, Vertex.AsVector, Vertex.Scale]
  field_simp
  linear_combination hsum

theorem scaleAbout_dot (n : Vector K) (d : K) (c p : Vertex K) (s : K)
    (hc : n.dot c.AsVector = d) (hp : n.dot p.AsVector = d) :
    n.dot (scaleAbout c s p).AsVector = d := by
  simp only [scaleAbout, Vector.dot, Vertex.AsVector, Vertex.Add, Vertex.Scale,
    Vertex.Subtract] at hc hp ⊢
  linear_combination (1 - s) * hc + s * hp

theorem scaleAbout_coordinates (c p : Vertex K) (s : K) :
    scaleAbout c s p =
      ⟨c.X + s * (p.X - c.X), c.Y + s * (p.Y - c.Y), c.Z + s * (p.Z - c.Z)⟩ := by
  simp only [scaleAbout, Vertex.AsVector, Vertex.Add, Vertex.Scale, Vertex.Subtract]
  congr 1 <;> ring

theorem map_scaleAbout_dot (n : Vector K) (d : K) (vs : List (Vertex K)) (s : K)
    (h : ∀ v ∈ vs, n.dot v.AsVector = d) :
    ∀ v ∈ vs.map (scaleAbout (meanVertex vs) s), n.dot v.AsVector = d := by
  intro v hv
  obtain ⟨p, hp, rfl⟩ := List.mem_map.mp hv
  have hne : vs ≠ [] := List.ne_nil_of_mem hp
  exact scaleAbout_dot n d _ p s (meanVertex_dot n d vs hne h) (h p hp)

theorem windowCandidate_InPlane (k : Kernel K) (n : Vector K) (d : K) (first b c : Vertex K)
    (hf : n.dot first.AsVector = d) (hb : n.dot b.AsVector = d) (hc : n.dot c.AsVector = d) :
    InPlane n d (windowCandidate k first b c) := by
  intro p hp
  unfold windowCandidate at hp
  obtain ⟨v, hv, rfl⟩ := List.mem_map.mp hp
  have := map_scaleAbout_dot n d [first, b, c] (k.Sqrt 0.999)
    (by
      intro w hw
      simp only [List.mem_cons, List.mem_singleton, List.not_mem_nil, or_false] at hw
      rcases hw with rfl | rfl | rfl
      · exact hf
      · exact hb
      · exact hc) v hv
  simpa [Vertex.toPoint3d, Point3d.toVector, Vertex.AsVector, Vector.dot] using this

theorem InPlane_reverse (n : Vector K) (d : K) (loop : List (Point3d K))
    (h : InPlane n d loop) : InPlane n d loop.reverse :=
  fun p hp => h p (List.mem_reverse.mp hp)

theorem consecutivePairs_mem {α : Type} :
    ∀ (l : List α) (pair : α × α), pair ∈ consecutivePairs l → pair.1 ∈ l ∧ pair.2 ∈ l := by
  intro l
  induction l with
  | nil => intro pair h; simp [consecutivePairs] at h
  | cons b rest ih =>
    intro pair h
    cases rest with
    | nil => simp [consecutivePairs] at h
    | cons c rest2 =>
      simp only [consecutivePairs, List.mem_cons] at h
      rcases h with rfl | h
      · exact ⟨List.mem_cons_self _ _, List.mem_cons_of_mem _ (List.mem_cons_self _ _)⟩
      · obtain ⟨h1, h2⟩ := ih pair h
        exact ⟨List.mem_cons_of_mem _ h1, List.mem_cons_of_mem _ h2⟩

theorem ScaleFaceVertices_dot (k : Kernel K) (n : Vector K) (d : K) (buildingFace : Face K)
    (value : K) (scaled : List (Vertex K))
    (hplane : ∀ v ∈ buildingFace.ExternalBoundary, n.dot v.AsVector = d)
    (h : ScaleFaceVertices k buildingFace value = .ok scaled) :
    ∀ v ∈ scaled, n.dot v.AsVector = d := by
  unfold ScaleFaceVertices at h
  by_cases hlen : 3 ≤ buildingFace.ExternalBoundary.reverse.length
  · rw [ScaleVertices_mean k _ value hlen] at h
    cases h
    exact map_scaleAbout_dot n d _ _ (fun v hv => hplane v (List.mem_reverse.mp hv))
  · rw [ScaleVertices_short k _ value (not_le.mp hlen)] at h
    cases h

theorem AddSurface_windows_coplanar (k : Kernel K) (n : Vector K) (d : K) (surfaceNumber : Nat)
    (buildingFace : Face K) (buildingSpace : Cell K) (osFacePoints : List (Point3d K))
    (osSpace : Space) (upVector : Vector K) (st : State K) (value : K)
    (hft : (CalculateFaceType k buildingFace osFacePoints buildingSpace upVector).1 =
      .ok FACE_WALL)
    (hadj : AdjacentCellCount buildingFace < 2) (hug : IsUnderground buildingFace = false)
    (hpos : 0 < value) (hle : value ≤ 1)
    (hplane : ∀ v ∈ buildingFace.ExternalBoundary, n.dot v.AsVector = d) :
    ∃ created,
      (AddSurface k surfaceNumber buildingFace buildingSpace osFacePoints osSpace upVector
        (some value) st).1.osModel.subSurfaces = st.osModel.subSurfaces ++ created ∧
      ∀ sub ∈ created, InPlane n d sub.vertices := by
  obtain ⟨created, h1, _, h3, _⟩ := (AddSurface_strategy_core k surfaceNumber buildingFace
    buildingSpace osFacePoints osSpace upVector st hft hadj hug).1 value (le_of_lt hpos) hle
  refine ⟨created, h1, ?_⟩
  intro sub hsub
  obtain ⟨first, rest, pair, hpair, hsc, hv⟩ := h3 sub hsub
  have hall := ScaleFaceVertices_dot k n d buildingFace value _ hplane hsc
  obtain ⟨hp1, hp2⟩ := consecutivePairs_mem rest pair hpair
  have hcand := windowCandidate_InPlane k n d first pair.1 pair.2
    (hall first (List.mem_cons_self _ _)) (hall _ (List.mem_cons_of_mem _ hp1))
    (hall _ (List.mem_cons_of_mem _ hp2))
  rcases hv with hv | hv
  · rw [hv]; exact hcand
  · rw [hv]; exact InPlane_reverse n d _ hcand

/-- C11: `ScaleVertices` maps every vertex `p` of a list of at least 3
vertices to `c + s (p - c)`, with `c` the arithmetic mean of the list and `s`
the square root of the scale factor.  Hence for a face classified Wall with
fewer than two adjacent cells and not underground whose boundary lies in the
plane `n . p = d`, and a glazing ratio in (0,1], the scaled loop lies in that
plane, and every vertex of every sub-surface `AddSurface` creates lies in that
plane. -/
theorem synthesized_subsurfaces_coplanar (k : Kernel K) (n : Vector K) (d : K)
    (surfaceNumber : Nat) (buildingFace : Face K) (buildingSpace : Cell K)
    (osFacePoints : List (Point3d K)) (osSpace : Space) (upVector : Vector K) (st : State K)
    (value : K)
    (hft : (CalculateFaceType k buildingFace osFacePoints buildingSpace upVector).1 =
      .ok FACE_WALL)
    (hadj : AdjacentCellCount buildingFace < 2) (hug : IsUnderground buildingFace = false)
    (hpos : 0 < value) (hle : value ≤ 1)
    (hplane : ∀ v ∈ buildingFace.ExternalBoundary, n.dot v.AsVector = d) :
    (∀ (vertices : List (Vertex K)) (scaleFactor : K), 3 ≤ vertices.length →
      ∃ centre : Vertex K,
        centre.X = (vertices.map Vertex.X).sum / vertices.length ∧
        centre.Y = (vertices.map Vertex.Y).sum / vertices.length ∧
        centre.Z = (vertices.map Vertex.Z).sum / vertices.length ∧
        ScaleVertices k vertices scaleFactor =
          .ok (vertices.map fun p =>
            ⟨centre.X + k.Sqrt scaleFactor * (p.X - centre.X),
              centre.Y + k.Sqrt scaleFactor * (p.Y - centre.Y),
              centre.Z + k.Sqrt scaleFactor * (p.Z - centre.Z)⟩)) ∧
    (∀ scaled, ScaleFaceVertices k buildingFace value = .ok scaled →
      ∀ v ∈ scaled, n.dot v.AsVector = d) ∧
    ∃ created,
      (AddSurface k surfaceNumber buildingFace buildingSpace osFacePoints osSpace upVector
        (some value) st).1.osModel.subSurfaces = st.osModel.subSurfaces ++ created ∧
      ∀ sub ∈ created, InPlane n d sub.vertices :=
  ⟨fun vertices scaleFactor hlen =>
      ⟨meanVertex vertices, (meanVertex_coordinates vertices).1,
        (meanVertex_coordinates vertices).2.1, (meanVertex_coordinates vertices).2.2, by
          rw [ScaleVertices_mean k vertices scaleFactor hlen]
          congr 1
          exact List.map_congr_left fun p _ => scaleAbout_coordinates _ p _⟩,
    fun scaled h => ScaleFaceVertices_dot k n d buildingFace value scaled hplane h,
    AddSurface_windows_coplanar k n d surfaceNumber buildingFace buildingSpace osFacePoints
      osSpace upVector st value hft hadj hug hpos hle hplane⟩

end Coplanarity

section CoplanarityWitness

theorem synthesizeWindows_count {K : Type} [LinearOrderedField K] (k : Kernel K)
    (osSurface : Surface K) (surfaceIndex : Nat) (first : Vertex K) :
    ∀ (rest : List (Vertex K)) (s : SubState K),
      (∀ pair ∈ consecutivePairs rest,
        ¬ NonCoplanar (orientationDot k osSurface.vertices
          (windowCandidate k first pair.1 pair.2))) →
      (synthesizeWindows k osSurface surfaceIndex first rest s).1.subs.length =
        s.subs.length + (consecutivePairs rest).length := by
  intro rest
  induction rest with
  | nil => intro s _; rfl
  | cons b tl ih =>
    intro s h
    cases tl with
    | nil => rfl
    | cons c rest =>
      have hrest : ∀ pair ∈ consecutivePairs (c :: rest),
          ¬ NonCoplanar (orientationDot k osSurface.vertices
            (windowCandidate k first pair.1 pair.2)) := by
        intro pair hp
        exact h pair (by simp only [consecutivePairs]; exact List.mem_cons_of_mem _ hp)
      have hbc := h (b, c) (by simp [consecutivePairs])
      rw [synthesizeWindows, synthesizeWindow_rule, if_neg hbc]
      split_ifs
      · rw [ih _ hrest]
        simp only [attachWindow, consecutivePairs, List.length_append, List.length_cons,
          List.length_nil]
        omega
      · rw [ih _ hrest]
        simp only [attachWindow, consecutivePairs, List.length_append, List.length_cons,
          List.length_nil]
        omega

theorem abs_scaled : |(998001 / 1000000 : ℚ)| = 998001 / 1000000 :=
  abs_of_pos (by norm_num)

theorem southFace_scaled :
    ScaleFaceVertices boxKernel (southFace : Face ℚ) 1 =
      .ok [⟨0, 0, 1⟩, ⟨1, 0, 1⟩, ⟨1, 0, 0⟩, ⟨0, 0, 0⟩] := by
  unfold ScaleFaceVertices
  rw [ScaleVertices_mean _ _ _ (by simp [southFace, cubeFace])]
  norm_num [southFace, cubeFace, boxKernel, scaleAbout, meanVertex, Vertex.Add,
    Vertex.AsVector, Vertex.Scale, Vertex.Subtract]

theorem southFace_window_dots :
    ∀ pair ∈ consecutivePairs [(⟨1, 0, 1⟩ : Vertex ℚ), ⟨1, 0, 0⟩, ⟨0, 0, 0⟩],
      ¬ NonCoplanar (orientationDot boxKernel (GetFacePoints (southFace : Face ℚ))
        (windowCandidate boxKernel ⟨0, 0, 1⟩ pair.1 pair.2)) := by
  intro pair hp
  simp only [consecutivePairs, List.mem_cons, List.mem_singleton, List.not_mem_nil,
    or_false] at hp
  rcases hp with rfl | rfl
  · have : orientationDot boxKernel (GetFacePoints (southFace : Face ℚ))
        (windowCandidate boxKernel ⟨0, 0, 1⟩ ⟨1, 0, 1⟩ ⟨1, 0, 0⟩) = -1 := by
      rw [orientationDot, southLoop_normal]
      norm_num [abs_scaled, windowCandidate, boxKernel, scaleAbout, meanVertex, Vertex.Add,
        Vertex.AsVector, Vertex.Scale, Vertex.Subtract, newell, newellFrom, normalizeAxis,
        Vertex.toPoint3d, Vector.l1, Vector.Cross, Vector.Add, Vector.Scale, Vector.dot,
        Point3d.toVector]
    rw [this]
    intro hc
    exact absurd hc.1 (by norm_num)
  · have : orientationDot boxKernel (GetFacePoints (southFace : Face ℚ))
        (windowCandidate boxKernel ⟨0, 0, 1⟩ ⟨1, 0, 0⟩ ⟨0, 0, 0⟩) = -1 := by
      rw [orientationDot, southLoop_normal]
      norm_num [abs_scaled, windowCandidate, boxKernel, scaleAbout, meanVertex, Vertex.Add,
        Vertex.AsVector, Vertex.Scale, Vertex.Subtract, newell, newellFrom, normalizeAxis,
        Vertex.toPoint3d, Vector.l1, Vector.Cross, Vector.Add, Vector.Scale, Vector.dot,
        Point3d.toVector]
    rw [this]
    intro hc
    exact absurd hc.1 (by norm_num)

theorem southFace_ratio_one_count :
    (AddSurface boxKernel 1 southFace unitCube (GetFacePoints southFace)
      ⟨"STORY_1_SPACE_1"⟩ zAxis (some 1) emptyState).1.osModel.subSurfaces.length = 2 := by
  rw [AddSurface_exterior_wall_run boxKernel 1 southFace unitCube (GetFacePoints southFace)
    ⟨"STORY_1_SPACE_1"⟩ zAxis (some 1) emptyState southFace_type (by decide)
    southFace_not_underground]
  have h1 : ¬ ((1 : ℚ) < 0.0 ∨ (1 : ℚ) > 1.0) := by norm_num
  have h2 : (1 : ℚ) > 0.0 ∧ (1 : ℚ) ≤ 1.0 := by norm_num
  have hcount := synthesizeWindows_count boxKernel
    (exteriorWallSurface emptyState (GetFacePoints (southFace : Face ℚ))
      ⟨"STORY_1_SPACE_1"⟩ 1) 0 ⟨0, 0, 1⟩ [⟨1, 0, 1⟩, ⟨1, 0, 0⟩, ⟨0, 0, 0⟩] ⟨[], 1, 0, 0⟩
    southFace_window_dots
  simp only [addWallApertures, if_neg h1, if_pos h2, southFace_scaled, State.commit,
    emptyState, List.nil_append]
  exact hcount

/-- Witness of `synthesized_subsurfaces_coplanar`: the south wall of the unit
cube lies in the plane `y = 0`; with the glazing ratio 1 `AddSurface` creates
two sub-surfaces, and every vertex of both lies in that plane. -/
theorem synthesized_subsurfaces_coplanar_witness :
    ∃ created : List (SubSurface ℚ),
      (AddSurface boxKernel 1 southFace unitCube (GetFacePoints southFace)
        ⟨"STORY_1_SPACE_1"⟩ zAxis (some 1) emptyState).1.osModel.subSurfaces =
        emptyState.osModel.subSurfaces ++ created ∧
      created.length = 2 ∧ ∀ sub ∈ created, InPlane ⟨0, 1, 0⟩ 0 sub.vertices := by
  obtain ⟨created, h1, h2⟩ := (synthesized_subsurfaces_coplanar boxKernel ⟨0, 1, 0⟩ 0 1
    southFace unitCube (GetFacePoints southFace) ⟨"STORY_1_SPACE_1"⟩ zAxis emptyState 1
    southFace_type (by decide) southFace_not_underground (by norm_num) le_rfl
    (by
      intro v hv
      simp only [southFace, cubeFace, List.mem_cons, List.mem_singleton, List.not_mem_nil,
        or_false] at hv
      rcases hv with rfl | rfl | rfl | rfl <;> norm_num [Vector.dot, Vertex.AsVector])).2.2
  refine ⟨created, h1, ?_, h2⟩
  have hcount := southFace_ratio_one_count
  rw [h1] at hcount
  simpa [emptyState] using hcount

end CoplanarityWitness

section Orientation

variable {K : Type} [LinearOrderedField K]

theorem CalculateFaceType_result (k : Kernel K) (buildingFace : Face K)
    (facePoints : List (Point3d K)) (buildingSpace : Cell K) (upVector : Vector K)
    (firstFace : Face K) (rest : List (Face K)) (p1 p2 p3 : Vertex K) (tl : List (Vertex K))
    (htri : k.Triangulate buildingFace = firstFace :: rest)
    (hv : buildingFace.Vertices = p1 :: p2 :: p3 :: tl)
    (hrev : k.AngleWithVector (faceNormalOf k p1 p2 p3).Reverse upVector =
      180 - k.AngleWithVector (faceNormalOf k p1 p2 p3) upVector) :
    (CalculateFaceType k buildingFace facePoints buildingSpace upVector).1 =
      (if k.AngleWithVector (faceNormalOf k p1 p2 p3) upVector < 5 ∨
          k.AngleWithVector (faceNormalOf k p1 p2 p3) upVector > 175 then
        (if (if k.Contains buildingSpace (offsetVertexOf (k.CenterOfMass firstFace)
              (faceNormalOf k p1 p2 p3)) = true
            then 180 - k.AngleWithVector (faceNormalOf k p1 p2 p3) upVector
            else k.AngleWithVector (faceNormalOf k p1 p2 p3) upVector) < 5
          then Except.ok FACE_ROOFCEILING
         else if (if k.Contains buildingSpace (offsetVertexOf (k.CenterOfMass firstFace)
              (faceNormalOf k p1 p2 p3)) = true
            then 180 - k.AngleWithVector (faceNormalOf k p1 p2 p3) upVector
            else k.AngleWithVector (faceNormalOf k p1 p2 p3) upVector) > 175
          then Except.ok FACE_FLOOR else Except.ok FACE_WALL)
       else Except.ok FACE_WALL) := by
  simp only [CalculateFaceType, htri, hv, hrev]
  norm_num
  split_ifs <;> rfl

theorem exterior_horizontal_probe (k : Kernel K) (buildingFace : Face K)
    (osFacePoints : List (Point3d K)) (buildingSpace : Cell K) (upVector : Vector K)
    (firstFace : Face K) (rest : List (Face K)) (p1 p2 p3 : Vertex K) (tl : List (Vertex K))
    (htri : k.Triangulate buildingFace = firstFace :: rest)
    (hv : buildingFace.Vertices = p1 :: p2 :: p3 :: tl)
    (hadj : AdjacentCellCount buildingFace < 2)
    (faceType : FaceType)
    (hft : (CalculateFaceType k buildingFace osFacePoints buildingSpace upVector).1 =
      .ok faceType)
    (hne : faceType ≠ FACE_WALL)
    (hnormal : k.outwardNormal osFacePoints = faceNormalOf k p1 p2 p3)
    (hnormalRev : k.outwardNormal osFacePoints.reverse = (faceNormalOf k p1 p2 p3).Reverse)
    (hunit : k.Normalized (faceNormalOf k p1 p2 p3) = faceNormalOf k p1 p2 p3)
    (hupward : k.AngleWithVector (faceNormalOf k p1 p2 p3) upVector < 5 →
      0.98 ≤ (faceNormalOf k p1 p2 p3).dot ⟨0, 0, 1⟩)
    (hdownward : k.AngleWithVector (faceNormalOf k p1 p2 p3) upVector > 175 →
      (faceNormalOf k p1 p2 p3).dot ⟨0, 0, 1⟩ ≤ -0.98)
    (hrev : k.AngleWithVector (faceNormalOf k p1 p2 p3).Reverse upVector =
      180 - k.AngleWithVector (faceNormalOf k p1 p2 p3) upVector)
    (hside : k.Contains buildingSpace (offsetVertexOf (k.CenterOfMass firstFace)
        (faceNormalOf k p1 p2 p3)) = true →
      k.Contains buildingSpace (offsetVertexOf (k.CenterOfMass firstFace)
        (faceNormalOf k p1 p2 p3).Reverse) = false) :
    probeInside k buildingSpace buildingFace
      (surfaceLoop k faceType (AdjacentCellCount buildingFace) osFacePoints) = false := by
  have hres := CalculateFaceType_result k buildingFace osFacePoints buildingSpace upVector
    firstFace rest p1 p2 p3 tl htri hv hrev
  rw [hft] at hres
  have hdown : (faceNormalOf k p1 p2 p3).dot ⟨0, 0, -1⟩ =
      -((faceNormalOf k p1 p2 p3).dot ⟨0, 0, 1⟩) := by
    simp only [Vector.dot]; ring
  simp only [probeInside, htri, surfaceLoop, hadj, true_and, facingLoop, hnormal, hunit, hdown]
  generalize hA : k.AngleWithVector (faceNormalOf k p1 p2 p3) upVector = a at *
  generalize hD : (faceNormalOf k p1 p2 p3).dot ⟨0, 0, 1⟩ = dz at *
  by_cases hnear : a < 5 ∨ a > 175
  · rw [if_pos hnear] at hres
    cases hin : k.Contains buildingSpace (offsetVertexOf (k.CenterOfMass firstFace)
        (faceNormalOf k p1 p2 p3))
    · simp only [hin, Bool.false_eq_true, if_false] at hres
      by_cases h5 : a < 5
      · rw [if_pos h5] at hres
        cases hres
        have := hupward h5
        simp only [if_true, if_neg (not_lt.mpr this), hnormal, hin]
      · rw [if_neg h5] at hres
        have h175 : a > 175 := by
          rcases hnear with h | h
          · exact absurd h h5
          · exact h
        rw [if_pos h175] at hres
        cases hres
        have := hdownward h175
        have hnot : ¬ (-dz < 0.98) := by
          intro hc
          have h98 : (0.98 : K) = 98 / 100 := by norm_num
          rw [h98] at hc this
          linarith
        simp only [reduceCtorEq, if_false, if_true, if_neg hnot, hnormal, hin]
    · simp only [hin, if_true] at hres
      have hout := hside hin
      by_cases h5 : 180 - a < 5
      · rw [if_pos h5] at hres
        cases hres
        have := hdownward (by linarith)
        have hlt : dz < 0.98 := by
          have h98 : (0.98 : K) = 98 / 100 := by norm_num
          rw [h98] at this ⊢
          linarith
        simp only [if_true, if_pos hlt, hnormalRev, hout]
      · rw [if_neg h5] at hres
        by_cases h175 : 180 - a > 175
        · rw [if_pos h175] at hres
          cases hres
          have := hupward (by linarith)
          have hlt : -dz < 0.98 := by
            have h98 : (0.98 : K) = 98 / 100 := by norm_num
            rw [h98] at this ⊢
            linarith
          simp only [reduceCtorEq, if_false, if_true, if_pos hlt, hnormalRev, hout]
        · rw [if_neg h175] at hres
          cases hres
          exact absurd rfl hne
  · rw [if_neg hnear] at hres
    cases hres
    exact absurd rfl hne

end Orientation

section OrientationClaims2

variable {K : Type} [LinearOrderedField K]

theorem triangulateFan_downwardTopFace :
    triangulateFan (downwardTopFace : Face K) =
      [⟨[⟨0, 0, 1⟩, ⟨0, 1, 1⟩, ⟨1, 1, 1⟩], [⟨0, 0, 1⟩, ⟨0, 1, 1⟩, ⟨1, 1, 1⟩], [], [0]⟩,
       ⟨[⟨0, 0, 1⟩, ⟨1, 1, 1⟩, ⟨1, 0, 1⟩], [⟨0, 0, 1⟩, ⟨1, 1, 1⟩, ⟨1, 0, 1⟩], [], [0]⟩] := by
  norm_num [triangulateFan, downwardTopFace, cubeFace, fanTriangles, newell, newellFrom,
    Vector.Add, Vector.Cross, Vector.dot, Point3d.toVector, Vertex.toPoint3d]

theorem triangulateFan_ceilingFace :
    triangulateFan (ceilingFace : Face K) =
      [⟨[⟨0, 0, 1⟩, ⟨0, 1, 1⟩, ⟨1, 1, 1⟩], [⟨0, 0, 1⟩, ⟨0, 1, 1⟩, ⟨1, 1, 1⟩], [], [0, 1]⟩,
       ⟨[⟨0, 0, 1⟩, ⟨1, 1, 1⟩, ⟨1, 0, 1⟩], [⟨0, 0, 1⟩, ⟨1, 1, 1⟩, ⟨1, 0, 1⟩], [], [0, 1]⟩] := by
  norm_num [triangulateFan, ceilingFace, fanTriangles, newell, newellFrom,
    Vector.Add, Vector.Cross, Vector.dot, Point3d.toVector, Vertex.toPoint3d]

theorem triangulateFan_inwardSouthFace :
    triangulateFan (inwardSouthFace : Face K) =
      [⟨[⟨0, 0, 0⟩, ⟨0, 0, 1⟩, ⟨1, 0, 1⟩], [⟨0, 0, 0⟩, ⟨0, 0, 1⟩, ⟨1, 0, 1⟩], [], [0]⟩,
       ⟨[⟨0, 0, 0⟩, ⟨1, 0, 1⟩, ⟨1, 0, 0⟩], [⟨0, 0, 0⟩, ⟨1, 0, 1⟩, ⟨1, 0, 0⟩], [], [0]⟩] := by
  norm_num [triangulateFan, inwardSouthFace, cubeFace, fanTriangles, newell, newellFrom,
    Vector.Add, Vector.Cross, Vector.dot, Point3d.toVector, Vertex.toPoint3d]

theorem downward_normal :
    faceNormalOf boxKernel ⟨0, 0, 1⟩ ⟨0, 1, 1⟩ ⟨1, 1, 1⟩ = ⟨0, 0, -1⟩ := by
  norm_num [boxKernel, faceNormalOf, normalizeAxis, Vector.l1, Vector.Cross, Vector.Scale,
    Vertex.AsVector, Vertex.Subtract]

theorem downward_probe_inside :
    boxKernel.Contains unitCube
      (offsetVertexOf (boxKernel.CenterOfMass
          ⟨[⟨0, 0, 1⟩, ⟨0, 1, 1⟩, ⟨1, 1, 1⟩], [⟨0, 0, 1⟩, ⟨0, 1, 1⟩, ⟨1, 1, 1⟩], [], [0]⟩)
        ⟨0, 0, -1⟩) = true := by
  norm_num [boxKernel, offsetVertexOf, Vector.Scale, Vertex.Translate, Vertex.Add,
    Vertex.Scale, Vertex.AsVector, meanVertex, strictlyInBox, unitCube, bottomFace, topFace,
    southFace, northFace, westFace, eastFace, cubeFace]

theorem upward_probe_outside :
    boxKernel.Contains unitCube
      (offsetVertexOf (boxKernel.CenterOfMass
          ⟨[⟨0, 0, 1⟩, ⟨0, 1, 1⟩, ⟨1, 1, 1⟩], [⟨0, 0, 1⟩, ⟨0, 1, 1⟩, ⟨1, 1, 1⟩], [], [0]⟩)
        ⟨0, 0, 1⟩) = false := by
  norm_num [boxKernel, offsetVertexOf, Vector.Scale, Vertex.Translate, Vertex.Add,
    Vertex.Scale, Vertex.AsVector, meanVertex, strictlyInBox, unitCube, bottomFace, topFace,
    southFace, northFace, westFace, eastFace, cubeFace]

theorem downwardTopFace_run :
    CalculateFaceType boxKernel downwardTopFace (GetFacePoints downwardTopFace) unitCube zAxis =
      (.ok FACE_ROOFCEILING, (GetFacePoints (downwardTopFace : Face ℚ)).reverse) := by
  have hin := downward_probe_inside
  simp only [CalculateFaceType, boxKernel, triangulateFan_downwardTopFace] at hin ⊢
  simp only [downwardTopFace, cubeFace]
  have hn := downward_normal
  simp only [boxKernel] at hn
  simp only [hn, hin]
  norm_num [Vector.dot, Vector.Reverse, zAxis]

theorem ceiling_probe_inside :
    boxKernel.Contains unitCube
      (offsetVertexOf (boxKernel.CenterOfMass
          ⟨[⟨0, 0, 1⟩, ⟨0, 1, 1⟩, ⟨1, 1, 1⟩], [⟨0, 0, 1⟩, ⟨0, 1, 1⟩, ⟨1, 1, 1⟩], [], [0, 1]⟩)
        ⟨0, 0, -1⟩) = true := by
  norm_num [boxKernel, offsetVertexOf, Vector.Scale, Vertex.Translate, Vertex.Add,
    Vertex.Scale, Vertex.AsVector, meanVertex, strictlyInBox, unitCube, bottomFace, topFace,
    southFace, northFace, westFace, eastFace, cubeFace]

theorem ceilingFace_run :
    CalculateFaceType boxKernel ceilingFace (GetFacePoints ceilingFace) unitCube zAxis =
      (.ok FACE_ROOFCEILING, (GetFacePoints (ceilingFace : Face ℚ)).reverse) := by
  have hin := ceiling_probe_inside
  simp only [CalculateFaceType, boxKernel, triangulateFan_ceilingFace] at hin ⊢
  simp only [ceilingFace]
  have hn := downward_normal
  simp only [boxKernel] at hn
  simp only [hn, hin]
  norm_num [Vector.dot, Vector.Reverse, zAxis]

theorem inwardSouthFace_type :
    (CalculateFaceType boxKernel inwardSouthFace (GetFacePoints inwardSouthFace) unitCube
      zAxis).1 = .ok FACE_WALL := by
  simp only [CalculateFaceType, boxKernel, triangulateFan_inwardSouthFace]
  norm_num [inwardSouthFace, cubeFace, faceNormalOf, normalizeAxis, Vector.l1, Vector.Cross,
    Vector.Scale, Vector.dot, Vertex.AsVector, Vertex.Subtract, zAxis]

theorem inwardSouthFace_normal :
    boxKernel.outwardNormal (GetFacePoints (inwardSouthFace : Face ℚ)) = ⟨0, 1, 0⟩ := by
  norm_num [boxKernel, GetFacePoints, inwardSouthFace, cubeFace, newell, newellFrom,
    normalizeAxis, Vertex.toPoint3d, Vector.l1, Vector.Cross, Vector.Add, Vector.Scale,
    Point3d.toVector]

theorem inwardSouthFace_probe :
    probeInside boxKernel unitCube inwardSouthFace (GetFacePoints (inwardSouthFace : Face ℚ)) =
      true := by
  have hn := inwardSouthFace_normal
  simp only [probeInside, boxKernel, triangulateFan_inwardSouthFace] at hn ⊢
  rw [hn]
  norm_num [offsetVertexOf, Vector.Scale, Vertex.Translate, Vertex.Add,
    Vertex.Scale, Vertex.AsVector, meanVertex, strictlyInBox, unitCube, bottomFace, topFace,
    southFace, northFace, westFace, eastFace, cubeFace]

theorem inwardSouthFace_not_underground :
    IsUnderground (inwardSouthFace : Face ℚ) = false := by
  norm_num [IsUnderground, IsUndergroundLoop, inwardSouthFace, cubeFace]

/-- C15 (counterexample): the south wall of the unit cube with its loop wound
so that the normal points into the cube.  `AddSurface` returns its Surface with
the loop as given, outward normal (0, 1, 0), and the point offset from the face
along that normal is contained in the cube. -/
theorem AddSurface_orientation_counterexample :
    ∃ osSurface : Surface ℚ,
      (AddSurface boxKernel 1 inwardSouthFace unitCube (GetFacePoints inwardSouthFace)
        ⟨"STORY_1_SPACE_1"⟩ zAxis none emptyState).2 = .ok osSurface ∧
      (AddSurface boxKernel 1 inwardSouthFace unitCube (GetFacePoints inwardSouthFace)
        ⟨"STORY_1_SPACE_1"⟩ zAxis none emptyState).1.osModel.surfaces = [osSurface] ∧
      osSurface.vertices = GetFacePoints inwardSouthFace ∧
      boxKernel.outwardNormal osSurface.vertices = ⟨0, 1, 0⟩ ∧
      probeInside boxKernel unitCube inwardSouthFace osSurface.vertices = true := by
  refine ⟨exteriorWallSurface emptyState (GetFacePoints inwardSouthFace)
    ⟨"STORY_1_SPACE_1"⟩ 1, ?_, ?_, rfl, inwardSouthFace_normal, inwardSouthFace_probe⟩
  · rw [AddSurface_exterior_wall_run boxKernel 1 inwardSouthFace unitCube
      (GetFacePoints inwardSouthFace) ⟨"STORY_1_SPACE_1"⟩ zAxis none emptyState
      inwardSouthFace_type (by decide) inwardSouthFace_not_underground]
    rfl
  · rw [AddSurface_exterior_wall_run boxKernel 1 inwardSouthFace unitCube
      (GetFacePoints inwardSouthFace) ⟨"STORY_1_SPACE_1"⟩ zAxis none emptyState
      inwardSouthFace_type (by decide) inwardSouthFace_not_underground]
    rfl

theorem AddSurface_orientation_core (k : Kernel K) (surfaceNumber : Nat)
    (buildingFace : Face K) (buildingSpace : Cell K) (osFacePoints : List (Point3d K))
    (osSpace : Space) (upVector : Vector K) (glazingRatio : Option K) (st : State K)
    (faceType : FaceType)
    (hft : (CalculateFaceType k buildingFace osFacePoints buildingSpace upVector).1 =
      .ok faceType) :
    ∃ osSurface : Surface K,
      (AddSurface k surfaceNumber buildingFace buildingSpace osFacePoints osSpace upVector
        glazingRatio st).1.osModel.surfaces = st.osModel.surfaces ++ [osSurface] ∧
      (faceType = FACE_WALL → osSurface.vertices = osFacePoints) ∧
      (faceType ≠ FACE_WALL → AdjacentCellCount buildingFace < 2 →
        ∀ (firstFace : Face K) (rest : List (Face K)) (p1 p2 p3 : Vertex K)
          (tl : List (Vertex K)),
        k.Triangulate buildingFace = firstFace :: rest →
        buildingFace.Vertices = p1 :: p2 :: p3 :: tl →
        k.outwardNormal osFacePoints = faceNormalOf k p1 p2 p3 →
        k.outwardNormal osFacePoints.reverse = (faceNormalOf k p1 p2 p3).Reverse →
        k.Normalized (faceNormalOf k p1 p2 p3) = faceNormalOf k p1 p2 p3 →
        (k.AngleWithVector (faceNormalOf k p1 p2 p3) upVector < 5 →
          0.98 ≤ (faceNormalOf k p1 p2 p3).dot ⟨0, 0, 1⟩) →
        (k.AngleWithVector (faceNormalOf k p1 p2 p3) upVector > 175 →
          (faceNormalOf k p1 p2 p3).dot ⟨0, 0, 1⟩ ≤ -0.98) →
        k.AngleWithVector (faceNormalOf k p1 p2 p3).Reverse upVector =
          180 - k.AngleWithVector (faceNormalOf k p1 p2 p3) upVector →
        (k.Contains buildingSpace (offsetVertexOf (k.CenterOfMass firstFace)
            (faceNormalOf k p1 p2 p3)) = true →
          k.Contains buildingSpace (offsetVertexOf (k.CenterOfMass firstFace)
            (faceNormalOf k p1 p2 p3).Reverse) = false) →
        probeInside k buildingSpace buildingFace osSurface.vertices = false) := by
  obtain ⟨osSurface, hs, hv, _⟩ := AddSurface_surface k surfaceNumber buildingFace
    buildingSpace osFacePoints osSpace upVector glazingRatio st faceType hft
  refine ⟨osSurface, hs, ?_, ?_⟩
  · intro hw
    rw [hv, hw]
    simp [surfaceLoop]
  · intro hne hadj firstFace rest p1 p2 p3 tl htri hverts hn hnr hu hup hdown hrev hside
    rw [hv]
    exact exterior_horizontal_probe k buildingFace osFacePoints buildingSpace upVector
      firstFace rest p1 p2 p3 tl htri hverts hadj faceType hft hne hn hnr hu hup hdown hrev
      hside

/-- C15 (amended): for a face the classifier accepts, `AddSurface` leaves one
Surface in the model.  For a face classified Wall its loop is the input loop as
given: the probe is not consulted for walls.  For a face classified RoofCeiling
or Floor with fewer than two adjacent cells, on a geometrically consistent
kernel (the outward normal of the input loop is the unit face normal, that of
the reversed loop is its reverse, an angle below 5 with the up axis means a
z-component of at least 0.98 and an angle above 175 one of at most -0.98, the
angle of the reversed normal is 180 minus the angle, and a probe inside on one
side of the face is outside on the other), the point offset from the face along
the outward normal of the final loop is not contained in the owning cell. -/
theorem AddSurface_orientation (k : Kernel K) (surfaceNumber : Nat)
    (buildingFace : Face K) (buildingSpace : Cell K) (osFacePoints : List (Point3d K))
    (osSpace : Space) (upVector : Vector K) (glazingRatio : Option K) (st : State K)
    (faceType : FaceType)
    (hft : (CalculateFaceType k buildingFace osFacePoints buildingSpace upVector).1 =
      .ok faceType) :
    ∃ osSurface : Surface K,
      (AddSurface k surfaceNumber buildingFace buildingSpace osFacePoints osSpace upVector
        glazingRatio st).1.osModel.surfaces = st.osModel.surfaces ++ [osSurface] ∧
      (faceType = FACE_WALL → osSurface.vertices = osFacePoints) ∧
      (faceType ≠ FACE_WALL → AdjacentCellCount buildingFace < 2 →
        ∀ (firstFace : Face K) (rest : List (Face K)) (p1 p2 p3 : Vertex K)
          (tl : List (Vertex K)),
        k.Triangulate buildingFace = firstFace :: rest →
        buildingFace.Vertices = p1 :: p2 :: p3 :: tl →
        k.outwardNormal osFacePoints = faceNormalOf k p1 p2 p3 →
        k.outwardNormal osFacePoints.reverse = (faceNormalOf k p1 p2 p3).Reverse →
        k.Normalized (faceNormalOf k p1 p2 p3) = faceNormalOf k p1 p2 p3 →
        (k.AngleWithVector (faceNormalOf k p1 p2 p3) upVector < 5 →
          0.98 ≤ (faceNormalOf k p1 p2 p3).dot ⟨0, 0, 1⟩) →
        (k.AngleWithVector (faceNormalOf k p1 p2 p3) upVector > 175 →
          (faceNormalOf k p1 p2 p3).dot ⟨0, 0, 1⟩ ≤ -0.98) →
        k.AngleWithVector (faceNormalOf k p1 p2 p3).Reverse upVector =
          180 - k.AngleWithVector (faceNormalOf k p1 p2 p3) upVector →
        (k.Contains buildingSpace (offsetVertexOf (k.CenterOfMass firstFace)
            (faceNormalOf k p1 p2 p3)) = true →
          k.Contains buildingSpace (offsetVertexOf (k.CenterOfMass firstFace)
            (faceNormalOf k p1 p2 p3).Reverse) = false) →
        probeInside k buildingSpace buildingFace osSurface.vertices = false) :=
  AddSurface_orientation_core k surfaceNumber buildingFace buildingSpace osFacePoints osSpace
    upVector glazingRatio st faceType hft

theorem downwardTopFace_loop_normal :
    boxKernel.outwardNormal (GetFacePoints (downwardTopFace : Face ℚ)) = ⟨0, 0, -1⟩ := by
  norm_num [boxKernel, GetFacePoints, downwardTopFace, cubeFace, newell, newellFrom,
    normalizeAxis, Vertex.toPoint3d, Vector.l1, Vector.Cross, Vector.Add, Vector.Scale,
    Point3d.toVector]

theorem downwardTopFace_reversed_normal :
    boxKernel.outwardNormal (GetFacePoints (downwardTopFace : Face ℚ)).reverse = ⟨0, 0, 1⟩ := by
  norm_num [boxKernel, GetFacePoints, downwardTopFace, cubeFace, newell, newellFrom,
    normalizeAxis, Vertex.toPoint3d, Vector.l1, Vector.Cross, Vector.Add, Vector.Scale,
    Point3d.toVector]

/-- Witness of `AddSurface_orientation`: the top face of the unit cube wound
with its normal down is classified RoofCeiling, the only cell being the cube;
the Surface left in the model has the point offset along its outward normal
outside the cube. -/
theorem AddSurface_orientation_witness :
    ∃ osSurface : Surface ℚ,
      (AddSurface boxKernel 1 downwardTopFace unitCube (GetFacePoints downwardTopFace)
        ⟨"STORY_1_SPACE_1"⟩ zAxis none emptyState).1.osModel.surfaces =
        emptyState.osModel.surfaces ++ [osSurface] ∧
      probeInside boxKernel unitCube downwardTopFace osSurface.vertices = false := by
  obtain ⟨osSurface, hs, _, hprobe⟩ := AddSurface_orientation boxKernel 1 downwardTopFace
    unitCube (GetFacePoints downwardTopFace) ⟨"STORY_1_SPACE_1"⟩ zAxis none emptyState
    FACE_ROOFCEILING (by rw [downwardTopFace_run])
  refine ⟨osSurface, hs, hprobe (fun h => by cases h) (by decide) _ _ ⟨0, 0, 1⟩ ⟨0, 1, 1⟩
    ⟨1, 1, 1⟩ [⟨1, 0, 1⟩] triangulateFan_downwardTopFace rfl ?_ ?_ ?_ ?_ ?_
    (boxKernel_angle_reverse _ _) ?_⟩
  · rw [downwardTopFace_loop_normal, downward_normal]
  · rw [downwardTopFace_reversed_normal, downward_normal]
    norm_num [Vector.Reverse]
  · rw [downward_normal]
    norm_num [boxKernel, normalizeAxis, Vector.l1, Vector.Scale]
  · rw [downward_normal]
    norm_num [boxKernel, Vector.dot, zAxis]
  · rw [downward_normal]
    intro _
    norm_num [Vector.dot]
  · intro _
    rw [downward_normal]
    have h := upward_probe_outside
    simpa [Vector.Reverse] using h

/-- C16 (the code at the failing input): the top face of the unit cube, shared
with a cell above and wound with its normal down, is near-horizontal (angle
180) and its probe point is inside the cube; the classifier hands back the loop
reversed and the type RoofCeiling, and `AddSurface` returns a Surface that
carries the loop in the order given, not the reversed one. -/
theorem AddSurface_interior_ceiling_order :
    AdjacentCellCount (ceilingFace : Face ℚ) = 2 ∧
    boxKernel.AngleWithVector (faceNormalOf boxKernel ⟨0, 0, 1⟩ ⟨0, 1, 1⟩ ⟨1, 1, 1⟩) zAxis =
      180 ∧
    boxKernel.Contains unitCube
      (offsetVertexOf (boxKernel.CenterOfMass
          ⟨[⟨0, 0, 1⟩, ⟨0, 1, 1⟩, ⟨1, 1, 1⟩], [⟨0, 0, 1⟩, ⟨0, 1, 1⟩, ⟨1, 1, 1⟩], [], [0, 1]⟩)
        (faceNormalOf boxKernel ⟨0, 0, 1⟩ ⟨0, 1, 1⟩ ⟨1, 1, 1⟩)) = true ∧
    CalculateFaceType boxKernel ceilingFace (GetFacePoints ceilingFace) unitCube zAxis =
      (.ok FACE_ROOFCEILING, (GetFacePoints (ceilingFace : Face ℚ)).reverse) ∧
    ∃ osSurface : Surface ℚ,
      (AddSurface boxKernel 1 ceilingFace unitCube (GetFacePoints ceilingFace)
        ⟨"STORY_1_SPACE_1"⟩ zAxis none emptyState).2 = .ok osSurface ∧
      (AddSurface boxKernel 1 ceilingFace unitCube (GetFacePoints ceilingFace)
        ⟨"STORY_1_SPACE_1"⟩ zAxis none emptyState).1.osModel.surfaces = [osSurface] ∧
      osSurface.vertices = GetFacePoints ceilingFace ∧
      osSurface.vertices ≠ (GetFacePoints (ceilingFace : Face ℚ)).reverse := by
  have hft : (CalculateFaceType boxKernel ceilingFace (GetFacePoints ceilingFace) unitCube
      zAxis).1 = .ok FACE_ROOFCEILING := by rw [ceilingFace_run]
  obtain ⟨osSurface, hs, hv, _, _, hret⟩ := AddSurface_surface boxKernel 1 ceilingFace unitCube
    (GetFacePoints ceilingFace) ⟨"STORY_1_SPACE_1"⟩ zAxis none emptyState FACE_ROOFCEILING hft
  obtain ⟨returned, hok⟩ := AddSurface_ok_of_not_exterior_wall boxKernel 1 ceilingFace unitCube
    (GetFacePoints ceilingFace) ⟨"STORY_1_SPACE_1"⟩ zAxis none emptyState FACE_ROOFCEILING hft
    (fun h => by cases h.1)
  have hvert : osSurface.vertices = GetFacePoints ceilingFace := by
    rw [hv]
    simp [surfaceLoop, AdjacentCellCount, ceilingFace]
  refine ⟨rfl, ?_, ?_, ceilingFace_run, osSurface, ?_, ?_, hvert, ?_⟩
  · rw [downward_normal]
    norm_num [boxKernel, Vector.dot, zAxis]
  · rw [downward_normal]
    exact ceiling_probe_inside
  · rw [hok, hret returned hok]
  · rw [hs]
    simp [emptyState]
  · rw [hvert]
    simp [GetFacePoints, ceilingFace, Vertex.toPoint3d]

end OrientationClaims2

section ColourTheorems

variable {K : Type} [LinearOrderedField K] [FloorRing K]

theorem colorComponent_range (c : K) : 0 ≤ colorComponent c ∧ colorComponent c ≤ 255 := by
  have hzero : (0.0 : K) = 0 := by norm_num
  have h255 : (255.0 : K) = 255 := by norm_num
  unfold colorComponent
  rw [hzero, h255]
  constructor
  · exact Int.floor_nonneg.mpr (le_max_right _ _)
  · have h : max (min ((⌊255 * c⌋ : Int) : K) 255) 0 ≤ ((255 : Int) : K) := by
      push_cast
      exact max_le (min_le_right _ _) (by norm_num)
    exact (Int.floor_le_floor h).trans (by rw [Int.floor_intCast])

theorem colorComponent_zero : colorComponent (0 : K) = 0 := by
  have hzero : (0.0 : K) = 0 := by norm_num
  have h255 : (255.0 : K) = 255 := by norm_num
  unfold colorComponent
  rw [hzero, h255, mul_zero, Int.floor_zero, Int.cast_zero, min_eq_left (by norm_num),
    max_self, Int.floor_zero]

theorem colorComponent_one : colorComponent (1 : K) = 255 := by
  have h255 : (255.0 : K) = 255 := by norm_num
  have hzero : (0.0 : K) = 0 := by norm_num
  have h1 : ⌊(255 : K)⌋ = 255 := by
    have h := @Int.floor_intCast K _ _ 255
    rw [Int.cast_ofNat] at h
    exact h
  unfold colorComponent
  rw [h255, hzero, mul_one, h1]
  have h2 : max (min (((255 : Int) : K)) 255) 0 = ((255 : Int) : K) := by
    push_cast
    rw [min_self, max_eq_left (by norm_num)]
  rw [h2, Int.floor_intCast]

theorem GetColor_of_nonpos (ratio : K) (h : ratio ≤ 0) : GetColor ratio = [0, 0, 255] := by
  have hzero : (0.0 : K) = 0 := by norm_num
  have hone : (1.0 : K) = 1 := by norm_num
  have hfinal : (if ratio < 0.0 then (0.0 : K) else if ratio > 1.0 then 1.0 else ratio) = 0 := by
    rw [hzero, hone]
    by_cases hlt : ratio < 0
    · rw [if_pos hlt]
    · rw [if_neg hlt, if_neg (by linarith)]
      exact le_antisymm h (not_lt.mp hlt)
  have hbranch : (0.0 : K) ≥ 0.0 ∧ (0.0 : K) ≤ 0.25 := by norm_num
  simp only [GetColor, hfinal]
  rw [← hzero, if_pos hbranch]
  simp only [hzero, hone, mul_zero, colorComponent_zero, colorComponent_one]

theorem GetColor_of_one_le (ratio : K) (h : 1 ≤ ratio) : GetColor ratio = [255, 0, 0] := by
  have hzero : (0.0 : K) = 0 := by norm_num
  have hone : (1.0 : K) = 1 := by norm_num
  have hfinal : (if ratio < 0.0 then (0.0 : K) else if ratio > 1.0 then 1.0 else ratio) = 1 := by
    rw [hzero, hone]
    rw [if_neg (by linarith)]
    by_cases hgt : ratio > 1
    · rw [if_pos hgt]
    · rw [if_neg hgt]
      exact le_antisymm (not_lt.mp hgt) h
  have h1 : ¬ ((1 : K) ≥ 0.0 ∧ (1 : K) ≤ 0.25) := by norm_num
  have h2 : ¬ ((1 : K) > 0.25 ∧ (1 : K) ≤ 0.5) := by norm_num
  have h3 : ¬ ((1 : K) > 0.5 ∧ (1 : K) ≤ 0.75) := by norm_num
  have hg : (1.0 : K) - 4.0 * (1 - 0.75) = 0 := by norm_num
  simp only [GetColor]
  rw [hfinal]
  simp only [if_neg h1, if_neg h2, if_neg h3, hg]
  simp only [hzero, hone, colorComponent_zero, colorComponent_one]

theorem GetColor_components (ratio : K) :
    ∃ r g b : Int, GetColor ratio = [r, g, b] ∧
      0 ≤ r ∧ r ≤ 255 ∧ 0 ≤ g ∧ g ≤ 255 ∧ 0 ≤ b ∧ b ≤ 255 :=
  ⟨_, _, _, rfl, (colorComponent_range _).1, (colorComponent_range _).2,
    (colorComponent_range _).1, (colorComponent_range _).2,
    (colorComponent_range _).1, (colorComponent_range _).2⟩

/-- C24: for every ratio `GetColor` returns exactly three integer components,
each within 0..255; every ratio at most 0 gives the colour of 0, which is
(0, 0, 255), and every ratio at least 1 gives the colour of 1, which is
(255, 0, 0). -/
theorem GetColor_range_and_clamp (ratio : K) :
    (∃ r g b : Int, GetColor ratio = [r, g, b] ∧
      0 ≤ r ∧ r ≤ 255 ∧ 0 ≤ g ∧ g ≤ 255 ∧ 0 ≤ b ∧ b ≤ 255) ∧
    (ratio ≤ 0 → GetColor ratio = GetColor (0 : K) ∧ GetColor ratio = [0, 0, 255]) ∧
    (ratio ≥ 1 → GetColor ratio = GetColor (1 : K) ∧ GetColor ratio = [255, 0, 0]) :=
  ⟨GetColor_components ratio,
    fun h => ⟨by rw [GetColor_of_nonpos ratio h, GetColor_of_nonpos 0 le_rfl],
      GetColor_of_nonpos ratio h⟩,
    fun h => ⟨by rw [GetColor_of_one_le ratio h, GetColor_of_one_le 1 le_rfl],
      GetColor_of_one_le ratio h⟩⟩

/-- Witness of `GetColor_range_and_clamp`: the ratios -2 and 5. -/
theorem GetColor_range_and_clamp_witness :
    GetColor (-2 : ℚ) = [0, 0, 255] ∧ GetColor (5 : ℚ) = [255, 0, 0] :=
  ⟨((GetColor_range_and_clamp (-2 : ℚ)).2.1 (by norm_num)).2,
    ((GetColor_range_and_clamp (5 : ℚ)).2.2 (by norm_num)).2⟩

end ColourTheorems

section ExportTheorems

theorem ExportTogbXML_outcome {M : Type} (modelToGbXML : M → String → Bool × List String)
    (osModel : M) (path : String) :
    ((modelToGbXML osModel path).2 ≠ [] →
      ∃ e, ExportTogbXML modelToGbXML (some osModel) (some path) = .error e) ∧
    ((modelToGbXML osModel path).2 = [] →
      ExportTogbXML modelToGbXML (some osModel) (some path) = .ok true) := by
  constructor
  · intro h
    have hpos : (modelToGbXML osModel path).2.length > 0 := List.length_pos.mpr h
    simp only [ExportTogbXML, if_pos hpos]
    exact ⟨_, rfl⟩
  · intro h
    simp [ExportTogbXML, h]

theorem ExportTogbXML_ne_false {M : Type} (modelToGbXML : M → String → Bool × List String)
    (energyModel : Option M) (filePath : Option String) :
    ExportTogbXML modelToGbXML energyModel filePath ≠ .ok false := by
  cases filePath with
  | none => simp [ExportTogbXML]
  | some path =>
    cases energyModel with
    | none => simp [ExportTogbXML]
    | some osModel =>
      simp only [ExportTogbXML]
      split_ifs <;> simp

/-- C25: `ExportTogbXML` never returns false.  For a non-null energy model and
path it fails with an error when the error list of the translator is not
empty and returns true when it is empty; the success flag of `modelToGbXML`
plays no part in the result. -/
theorem ExportTogbXML_never_false {M : Type} (modelToGbXML : M → String → Bool × List String)
    (energyModel : Option M) (filePath : Option String) :
    ExportTogbXML modelToGbXML energyModel filePath ≠ .ok false ∧
    (∀ (osModel : M) (path : String),
      ((modelToGbXML osModel path).2 ≠ [] →
        ∃ e, ExportTogbXML modelToGbXML (some osModel) (some path) = .error e) ∧
      ((modelToGbXML osModel path).2 = [] →
        ExportTogbXML modelToGbXML (some osModel) (some path) = .ok true)) ∧
    (∀ success : M → String → Bool,
      ExportTogbXML (fun osModel path => (success osModel path, (modelToGbXML osModel path).2))
          energyModel filePath =
        ExportTogbXML modelToGbXML energyModel filePath) :=
  ⟨ExportTogbXML_ne_false modelToGbXML energyModel filePath,
    fun osModel path => ExportTogbXML_outcome modelToGbXML osModel path,
    fun _ => rfl⟩

/-- Witness of `ExportTogbXML_never_false`: a translator that reports failure
through its flag and holds no error; the export returns true. -/
theorem ExportTogbXML_never_false_witness :
    ExportTogbXML (fun (_ : Unit) (_ : String) => (false, ([] : List String))) (some ())
      (some "model.xml") = .ok true :=
  ((ExportTogbXML_never_false (fun (_ : Unit) (_ : String) => (false, ([] : List String)))
    (some ()) (some "model.xml")).2.1 () "model.xml").2 rfl

end ExportTheorems

section CounterInvariant

variable {K : Type} [LinearOrderedField K]

theorem attachAperture_ordered (k : Kernel K) (osSurface : Surface K) (surfaceIndex : Nat)
    (osWindowSubSurface : SubSurface K) (s : SubState K)
    (h : CountersOrdered s.numOfAppliedApertures s.numOfApertures) :
    CountersOrdered
      (attachAperture k osSurface surfaceIndex osWindowSubSurface s).numOfAppliedApertures
      (attachAperture k osSurface surfaceIndex osWindowSubSurface s).numOfApertures := by
  obtain ⟨h0, h1⟩ := h
  unfold attachAperture CountersOrdered
  simp only
  split_ifs <;> constructor <;> simp only <;> omega

theorem applyAperture_ordered (k : Kernel K) (osSurface : Surface K) (surfaceIndex : Nat)
    (pContent : Content K) (s : SubState K)
    (h : CountersOrdered s.numOfAppliedApertures s.numOfApertures) :
    CountersOrdered
      (applyAperture k osSurface surfaceIndex pContent s).1.numOfAppliedApertures
      (applyAperture k osSurface surfaceIndex pContent s).1.numOfApertures := by
  cases pContent with
  | other => exact h
  | aperture topology =>
    cases topology with
    | none => exact h
    | some pFaceAperture =>
      rw [applyAperture_rule]
      split_ifs
      · exact h
      · exact attachAperture_ordered k osSurface surfaceIndex _ s h
      · exact h
      · exact attachAperture_ordered k osSurface surfaceIndex _ s h

theorem applyApertures_ordered (k : Kernel K) (osSurface : Surface K) (surfaceIndex : Nat) :
    ∀ (contents : List (Content K)) (s : SubState K),
      CountersOrdered s.numOfAppliedApertures s.numOfApertures →
      CountersOrdered
        (applyApertures k osSurface surfaceIndex contents s).1.numOfAppliedApertures
        (applyApertures k osSurface surfaceIndex contents s).1.numOfApertures := by
  intro contents
  induction contents with
  | nil => intro s h; exact h
  | cons pContent rest ih =>
    intro s h
    have hstep := applyAperture_ordered k osSurface surfaceIndex pContent s h
    rw [applyApertures]
    rcases hres : applyAperture k osSurface surfaceIndex pContent s with ⟨s1, res⟩
    rw [hres] at hstep
    cases res with
    | error e => exact hstep
    | ok u => exact ih s1 hstep

theorem addWallApertures_ordered (k : Kernel K) (buildingFace : Face K)
    (osSurface : Surface K) (surfaceIndex : Nat) (glazingRatio : Option K) (s : SubState K)
    (h : CountersOrdered s.numOfAppliedApertures s.numOfApertures) :
    CountersOrdered
      (addWallApertures k buildingFace osSurface surfaceIndex glazingRatio s).1.numOfAppliedApertures
      (addWallApertures k buildingFace osSurface surfaceIndex glazingRatio s).1.numOfApertures := by
  cases glazingRatio with
  | none => exact applyApertures_ordered k osSurface surfaceIndex buildingFace.Contents s h
  | some value =>
    simp only [addWallApertures]
    split_ifs
    · exact h
    · rcases hsc : ScaleFaceVertices k buildingFace value with e | scaled
      · exact h
      · cases scaled with
        | nil => exact h
        | cons first rest =>
          obtain ⟨_, _, _, hn, ha⟩ :=
            synthesizeWindows_created k osSurface surfaceIndex first rest s
          simp only
          rw [hn, ha]
          exact h
    · exact h

theorem AddSurface_ordered (k : Kernel K) (surfaceNumber : Nat) (buildingFace : Face K)
    (buildingSpace : Cell K) (osFacePoints : List (Point3d K)) (osSpace : Space)
    (upVector : Vector K) (glazingRatio : Option K) (st : State K)
    (h : CountersOrdered st.numOfAppliedApertures st.numOfApertures) :
    CountersOrdered
      (AddSurface k surfaceNumber buildingFace buildingSpace osFacePoints osSpace upVector
        glazingRatio st).1.numOfAppliedApertures
      (AddSurface k surfaceNumber buildingFace buildingSpace osFacePoints osSpace upVector
        glazingRatio st).1.numOfApertures := by
  by_cases hwall : (CalculateFaceType k buildingFace osFacePoints buildingSpace upVector).1 =
      .ok FACE_WALL ∧ AdjacentCellCount buildingFace < 2 ∧ IsUnderground buildingFace = false
  · obtain ⟨hft, hadj, hug⟩ := hwall
    obtain ⟨_, hn, ha⟩ := AddSurface_exterior_wall_subs k surfaceNumber buildingFace
      buildingSpace osFacePoints osSpace upVector glazingRatio st hft hadj hug
    rw [hn, ha]
    exact addWallApertures_ordered k buildingFace _ _ glazingRatio _ h
  · obtain ⟨_, hn, ha⟩ := AddSurface_no_subsurface k surfaceNumber buildingFace buildingSpace
      osFacePoints osSpace upVector glazingRatio st hwall
    rw [hn, ha]
    exact h

theorem AddSpaceSurfaces_ordered (k : Kernel K) (cell : Cell K) (osSpace : Space)
    (upVector : Vector K) (glazingRatio : Option K) :
    ∀ (faces : List (Face K)) (i : Nat) (st : State K),
      CountersOrdered st.numOfAppliedApertures st.numOfApertures →
      CountersOrdered
        (AddSpaceSurfaces k cell osSpace upVector glazingRatio faces i st).1.numOfAppliedApertures
        (AddSpaceSurfaces k cell osSpace upVector glazingRatio faces i st).1.numOfApertures := by
  intro faces
  induction faces with
  | nil => intro i st h; exact h
  | cons face rest ih =>
    intro i st h
    have hstep := AddSurface_ordered k (i + 1) face cell (GetFacePoints face) osSpace upVector
      glazingRatio st h
    rw [AddSpaceSurfaces]
    rcases hres : AddSurface k (i + 1) face cell (GetFacePoints face) osSpace upVector
      glazingRatio st with ⟨st1, res⟩
    rw [hres] at hstep
    cases res with
    | error e => exact hstep
    | ok osSurface => exact ih (i + 1) st1 hstep

theorem AddSpace_ordered (k : Kernel K) (buildingStories : List String) (spaceNumber : Nat)
    (cell : Cell K) (upVector : Vector K) (floorLevels : List K) (glazingRatio : Option K)
    (st : State K) (h : CountersOrdered st.numOfAppliedApertures st.numOfApertures) :
    CountersOrdered
      (AddSpace k buildingStories spaceNumber cell upVector floorLevels glazingRatio
        st).1.numOfAppliedApertures
      (AddSpace k buildingStories spaceNumber cell upVector floorLevels glazingRatio
        st).1.numOfApertures := by
  unfold AddSpace
  simp only
  rcases hstory : buildingStories[StoryNumber cell floorLevels]? with _ | buildingStory
  · exact h
  · have hloop := AddSpaceSurfaces_ordered k cell
      ⟨buildingStory ++ "_SPACE_" ++ toString spaceNumber⟩ upVector glazingRatio cell.Faces 0
      st h
    simp only
    rcases hres : AddSpaceSurfaces k cell ⟨buildingStory ++ "_SPACE_" ++ toString spaceNumber⟩
      upVector glazingRatio cell.Faces 0 st with ⟨st1, res⟩
    rw [hres] at hloop
    cases res with
    | error e => exact hloop
    | ok u => exact hloop

theorem AddSpaces_ordered (k : Kernel K) (matchSurfaces : Space → Space → Model K → Model K)
    (buildingStories : List String) (floorLevels : List K) (glazingRatio : Option K) :
    ∀ (cells : List (Cell K)) (osSpaceVector : List Space) (st : State K),
      CountersOrdered st.numOfAppliedApertures st.numOfApertures →
      CountersOrdered
        (AddSpaces k matchSurfaces buildingStories floorLevels glazingRatio cells
          osSpaceVector st).1.numOfAppliedApertures
        (AddSpaces k matchSurfaces buildingStories floorLevels glazingRatio cells
          osSpaceVector st).1.numOfApertures := by
  intro cells
  induction cells with
  | nil => intro v st h; exact h
  | cons cell rest ih =>
    intro v st h
    have hstep := AddSpace_ordered k buildingStories 1 cell zAxis floorLevels glazingRatio st h
    rw [AddSpaces]
    simp only
    rcases hres : AddSpace k buildingStories 1 cell zAxis floorLevels glazingRatio st with
      ⟨st1, res⟩
    rw [hres] at hstep
    cases res with
    | error e => exact hstep
    | ok osSpace => exact ih _ _ hstep

theorem ByCellComplex_ordered (k : Kernel K)
    (matchSurfaces : Space → Space → Model K → Model K) (template : Model K)
    (pBuildingCells : List (Cell K)) (floorLevels : List K) (glazingRatio : Option K) :
    CountersOrdered
      (ByCellComplex k matchSurfaces template pBuildingCells floorLevels
        glazingRatio).1.numOfAppliedApertures
      (ByCellComplex k matchSurfaces template pBuildingCells floorLevels
        glazingRatio).1.numOfApertures := by
  unfold ByCellComplex
  cases floorLevels with
  | nil => exact ⟨le_rfl, le_rfl⟩
  | cons a levels =>
    exact AddSpaces_ordered k matchSurfaces _ _ glazingRatio pBuildingCells [] _
      ⟨le_rfl, le_rfl⟩

end CounterInvariant

section CounterInvariantClaim

variable {K : Type} [LinearOrderedField K]

/-- C22: the aperture counters satisfy `0 <= numOfAppliedApertures <=
numOfApertures` throughout an assembly.  `ByCellComplex` starts the space loop
in a state with both counters 0; every iteration of the explicit-aperture
loop, every `AddSurface` call and every `AddSpace` call leaves the inequality
in force when it held before, whether the call returns or throws; so it holds
in the state `ByCellComplex` ends in. -/
theorem aperture_counters_ordered (k : Kernel K)
    (matchSurfaces : Space → Space → Model K → Model K) (template : Model K)
    (pBuildingCells : List (Cell K)) (floorLevels : List K) (glazingRatio : Option K) :
    (∀ (a : K) (levels : List K), ∃ st0 : State K,
      st0.numOfApertures = 0 ∧ st0.numOfAppliedApertures = 0 ∧
      ByCellComplex k matchSurfaces template pBuildingCells (a :: levels) glazingRatio =
        AddSpaces k matchSurfaces (CreateBuildingStories (numFloors (a :: levels)))
          (a :: levels) glazingRatio pBuildingCells [] st0) ∧
    (∀ (osSurface : Surface K) (surfaceIndex : Nat) (pContent : Content K) (s : SubState K),
      CountersOrdered s.numOfAppliedApertures s.numOfApertures →
      CountersOrdered
        (applyAperture k osSurface surfaceIndex pContent s).1.numOfAppliedApertures
        (applyAperture k osSurface surfaceIndex pContent s).1.numOfApertures) ∧
    (∀ (surfaceNumber : Nat) (buildingFace : Face K) (buildingSpace : Cell K)
        (osFacePoints : List (Point3d K)) (osSpace : Space) (upVector : Vector K)
        (ratio : Option K) (st : State K),
      CountersOrdered st.numOfAppliedApertures st.numOfApertures →
      CountersOrdered
        (AddSurface k surfaceNumber buildingFace buildingSpace osFacePoints osSpace upVector
          ratio st).1.numOfAppliedApertures
        (AddSurface k surfaceNumber buildingFace buildingSpace osFacePoints osSpace upVector
          ratio st).1.numOfApertures) ∧
    (∀ (buildingStories : List String) (spaceNumber : Nat) (cell : Cell K)
        (upVector : Vector K) (st : State K),
      CountersOrdered st.numOfAppliedApertures st.numOfApertures →
      CountersOrdered
        (AddSpace k buildingStories spaceNumber cell upVector floorLevels glazingRatio
          st).1.numOfAppliedApertures
        (AddSpace k buildingStories spaceNumber cell upVector floorLevels glazingRatio
          st).1.numOfApertures) ∧
    CountersOrdered
      (ByCellComplex k matchSurfaces template pBuildingCells floorLevels
        glazingRatio).1.numOfAppliedApertures
      (ByCellComplex k matchSurfaces template pBuildingCells floorLevels
        glazingRatio).1.numOfApertures :=
  ⟨fun _ _ => ⟨_, rfl, rfl, rfl⟩,
    fun osSurface surfaceIndex pContent s h =>
      applyAperture_ordered k osSurface surfaceIndex pContent s h,
    fun surfaceNumber buildingFace buildingSpace osFacePoints osSpace upVector ratio st h =>
      AddSurface_ordered k surfaceNumber buildingFace buildingSpace osFacePoints osSpace
        upVector ratio st h,
    fun buildingStories spaceNumber cell upVector st h =>
      AddSpace_ordered k buildingStories spaceNumber cell upVector floorLevels glazingRatio st h,
    ByCellComplex_ordered k matchSurfaces template pBuildingCells floorLevels glazingRatio⟩

/-- Witness of `aperture_counters_ordered`: from the empty state, whose
counters are both 0, `AddSurface` on the south wall of the unit cube carrying
four contents ends with ordered counters. -/
theorem aperture_counters_ordered_witness :
    CountersOrdered (emptyState : State ℚ).numOfAppliedApertures
      (emptyState : State ℚ).numOfApertures ∧
    CountersOrdered
      (AddSurface boxKernel 1 glazedSouthFace unitCube (GetFacePoints glazedSouthFace)
        ⟨"STORY_1_SPACE_1"⟩ zAxis none emptyState).1.numOfAppliedApertures
      (AddSurface boxKernel 1 glazedSouthFace unitCube (GetFacePoints glazedSouthFace)
        ⟨"STORY_1_SPACE_1"⟩ zAxis none emptyState).1.numOfApertures :=
  ⟨⟨le_rfl, le_rfl⟩,
    (aperture_counters_ordered boxKernel (fun _ _ osModel => osModel) emptyState.osModel
      [unitCube] [0, 3] none).2.2.1 1 glazedSouthFace unitCube (GetFacePoints glazedSouthFace)
      ⟨"STORY_1_SPACE_1"⟩ zAxis none emptyState ⟨le_rfl, le_rfl⟩⟩

end CounterInvariantClaim

section ReversalRule

variable {K : Type} [LinearOrderedField K]

theorem AddSurface_exterior_horizontal_loop (k : Kernel K) (surfaceNumber : Nat)
    (buildingFace : Face K) (buildingSpace : Cell K) (osFacePoints : List (Point3d K))
    (osSpace : Space) (upVector : Vector K) (glazingRatio : Option K) (st : State K)
    (faceType : FaceType)
    (hft : (CalculateFaceType k buildingFace osFacePoints buildingSpace upVector).1 =
      .ok faceType)
    (hadj : AdjacentCellCount buildingFace < 2) :
    ∃ osSurface : Surface K,
      (AddSurface k surfaceNumber buildingFace buildingSpace osFacePoints osSpace upVector
        glazingRatio st).1.osModel.surfaces = st.osModel.surfaces ++ [osSurface] ∧
      (faceType = FACE_ROOFCEILING →
        osSurface.vertices =
          if (k.Normalized (k.outwardNormal osFacePoints)).dot ⟨0, 0, 1⟩ < 0.98 then
            osFacePoints.reverse
          else osFacePoints) ∧
      (faceType = FACE_FLOOR →
        osSurface.vertices =
          if (k.Normalized (k.outwardNormal osFacePoints)).dot ⟨0, 0, -1⟩ < 0.98 then
            osFacePoints.reverse
          else osFacePoints) ∧
      ((k.outwardNormal osFacePoints = ⟨0, 0, 1⟩ ∨ k.outwardNormal osFacePoints = ⟨0, 0, -1⟩) →
        k.outwardNormal osFacePoints.reverse = (k.outwardNormal osFacePoints).Reverse →
        k.Normalized (k.outwardNormal osFacePoints) = k.outwardNormal osFacePoints →
        (faceType = FACE_ROOFCEILING → k.outwardNormal osSurface.vertices = ⟨0, 0, 1⟩) ∧
        (faceType = FACE_FLOOR → k.outwardNormal osSurface.vertices = ⟨0, 0, -1⟩)) := by
  obtain ⟨osSurface, hs, hv, _⟩ := AddSurface_surface k surfaceNumber buildingFace
    buildingSpace osFacePoints osSpace upVector glazingRatio st faceType hft
  have hroof : faceType = FACE_ROOFCEILING →
      osSurface.vertices =
        if (k.Normalized (k.outwardNormal osFacePoints)).dot ⟨0, 0, 1⟩ < 0.98 then
          osFacePoints.reverse
        else osFacePoints := by
    intro h
    rw [hv, h]
    simp only [surfaceLoop, hadj, true_and, if_true, facingLoop]
  have hfloor : faceType = FACE_FLOOR →
      osSurface.vertices =
        if (k.Normalized (k.outwardNormal osFacePoints)).dot ⟨0, 0, -1⟩ < 0.98 then
          osFacePoints.reverse
        else osFacePoints := by
    intro h
    rw [hv, h]
    simp only [surfaceLoop, hadj, true_and, reduceCtorEq, if_false, if_true, facingLoop]
  refine ⟨osSurface, hs, hroof, hfloor, ?_⟩
  intro hhor hrev hunit
  have h98 : (0.98 : K) = 98 / 100 := by norm_num
  constructor
  · intro h
    rw [hroof h, hunit]
    rcases hhor with hn | hn
    · have hnot : ¬ ((k.outwardNormal osFacePoints).dot ⟨0, 0, 1⟩ < 0.98) := by
        rw [hn, h98]
        norm_num [Vector.dot]
      rw [if_neg hnot, hn]
    · have hlt : (k.outwardNormal osFacePoints).dot ⟨0, 0, 1⟩ < 0.98 := by
        rw [hn, h98]
        norm_num [Vector.dot]
      rw [if_pos hlt, hrev, hn]
      simp [Vector.Reverse]
  · intro h
    rw [hfloor h, hunit]
    rcases hhor with hn | hn
    · have hlt : (k.outwardNormal osFacePoints).dot ⟨0, 0, -1⟩ < 0.98 := by
        rw [hn, h98]
        norm_num [Vector.dot]
      rw [if_pos hlt, hrev, hn]
      simp [Vector.Reverse]
    · have hnot : ¬ ((k.outwardNormal osFacePoints).dot ⟨0, 0, -1⟩ < 0.98) := by
        rw [hn, h98]
        norm_num [Vector.dot]
      rw [if_neg hnot, hn]

/-- C23: for a face classified RoofCeiling with fewer than two adjacent cells,
the Surface `AddSurface` leaves in the model carries the input loop reversed
exactly when the dot product of its normalised outward normal with (0, 0, 1)
is below 0.98, and the input loop as given otherwise; for a face classified
Floor with fewer than two adjacent cells likewise with (0, 0, -1).  Hence,
when the outward normal of the input loop is (0, 0, 1) or (0, 0, -1) (and the
library gives the reversed loop the reversed normal and leaves a unit normal
as it is when normalising), the Surface of such a roof ends with outward
normal (0, 0, 1) and the Surface of such a floor with (0, 0, -1). -/
theorem exterior_roof_floor_reversal (k : Kernel K) (surfaceNumber : Nat)
    (buildingFace : Face K) (buildingSpace : Cell K) (osFacePoints : List (Point3d K))
    (osSpace : Space) (upVector : Vector K) (glazingRatio : Option K) (st : State K)
    (faceType : FaceType)
    (hft : (CalculateFaceType k buildingFace osFacePoints buildingSpace upVector).1 =
      .ok faceType)
    (hadj : AdjacentCellCount buildingFace < 2) :
    ∃ osSurface : Surface K,
      (AddSurface k surfaceNumber buildingFace buildingSpace osFacePoints osSpace upVector
        glazingRatio st).1.osModel.surfaces = st.osModel.surfaces ++ [osSurface] ∧
      (faceType = FACE_ROOFCEILING →
        osSurface.vertices =
          if (k.Normalized (k.outwardNormal osFacePoints)).dot ⟨0, 0, 1⟩ < 0.98 then
            osFacePoints.reverse
          else osFacePoints) ∧
      (faceType = FACE_FLOOR →
        osSurface.vertices =
          if (k.Normalized (k.outwardNormal osFacePoints)).dot ⟨0, 0, -1⟩ < 0.98 then
            osFacePoints.reverse
          else osFacePoints) ∧
      ((k.outwardNormal osFacePoints = ⟨0, 0, 1⟩ ∨ k.outwardNormal osFacePoints = ⟨0, 0, -1⟩) →
        k.outwardNormal osFacePoints.reverse = (k.outwardNormal osFacePoints).Reverse →
        k.Normalized (k.outwardNormal osFacePoints) = k.outwardNormal osFacePoints →
        (faceType = FACE_ROOFCEILING → k.outwardNormal osSurface.vertices = ⟨0, 0, 1⟩) ∧
        (faceType = FACE_FLOOR → k.outwardNormal osSurface.vertices = ⟨0, 0, -1⟩)) :=
  AddSurface_exterior_horizontal_loop k surfaceNumber buildingFace buildingSpace osFacePoints
    osSpace upVector glazingRatio st faceType hft hadj

/-- Witness of `exterior_roof_floor_reversal`: the top face of the unit cube
wound with its normal down is classified RoofCeiling; its Surface carries the
reversed loop and ends with outward normal (0, 0, 1). -/
theorem exterior_roof_floor_reversal_witness :
    ∃ osSurface : Surface ℚ,
      (AddSurface boxKernel 1 downwardTopFace unitCube (GetFacePoints downwardTopFace)
        ⟨"STORY_1_SPACE_1"⟩ zAxis none emptyState).1.osModel.surfaces =
        emptyState.osModel.surfaces ++ [osSurface] ∧
      osSurface.vertices = (GetFacePoints (downwardTopFace : Face ℚ)).reverse ∧
      boxKernel.outwardNormal osSurface.vertices = ⟨0, 0, 1⟩ := by
  obtain ⟨osSurface, hs, hroof, _, hnormal⟩ := exterior_roof_floor_reversal boxKernel 1
    downwardTopFace unitCube (GetFacePoints downwardTopFace) ⟨"STORY_1_SPACE_1"⟩ zAxis none
    emptyState FACE_ROOFCEILING (by rw [downwardTopFace_run]) (by decide)
  refine ⟨osSurface, hs, ?_, ?_⟩
  · rw [hroof rfl, downwardTopFace_loop_normal]
    have hlt : (boxKernel.Normalized (⟨0, 0, -1⟩ : Vector ℚ)).dot ⟨0, 0, 1⟩ < 0.98 := by
      norm_num [boxKernel, normalizeAxis, Vector.l1, Vector.Scale, Vector.dot]
    rw [if_pos hlt]
  · refine (hnormal (Or.inr downwardTopFace_loop_normal) ?_ ?_).1 rfl
    · rw [downwardTopFace_reversed_normal, downwardTopFace_loop_normal]
      norm_num [Vector.Reverse]
    · rw [downwardTopFace_loop_normal]
      norm_num [boxKernel, normalizeAxis, Vector.l1, Vector.Scale]

end ReversalRule

section FanCount

variable {K : Type} [LinearOrderedField K]

theorem synthesizeWindow_final (k : Kernel K) (osSurface : Surface K) (surfaceIndex : Nat)
    (first b c : Vertex K) (s : SubState K)
    (h : ¬ NonCoplanar (orientationDot k osSurface.vertices (windowCandidate k first b c))) :
    synthesizeWindow k osSurface surfaceIndex first b c s =
      (attachWindow k osSurface surfaceIndex (windowFinal k osSurface.vertices first b c) s,
        .ok ()) := by
  rw [synthesizeWindow_rule, if_neg h]
  unfold windowFinal
  split_ifs <;> rfl

theorem consecutivePairs_index {α : Type} :
    ∀ (l : List α) (i : Nat) (b c : α), l[i]? = some b → l[i + 1]? = some c →
      (b, c) ∈ consecutivePairs l := by
  intro l
  induction l with
  | nil => intro i b c h; simp at h
  | cons x rest ih =>
    intro i b c hb hc
    cases rest with
    | nil => simp at hc
    | cons y rest2 =>
      cases i with
      | zero =>
        simp only [List.getElem?_cons_zero, Option.some.injEq, zero_add,
          List.getElem?_cons_succ] at hb hc
        subst hb hc
        simp [consecutivePairs]
      | succ j =>
        simp only [List.getElem?_cons_succ] at hb hc
        simp only [consecutivePairs, List.mem_cons]
        exact Or.inr (ih j b c hb (by simpa using hc))

theorem synthesizeWindows_exact (k : Kernel K) (osSurface : Surface K) (surfaceIndex : Nat)
    (first : Vertex K) :
    ∀ (rest : List (Vertex K)) (s : SubState K),
      (∀ pair ∈ consecutivePairs rest,
        ¬ NonCoplanar (orientationDot k osSurface.vertices
          (windowCandidate k first pair.1 pair.2))) →
      ∃ created,
        (synthesizeWindows k osSurface surfaceIndex first rest s).1.subs = s.subs ++ created ∧
        created.length = rest.length - 1 ∧
        ∀ (i : Nat) (b c : Vertex K), rest[i]? = some b → rest[i + 1]? = some c →
          ∃ sub, created[i]? = some sub ∧
            sub.vertices = windowFinal k osSurface.vertices first b c ∧
            sub.subSurfaceType = some "FixedWindow" ∧
            sub.name = some (osSurface.name.getD "" ++ "_SUBSURFACE_" ++
              toString (s.subsurfaceCounter + i)) := by
  intro rest
  induction rest with
  | nil => intro s _; exact ⟨[], by simp [synthesizeWindows], rfl, by intro i b c h; simp at h⟩
  | cons b0 tl ih =>
    intro s h
    cases tl with
    | nil =>
      refine ⟨[], by simp [synthesizeWindows], rfl, ?_⟩
      intro i b c _ hc
      simp at hc
    | cons c0 rest =>
      have hbc := h (b0, c0) (by simp [consecutivePairs])
      have hrest : ∀ pair ∈ consecutivePairs (c0 :: rest),
          ¬ NonCoplanar (orientationDot k osSurface.vertices
            (windowCandidate k first pair.1 pair.2)) := by
        intro pair hp
        exact h pair (by simp only [consecutivePairs]; exact List.mem_cons_of_mem _ hp)
      obtain ⟨created, hsubs, hlen, hidx⟩ := ih
        (attachWindow k osSurface surfaceIndex (windowFinal k osSurface.vertices first b0 c0) s)
        hrest
      obtain ⟨sub0, hs0, hv0, hn0, hc0, _⟩ := attachWindow_subs k osSurface surfaceIndex
        (windowFinal k osSurface.vertices first b0 c0) s
      have ht0 : sub0.subSurfaceType = some "FixedWindow" := by
        have : (attachWindow k osSurface surfaceIndex
            (windowFinal k osSurface.vertices first b0 c0) s).subs =
            s.subs ++ [{ vertices := windowFinal k osSurface.vertices first b0 c0
                         subSurfaceType := some "FixedWindow"
                         surface := if k.setSurfaceOk
                             (windowFinal k osSurface.vertices first b0 c0)
                             osSurface.vertices = true then some surfaceIndex else none
                         name := some (osSurface.name.getD "" ++ "_SUBSURFACE_" ++
                           toString s.subsurfaceCounter) }] := rfl
        rw [this] at hs0
        have := List.append_cancel_left hs0
        simp only [List.cons.injEq, and_true] at this
        rw [← this]
      refine ⟨sub0 :: created, ?_, ?_, ?_⟩
      · rw [synthesizeWindows, synthesizeWindow_final k osSurface surfaceIndex first b0 c0 s hbc]
        simp only
        rw [hsubs, hs0]
        simp
      · simp only [List.length_cons] at hlen ⊢
        omega
      · intro i b c hb hc
        cases i with
        | zero =>
          simp only [List.getElem?_cons_zero, Option.some.injEq, zero_add,
            List.getElem?_cons_succ] at hb hc
          subst hb hc
          exact ⟨sub0, by simp, hv0, ht0, by rw [hn0, Nat.add_zero]⟩
        | succ j =>
          simp only [List.getElem?_cons_succ] at hb hc
          obtain ⟨sub, h1, h2, h3, h4⟩ := hidx j b c hb (by simpa using hc)
          refine ⟨sub, by simpa using h1, h2, h3, ?_⟩
          rw [h4, hc0]
          congr 3
          omega

theorem AddSurface_fan_windows (k : Kernel K) (surfaceNumber : Nat)
    (buildingFace : Face K) (buildingSpace : Cell K) (osFacePoints : List (Point3d K))
    (osSpace : Space) (upVector : Vector K) (st : State K) (value : K)
    (hft : (CalculateFaceType k buildingFace osFacePoints buildingSpace upVector).1 =
      .ok FACE_WALL)
    (hadj : AdjacentCellCount buildingFace < 2) (hug : IsUnderground buildingFace = false)
    (hpos : 0 < value) (hle : value ≤ 1)
    (hn : 3 ≤ buildingFace.ExternalBoundary.length)
    (first : Vertex K) (rest : List (Vertex K))
    (hscaled : ScaleFaceVertices k buildingFace value = .ok (first :: rest))
    (hall : ∀ pair ∈ consecutivePairs rest,
      ¬ NonCoplanar (orientationDot k osFacePoints (windowCandidate k first pair.1 pair.2))) :
    first :: rest = buildingFace.ExternalBoundary.reverse.map
      (scaleAbout (meanVertex buildingFace.ExternalBoundary.reverse) (k.Sqrt value)) ∧
    (first :: rest).length = buildingFace.ExternalBoundary.length ∧
    (AddSurface k surfaceNumber buildingFace buildingSpace osFacePoints osSpace upVector
      (some value) st).2 = .ok (exteriorWallSurface st osFacePoints osSpace surfaceNumber) ∧
    ∃ created,
      (AddSurface k surfaceNumber buildingFace buildingSpace osFacePoints osSpace upVector
        (some value) st).1.osModel.subSurfaces = st.osModel.subSurfaces ++ created ∧
      created.length = buildingFace.ExternalBoundary.length - 2 ∧
      ∀ (i : Nat) (b c : Vertex K),
        (first :: rest)[i + 1]? = some b → (first :: rest)[i + 2]? = some c →
        ∃ sub, created[i]? = some sub ∧
          sub.vertices = windowFinal k osFacePoints first b c ∧
          sub.subSurfaceType = some "FixedWindow" ∧
          sub.name = some (osSpace.name ++ "_SURFACE_" ++ toString surfaceNumber ++
            "_SUBSURFACE_" ++ toString (i + 1)) := by
  have hform : first :: rest = buildingFace.ExternalBoundary.reverse.map
      (scaleAbout (meanVertex buildingFace.ExternalBoundary.reverse) (k.Sqrt value)) := by
    have h := hscaled
    unfold ScaleFaceVertices at h
    rw [ScaleVertices_mean k _ value (by rw [List.length_reverse]; exact hn)] at h
    exact (Except.ok.inj h).symm
  have hlen : (first :: rest).length = buildingFace.ExternalBoundary.length := by
    rw [hform, List.length_map, List.length_reverse]
  have hok := (AddSurface_ratio_outcome k surfaceNumber buildingFace buildingSpace
    osFacePoints osSpace upVector st hft hadj hug value hpos hle first rest hscaled).2 hall
  obtain ⟨hsubs, _, _⟩ := AddSurface_exterior_wall_subs k surfaceNumber buildingFace
    buildingSpace osFacePoints osSpace upVector (some value) st hft hadj hug
  have hzero : (0.0 : K) = 0 := by norm_num
  have hone : (1.0 : K) = 1 := by norm_num
  have hrange : ¬ (value < 0.0 ∨ value > 1.0) := by
    rw [hzero, hone]
    intro h
    rcases h with h | h
    · exact absurd hpos (not_lt.mpr (le_of_lt h))
    · exact absurd hle (not_le.mpr h)
  have hin : value > 0.0 ∧ value ≤ 1.0 := by
    rw [hzero, hone]
    exact ⟨hpos, hle⟩
  simp only [addWallApertures, if_neg hrange, if_pos hin, hscaled] at hsubs
  obtain ⟨created, hcr, hcl, hidx⟩ := synthesizeWindows_exact k
    (exteriorWallSurface st osFacePoints osSpace surfaceNumber) st.osModel.surfaces.length
    first rest ⟨[], 1, st.numOfApertures, st.numOfAppliedApertures⟩ hall
  refine ⟨hform, hlen, hok, created, ?_, ?_, ?_⟩
  · rw [hsubs, hcr]
    simp
  · rw [hcl, ← hlen, List.length_cons]
    omega
  · intro i b c hb hc
    obtain ⟨sub, h1, h2, h3, h4⟩ := hidx i b c (by simpa using hb) (by simpa using hc)
    refine ⟨sub, h1, h2, h3, ?_⟩
    rw [h4]
    simp only [exteriorWallSurface, Option.getD_some, Nat.add_comm 1 i]

/-- C21: for a face classified Wall with fewer than two adjacent cells and not
underground whose outer loop has n >= 3 vertices, and a glazing ratio in
(0,1]: the scaled loop `s` has n vertices (the reversed outer loop scaled about
its mean), and when no candidate fails the orientation check `AddSurface`
returns and has created exactly n - 2 sub-surfaces; the i-th (i = 0..n-3) is
the triangle `(s[0], s[i+1], s[i+2])` scaled about the mean of its own three
vertices, in that vertex order or, when the orientation check flips it, in the
reverse order, with type FixedWindow and the name
`<surface name>_SUBSURFACE_<i+1>`. -/
theorem ratio_synthesis_fan (k : Kernel K) (surfaceNumber : Nat)
    (buildingFace : Face K) (buildingSpace : Cell K) (osFacePoints : List (Point3d K))
    (osSpace : Space) (upVector : Vector K) (st : State K) (value : K)
    (hft : (CalculateFaceType k buildingFace osFacePoints buildingSpace upVector).1 =
      .ok FACE_WALL)
    (hadj : AdjacentCellCount buildingFace < 2) (hug : IsUnderground buildingFace = false)
    (hpos : 0 < value) (hle : value ≤ 1)
    (hn : 3 ≤ buildingFace.ExternalBoundary.length)
    (first : Vertex K) (rest : List (Vertex K))
    (hscaled : ScaleFaceVertices k buildingFace value = .ok (first :: rest))
    (hall : ∀ pair ∈ consecutivePairs rest,
      ¬ NonCoplanar (orientationDot k osFacePoints (windowCandidate k first pair.1 pair.2))) :
    first :: rest = buildingFace.ExternalBoundary.reverse.map
      (scaleAbout (meanVertex buildingFace.ExternalBoundary.reverse) (k.Sqrt value)) ∧
    (first :: rest).length = buildingFace.ExternalBoundary.length ∧
    (AddSurface k surfaceNumber buildingFace buildingSpace osFacePoints osSpace upVector
      (some value) st).2 = .ok (exteriorWallSurface st osFacePoints osSpace surfaceNumber) ∧
    ∃ created,
      (AddSurface k surfaceNumber buildingFace buildingSpace osFacePoints osSpace upVector
        (some value) st).1.osModel.subSurfaces = st.osModel.subSurfaces ++ created ∧
      created.length = buildingFace.ExternalBoundary.length - 2 ∧
      ∀ (i : Nat) (b c : Vertex K),
        (first :: rest)[i + 1]? = some b → (first :: rest)[i + 2]? = some c →
        ∃ sub, created[i]? = some sub ∧
          sub.vertices = windowFinal k osFacePoints first b c ∧
          sub.subSurfaceType = some "FixedWindow" ∧
          sub.name = some (osSpace.name ++ "_SURFACE_" ++ toString surfaceNumber ++
            "_SUBSURFACE_" ++ toString (i + 1)) :=
  AddSurface_fan_windows k surfaceNumber buildingFace buildingSpace osFacePoints osSpace
    upVector st value hft hadj hug hpos hle hn first rest hscaled hall

/-- Witness of `ratio_synthesis_fan`: the south wall of the unit cube (n = 4)
with the glazing ratio 1 gets exactly two sub-surfaces, named
`STORY_1_SPACE_1_SURFACE_1_SUBSURFACE_1` and `..._2`. -/
theorem ratio_synthesis_fan_witness :
    ∃ subA subB : SubSurface ℚ,
      (AddSurface boxKernel 1 southFace unitCube (GetFacePoints southFace)
        ⟨"STORY_1_SPACE_1"⟩ zAxis (some 1) emptyState).1.osModel.subSurfaces = [subA, subB] ∧
      subA.name = some "STORY_1_SPACE_1_SURFACE_1_SUBSURFACE_1" ∧
      subB.name = some "STORY_1_SPACE_1_SURFACE_1_SUBSURFACE_2" := by
  obtain ⟨_, _, _, created, hcr, hlen, hidx⟩ := ratio_synthesis_fan boxKernel 1 southFace
    unitCube (GetFacePoints southFace) ⟨"STORY_1_SPACE_1"⟩ zAxis emptyState 1 southFace_type
    (by decide) southFace_not_underground (by norm_num) le_rfl (by decide) ⟨0, 0, 1⟩
    [⟨1, 0, 1⟩, ⟨1, 0, 0⟩, ⟨0, 0, 0⟩] southFace_scaled southFace_window_dots
  obtain ⟨subA, hA, _, _, hnA⟩ := hidx 0 ⟨1, 0, 1⟩ ⟨1, 0, 0⟩ rfl rfl
  obtain ⟨subB, hB, _, _, hnB⟩ := hidx 1 ⟨1, 0, 0⟩ ⟨0, 0, 0⟩ rfl rfl
  have hlen2 : created.length = 2 := hlen
  have hlist : created = [subA, subB] := by
    match created, hlen2, hA, hB with
    | [x, y], _, hA, hB =>
      simp only [List.getElem?_cons_zero, Option.some.injEq, List.getElem?_cons_succ] at hA hB
      rw [hA, hB]
  refine ⟨subA, subB, ?_, ?_, ?_⟩
  · rw [hcr, hlist]
    rfl
  · rw [hnA]
    decide
  · rw [hnB]
    decide

end FanCount

section SpaceNames

variable {K : Type} [LinearOrderedField K]

theorem AddSpace_name (k : Kernel K) (buildingStories : List String) (cell : Cell K)
    (upVector : Vector K) (floorLevels : List K) (glazingRatio : Option K)
    (st st1 : State K) (osSpace : Space)
    (h : AddSpace k buildingStories 1 cell upVector floorLevels glazingRatio st =
      (st1, .ok osSpace)) :
    ∃ story, buildingStories[StoryNumber cell floorLevels]? = some story ∧
      osSpace.name = story ++ "_SPACE_1" := by
  unfold AddSpace at h
  simp only at h
  rcases hstory : buildingStories[StoryNumber cell floorLevels]? with _ | buildingStory
  · rw [hstory] at h
    simp only [Prod.mk.injEq, reduceCtorEq, and_false] at h
  · rw [hstory] at h
    simp only at h
    refine ⟨buildingStory, rfl, ?_⟩
    have hname : buildingStory ++ "_SPACE_" ++ toString 1 = buildingStory ++ "_SPACE_1" := by
      rw [String.append_assoc]
      rfl
    rcases hloop : AddSpaceSurfaces k cell ⟨buildingStory ++ "_SPACE_" ++ toString 1⟩ upVector
      glazingRatio cell.Faces 0 st with ⟨st2, res⟩
    rw [hloop] at h
    cases res with
    | error e => simp only [Prod.mk.injEq, reduceCtorEq, and_false] at h
    | ok u =>
      simp only [Prod.mk.injEq, Except.ok.injEq] at h
      rw [← h.2, hname]

theorem AddSpaces_calls (k : Kernel K) (matchSurfaces : Space → Space → Model K → Model K)
    (buildingStories : List String) (floorLevels : List K) (glazingRatio : Option K) :
    ∀ (cells : List (Cell K)) (osSpaceVector : List Space) (st st1 : State K)
      (spaces : List Space),
      AddSpaces k matchSurfaces buildingStories floorLevels glazingRatio cells osSpaceVector
        st = (st1, .ok spaces) →
      ∃ made : List Space, spaces = osSpaceVector ++ made ∧ made.length = cells.length ∧
        ∀ (i : Nat) (cell : Cell K), cells[i]? = some cell →
          ∃ (osSpace : Space) (stA stB : State K), made[i]? = some osSpace ∧
            AddSpace k buildingStories 1 cell zAxis floorLevels glazingRatio stA =
              (stB, .ok osSpace) := by
  intro cells
  induction cells with
  | nil =>
    intro v st st1 spaces h
    simp only [AddSpaces, Prod.mk.injEq, Except.ok.injEq] at h
    exact ⟨[], by rw [← h.2]; simp, rfl, by intro i cell hc; simp at hc⟩
  | cons cell rest ih =>
    intro v st st1 spaces h
    rw [AddSpaces] at h
    simp only at h
    rcases hres : AddSpace k buildingStories 1 cell zAxis floorLevels glazingRatio st with
      ⟨st2, res⟩
    rw [hres] at h
    cases res with
    | error e => simp only [Prod.mk.injEq, reduceCtorEq, and_false] at h
    | ok osSpace =>
      simp only at h
      obtain ⟨made, hmade, hlen, hidx⟩ := ih _ _ _ _ h
      refine ⟨osSpace :: made, by rw [hmade]; simp, by simp [hlen], ?_⟩
      intro i c hc
      cases i with
      | zero =>
        simp only [List.getElem?_cons_zero, Option.some.injEq] at hc
        subst hc
        exact ⟨osSpace, st, st2, by simp, hres⟩
      | succ j =>
        simp only [List.getElem?_cons_succ] at hc
        obtain ⟨sp, stA, stB, h1, h2⟩ := hidx j c hc
        exact ⟨sp, stA, stB, by simpa using h1, h2⟩

theorem ByCellComplex_spaces (k : Kernel K)
    (matchSurfaces : Space → Space → Model K → Model K) (template : Model K)
    (pBuildingCells : List (Cell K)) (floorLevels : List K) (glazingRatio : Option K)
    (st : State K) (spaces : List Space)
    (h : ByCellComplex k matchSurfaces template pBuildingCells floorLevels glazingRatio =
      (st, .ok spaces)) :
    spaces.length = pBuildingCells.length ∧
    ∀ (i : Nat) (cell : Cell K), pBuildingCells[i]? = some cell →
      ∃ (osSpace : Space) (story : String) (stA stB : State K),
        spaces[i]? = some osSpace ∧
        (CreateBuildingStories (numFloors floorLevels))[StoryNumber cell floorLevels]? =
          some story ∧
        osSpace.name = story ++ "_SPACE_1" ∧
        AddSpace k (CreateBuildingStories (numFloors floorLevels)) 1 cell zAxis floorLevels
          glazingRatio stA = (stB, .ok osSpace) ∧
        ∃ created : List (Surface K),
          stB.osModel.surfaces = stA.osModel.surfaces ++ created ∧
          created.length = cell.Faces.length ∧
          ∀ (j : Nat) (face : Face K), cell.Faces[j]? = some face →
            ∃ osSurface, created[j]? = some osSurface ∧
              osSurface.name =
                some (story ++ "_SPACE_1" ++ "_SURFACE_" ++ toString (j + 1)) := by
  unfold ByCellComplex at h
  cases floorLevels with
  | nil => simp only [Prod.mk.injEq, reduceCtorEq, and_false] at h
  | cons a levels =>
    simp only at h
    obtain ⟨made, hmade, hlen, hidx⟩ := AddSpaces_calls k matchSurfaces _ _ glazingRatio
      pBuildingCells [] _ st spaces h
    rw [List.nil_append] at hmade
    subst hmade
    refine ⟨hlen, ?_⟩
    intro i cell hc
    obtain ⟨osSpace, stA, stB, h1, h2⟩ := hidx i cell hc
    obtain ⟨story, hstory, hname⟩ := AddSpace_name k _ cell zAxis _ glazingRatio stA stB
      osSpace h2
    obtain ⟨created, hcr, hcl, hsurf⟩ := AddSpace_created k _ 1 cell zAxis _ glazingRatio
      stA stB osSpace h2
    refine ⟨osSpace, story, stA, stB, h1, hstory, hname, h2, created, hcr, hcl, ?_⟩
    intro j face hf
    obtain ⟨osSurface, hs1, _, hs3, _⟩ := hsurf j face hf
    exact ⟨osSurface, hs1, by rw [hs3, hname]⟩

theorem ByCellComplex_shared_name (k : Kernel K)
    (matchSurfaces : Space → Space → Model K → Model K) (template : Model K)
    (pBuildingCells : List (Cell K)) (floorLevels : List K) (glazingRatio : Option K)
    (st : State K) (spaces : List Space)
    (h : ByCellComplex k matchSurfaces template pBuildingCells floorLevels glazingRatio =
      (st, .ok spaces))
    (i j : Nat) (cellA cellB : Cell K) (spaceA spaceB : Space)
    (hA : pBuildingCells[i]? = some cellA) (hB : pBuildingCells[j]? = some cellB)
    (hsA : spaces[i]? = some spaceA) (hsB : spaces[j]? = some spaceB)
    (hsame : StoryNumber cellA floorLevels = StoryNumber cellB floorLevels) :
    spaceA.name = spaceB.name := by
  obtain ⟨_, hidx⟩ := ByCellComplex_spaces k matchSurfaces template pBuildingCells floorLevels
    glazingRatio st spaces h
  obtain ⟨sA, storyA, _, _, h1, h2, h3, _⟩ := hidx i cellA hA
  obtain ⟨sB, storyB, _, _, h4, h5, h6, _⟩ := hidx j cellB hB
  rw [hsA] at h1
  rw [hsB] at h4
  cases h1
  cases h4
  rw [hsame, h5] at h2
  cases h2
  rw [h3, h6]

end SpaceNames

section SpaceNamesClaim

variable {K : Type} [LinearOrderedField K]

/-- C26: `ByCellComplex` calls `AddSpace` with space number 1 for every cell.
When it returns, there is one Space per cell, in the order of the cells; the
Space of a cell is named `<story name>_SPACE_1`, the story being the one the
cell is mapped to, and the Surfaces created by the `AddSpace` call of the cell
are named `<story name>_SPACE_1_SURFACE_<j>`, one per face.  Hence two cells
mapped to the same story get Spaces of the same name, whatever their position
in the input. -/
theorem ByCellComplex_space_names (k : Kernel K)
    (matchSurfaces : Space → Space → Model K → Model K) (template : Model K)
    (pBuildingCells : List (Cell K)) (floorLevels : List K) (glazingRatio : Option K)
    (st : State K) (spaces : List Space)
    (h : ByCellComplex k matchSurfaces template pBuildingCells floorLevels glazingRatio =
      (st, .ok spaces)) :
    spaces.length = pBuildingCells.length ∧
    (∀ (i : Nat) (cell : Cell K), pBuildingCells[i]? = some cell →
      ∃ (osSpace : Space) (story : String) (stA stB : State K),
        spaces[i]? = some osSpace ∧
        (CreateBuildingStories (numFloors floorLevels))[StoryNumber cell floorLevels]? =
          some story ∧
        osSpace.name = story ++ "_SPACE_1" ∧
        AddSpace k (CreateBuildingStories (numFloors floorLevels)) 1 cell zAxis floorLevels
          glazingRatio stA = (stB, .ok osSpace) ∧
        ∃ created : List (Surface K),
          stB.osModel.surfaces = stA.osModel.surfaces ++ created ∧
          created.length = cell.Faces.length ∧
          ∀ (j : Nat) (face : Face K), cell.Faces[j]? = some face →
            ∃ osSurface, created[j]? = some osSurface ∧
              osSurface.name =
                some (story ++ "_SPACE_1" ++ "_SURFACE_" ++ toString (j + 1))) ∧
    (∀ (i j : Nat) (cellA cellB : Cell K) (spaceA spaceB : Space),
      pBuildingCells[i]? = some cellA → pBuildingCells[j]? = some cellB →
      spaces[i]? = some spaceA → spaces[j]? = some spaceB →
      StoryNumber cellA floorLevels = StoryNumber cellB floorLevels →
      spaceA.name = spaceB.name) :=
  ⟨(ByCellComplex_spaces k matchSurfaces template pBuildingCells floorLevels glazingRatio st
      spaces h).1,
    (ByCellComplex_spaces k matchSurfaces template pBuildingCells floorLevels glazingRatio st
      spaces h).2,
    fun i j cellA cellB spaceA spaceB hA hB hsA hsB hsame =>
      ByCellComplex_shared_name k matchSurfaces template pBuildingCells floorLevels
        glazingRatio st spaces h i j cellA cellB spaceA spaceB hA hB hsA hsB hsame⟩

theorem unitCube_AddSpace_ok_from (st : State ℚ) :
    ∃ st1, AddSpace boxKernel ["STORY_1"] 1 (unitCube : Cell ℚ) zAxis [0, 3] none st =
      (st1, .ok ⟨"STORY_1_SPACE_1"⟩) := by
  obtain ⟨st1, h⟩ := AddSpaceSurfaces_ok_of_plain_faces boxKernel (unitCube : Cell ℚ)
    ⟨"STORY_1_SPACE_1"⟩ zAxis (unitCube : Cell ℚ).Faces 0 st unitCube_plain_faces
  refine ⟨st1, ?_⟩
  have hstory : StoryNumber (unitCube : Cell ℚ) [0, 3] = 0 := by
    norm_num [StoryNumber, StoryNumberLoop, unitCube]
  have hname : "STORY_1" ++ "_SPACE_" ++ toString 1 = "STORY_1_SPACE_1" := by decide
  simp only [AddSpace, hstory, List.getElem?_cons_zero, hname, h]

theorem twoCubes_ByCellComplex :
    ∃ st, ByCellComplex boxKernel (fun _ _ osModel => osModel) (emptyState : State ℚ).osModel
        [unitCube, unitCube] [0, 3] none =
      (st, .ok [⟨"STORY_1_SPACE_1"⟩, ⟨"STORY_1_SPACE_1"⟩]) := by
  have hstories : CreateBuildingStories (numFloors ([0, 3] : List ℚ)) = ["STORY_1"] := by
    decide
  obtain ⟨st1, h1⟩ := unitCube_AddSpace_ok_from
    ({ osModel := (emptyState : State ℚ).osModel, numOfApertures := 0,
       numOfAppliedApertures := 0 } : State ℚ)
  obtain ⟨st2, h2⟩ := unitCube_AddSpace_ok_from
    (⟨st1.osModel, st1.numOfApertures, st1.numOfAppliedApertures⟩ : State ℚ)
  refine ⟨⟨st2.osModel, st2.numOfApertures, st2.numOfAppliedApertures⟩, ?_⟩
  simp only [ByCellComplex, hstories, AddSpaces, h1, List.foldl_nil, h2, List.foldl_cons,
    List.nil_append, List.cons_append]

/-- Witness of `ByCellComplex_space_names`: two copies of the unit cube on the
one story from elevation 0 to 3; both Spaces are named `STORY_1_SPACE_1`. -/
theorem ByCellComplex_space_names_witness :
    ∃ (st : State ℚ) (spaceA spaceB : Space),
      ByCellComplex boxKernel (fun _ _ osModel => osModel) (emptyState : State ℚ).osModel
        [unitCube, unitCube] [0, 3] none = (st, .ok [spaceA, spaceB]) ∧
      spaceA.name = spaceB.name ∧ spaceA.name = "STORY_1_SPACE_1" := by
  obtain ⟨st, h⟩ := twoCubes_ByCellComplex
  exact ⟨st, ⟨"STORY_1_SPACE_1"⟩, ⟨"STORY_1_SPACE_1"⟩, h,
    (ByCellComplex_space_names boxKernel (fun _ _ osModel => osModel)
      (emptyState : State ℚ).osModel [unitCube, unitCube] [0, 3] none st
      [⟨"STORY_1_SPACE_1"⟩, ⟨"STORY_1_SPACE_1"⟩] h).2.2 0 1 unitCube unitCube
      ⟨"STORY_1_SPACE_1"⟩ ⟨"STORY_1_SPACE_1"⟩ rfl rfl rfl rfl rfl, rfl⟩

end SpaceNamesClaim

section SurfaceLoops

variable {K : Type} [LinearOrderedField K]

theorem AddSpaceSurfaces_loops (k : Kernel K) (cell : Cell K) (osSpace : Space)
    (upVector : Vector K) (glazingRatio : Option K) :
    ∀ (faces : List (Face K)) (i : Nat) (st st1 : State K),
      AddSpaceSurfaces k cell osSpace upVector glazingRatio faces i st = (st1, .ok ()) →
      ∃ created : List (Surface K),
        st1.osModel.surfaces = st.osModel.surfaces ++ created ∧
        created.length = faces.length ∧
        ∀ (j : Nat) (face : Face K), faces[j]? = some face →
          ∃ osSurface, created[j]? = some osSurface ∧
            osSurface.space = some osSpace.name ∧
            osSurface.name = some (osSpace.name ++ "_SURFACE_" ++ toString (i + j + 1)) ∧
            ∃ faceType,
              (CalculateFaceType k face (GetFacePoints face) cell
                upVector).1 = .ok faceType ∧
              osSurface.vertices = surfaceLoop k faceType (AdjacentCellCount face)
                (GetFacePoints face) := by
  intro faces
  induction faces with
  | nil =>
    intro i st st1 h
    simp only [AddSpaceSurfaces, Prod.mk.injEq, and_true] at h
    subst h
    exact ⟨[], by simp, rfl, by intro j face hj; simp at hj⟩
  | cons face rest ih =>
    intro i st st1 h
    rw [AddSpaceSurfaces] at h
    rcases hstep : AddSurface k (i + 1) face cell (GetFacePoints face)
      osSpace upVector glazingRatio st with ⟨st2, e | returned⟩
    · rw [hstep] at h
      simp only [Prod.mk.injEq, reduceCtorEq, and_false] at h
    · rw [hstep] at h
      simp only at h
      rcases hcls : (CalculateFaceType k face (GetFacePoints face)
          cell upVector).1 with e | faceType
      · have herr := AddSurface_error_of_classifier_error k (i + 1) face cell
          (GetFacePoints face) osSpace upVector glazingRatio st e hcls
        rw [herr] at hstep
        simp only [Prod.mk.injEq, reduceCtorEq, and_false] at hstep
      · obtain ⟨osSurface, hsurf, hverts, hspace, hname, _⟩ := AddSurface_surface k (i + 1)
          face cell (GetFacePoints face) osSpace upVector glazingRatio
          st faceType hcls
        rw [hstep] at hsurf
        simp only at hsurf
        obtain ⟨created, hcr, hlen, hall⟩ := ih (i + 1) st2 st1 h
        refine ⟨osSurface :: created, ?_, ?_, ?_⟩
        · rw [hcr, hsurf]; simp
        · simp [hlen]
        · intro j f hj
          cases j with
          | zero =>
            simp only [List.getElem?_cons_zero, Option.some.injEq] at hj
            subst hj
            exact ⟨osSurface, by simp, hspace, by simpa using hname, faceType, hcls, hverts⟩
          | succ j1 =>
            simp only [List.getElem?_cons_succ] at hj
            obtain ⟨s, hs, hsp, hnm, hvs⟩ := hall j1 f hj
            refine ⟨s, by simpa using hs, hsp, ?_, hvs⟩
            rw [hnm]
            congr 3
            omega

theorem AddSpace_loops (k : Kernel K) (buildingStories : List String) (spaceNumber : Nat)
    (cell : Cell K) (upVector : Vector K) (floorLevels : List K) (glazingRatio : Option K)
    (st st1 : State K) (osSpace : Space)
    (h : AddSpace k buildingStories spaceNumber cell upVector floorLevels glazingRatio st =
      (st1, .ok osSpace)) :
    ∃ created : List (Surface K),
      st1.osModel.surfaces = st.osModel.surfaces ++ created ∧
      created.length = cell.Faces.length ∧
      ∀ (i : Nat) (face : Face K), cell.Faces[i]? = some face →
        ∃ osSurface, created[i]? = some osSurface ∧
          osSurface.space = some osSpace.name ∧
          osSurface.name = some (osSpace.name ++ "_SURFACE_" ++ toString (i + 1)) ∧
          (osSurface.vertices = GetFacePoints face ∨
            osSurface.vertices = (GetFacePoints face).reverse) ∧
          ∃ faceType,
            (CalculateFaceType k face (GetFacePoints face) cell
              upVector).1 = .ok faceType ∧
            osSurface.vertices = surfaceLoop k faceType (AdjacentCellCount face)
              (GetFacePoints face) := by
  unfold AddSpace at h
  simp only at h
  rcases hstory : buildingStories[StoryNumber cell floorLevels]? with _ | buildingStory
  · rw [hstory] at h
    simp only [Prod.mk.injEq, reduceCtorEq, and_false] at h
  · rw [hstory] at h
    simp only at h
    rcases hloop : AddSpaceSurfaces k cell
      ⟨buildingStory ++ "_SPACE_" ++ toString spaceNumber⟩ upVector glazingRatio cell.Faces 0
      st with ⟨st2, e | u⟩
    · rw [hloop] at h
      simp only [Prod.mk.injEq, reduceCtorEq, and_false] at h
    · rw [hloop] at h
      simp only [Prod.mk.injEq, Except.ok.injEq] at h
      obtain ⟨hst, hsp⟩ := h
      subst hst; subst hsp
      obtain ⟨created, hcr, hlen, hall⟩ := AddSpaceSurfaces_loops k cell _ upVector
        glazingRatio cell.Faces 0 st st2 hloop
      refine ⟨created, hcr, hlen, ?_⟩
      intro i face hi
      obtain ⟨s, hs, hsp, hnm, faceType, hcls, hvs⟩ := hall i face hi
      refine ⟨s, hs, hsp, by simpa using hnm, ?_, faceType, hcls, hvs⟩
      rw [hvs]
      exact surfaceLoop_cases k faceType _ _

/-- C17: when `AddSpace` returns a Space for a cell with k bounding faces, it
has created exactly k Surfaces, in the native order of the faces of the cell:
the i-th (1-based) is attached to the space, is named
`<space name>_SURFACE_<i>`, and its loop is made of the vertices of the
external boundary of the i-th face, converted to points, in their order or in
the reverse order.  The order is the reverse one exactly for a face classified
RoofCeiling or Floor with fewer than two adjacent cells whose normalised
outward normal has a dot product below 0.98 with (0, 0, 1), respectively
(0, 0, -1); in every other case it is the order of the boundary. -/
theorem AddSpace_one_surface_per_face (k : Kernel K) (buildingStories : List String)
    (spaceNumber : Nat) (cell : Cell K) (upVector : Vector K) (floorLevels : List K)
    (glazingRatio : Option K) (st st1 : State K) (osSpace : Space)
    (h : AddSpace k buildingStories spaceNumber cell upVector floorLevels glazingRatio st =
      (st1, .ok osSpace)) :
    ∃ created : List (Surface K),
      st1.osModel.surfaces = st.osModel.surfaces ++ created ∧
      created.length = cell.Faces.length ∧
      ∀ (i : Nat) (face : Face K), cell.Faces[i]? = some face →
        ∃ osSurface, created[i]? = some osSurface ∧
          osSurface.space = some osSpace.name ∧
          osSurface.name = some (osSpace.name ++ "_SURFACE_" ++ toString (i + 1)) ∧
          (osSurface.vertices = face.ExternalBoundary.map Vertex.toPoint3d ∨
            osSurface.vertices = (face.ExternalBoundary.map Vertex.toPoint3d).reverse) ∧
          ∃ faceType,
            (CalculateFaceType k face (face.ExternalBoundary.map Vertex.toPoint3d) cell
              upVector).1 = .ok faceType ∧
            osSurface.vertices =
              if AdjacentCellCount face < 2 ∧ faceType = FACE_ROOFCEILING then
                if (k.Normalized (k.outwardNormal
                    (face.ExternalBoundary.map Vertex.toPoint3d))).dot ⟨0, 0, 1⟩ < 0.98 then
                  (face.ExternalBoundary.map Vertex.toPoint3d).reverse
                else face.ExternalBoundary.map Vertex.toPoint3d
              else if AdjacentCellCount face < 2 ∧ faceType = FACE_FLOOR then
                if (k.Normalized (k.outwardNormal
                    (face.ExternalBoundary.map Vertex.toPoint3d))).dot ⟨0, 0, -1⟩ < 0.98 then
                  (face.ExternalBoundary.map Vertex.toPoint3d).reverse
                else face.ExternalBoundary.map Vertex.toPoint3d
              else face.ExternalBoundary.map Vertex.toPoint3d :=
  AddSpace_loops k buildingStories spaceNumber cell upVector floorLevels glazingRatio st st1
    osSpace h

/-- Witness of `AddSpace_one_surface_per_face`: the unit cube, with one story
from elevation 0 to 3, gets six Surfaces; the third, for the south wall, is
named `STORY_1_SPACE_1_SURFACE_3` and carries the four corners of the wall in
the order of its boundary. -/
theorem AddSpace_one_surface_per_face_witness :
    ∃ created : List (Surface ℚ),
      (AddSpace boxKernel ["STORY_1"] 1 (unitCube : Cell ℚ) zAxis [0, 3] none
        emptyState).1.osModel.surfaces = (emptyState : State ℚ).osModel.surfaces ++ created ∧
      created.length = 6 ∧
      ∃ osSurface, created[2]? = some osSurface ∧
        osSurface.name = some "STORY_1_SPACE_1_SURFACE_3" ∧
        osSurface.vertices = [⟨0, 0, 0⟩, ⟨1, 0, 0⟩, ⟨1, 0, 1⟩, ⟨0, 0, 1⟩] := by
  obtain ⟨st1, h⟩ := unitCube_AddSpace_ok
  obtain ⟨created, hcr, hlen, hall⟩ := AddSpace_one_surface_per_face boxKernel ["STORY_1"] 1
    (unitCube : Cell ℚ) zAxis [0, 3] none emptyState st1 ⟨"STORY_1_SPACE_1"⟩ h
  obtain ⟨osSurface, hs, _, hname, _, faceType, hcls, hverts⟩ := hall 2 southFace rfl
  have htype : (CalculateFaceType boxKernel southFace
      ((southFace : Face ℚ).ExternalBoundary.map Vertex.toPoint3d) unitCube zAxis).1 =
      .ok FACE_WALL := southFace_type
  rw [htype] at hcls
  cases hcls
  refine ⟨created, ?_, hlen, osSurface, hs, ?_, ?_⟩
  · rw [h]
    exact hcr
  · rw [hname]
    decide
  · rw [hverts]
    simp [southFace, cubeFace, Vertex.toPoint3d]

end SurfaceLoops

end TopologicEnergy
